import Mathlib

set_option autoImplicit false

/-!
# Versioned document lifecycle: shallow embedding

The Go sources `shared/commons.go`, `azbi/v0/config.go` and `azbi/v0/state.go` are embedded as
pure functions.  A Go `map[string]interface{}` is a reference that the upgrade functions mutate
in place; here every such function returns the tree as it stands when the function returns
(also when it returns an error), next to the error value.
-/

/-- A decoded JSON value: what `json.Unmarshal` stores into an `interface{}`. -/
inductive JSON where
  | null
  | bool (b : Bool)
  | num (q : ℚ)
  | str (s : String)
  | arr (xs : List JSON)
  | obj (kvs : List (String × JSON))

/-- A Go `map[string]interface{}`: association list, the first entry of a key is the live one. -/
abbrev Obj := List (String × JSON)

/-- Map read `m[k]`; `none` is the nil interface Go yields for an absent key. -/
def mapGet : Obj → String → Option JSON
  | [], _ => none
  | (k', v) :: rest, k => if k' = k then some v else mapGet rest k

/-- Map write `m[k] = v`. -/
def mapSet : Obj → String → JSON → Obj
  | [], k, v => [(k, v)]
  | (k', v') :: rest, k, v => if k' = k then (k, v) :: rest else (k', v') :: mapSet rest k v

/-- Type assertion `x.(map[string]interface{})`. -/
def asMap : Option JSON → Option Obj
  | some (JSON.obj m) => some m
  | _ => none

/-- Type assertion `x.(string)`. -/
def asString : Option JSON → Option String
  | some (JSON.str s) => some s
  | _ => none

namespace validator

/-- One violation reported by the validation library (namespace, field and rule tag). -/
structure FieldError where
  Namespace : String
  Field : String
  Tag : String
deriving DecidableEq, Repr

end validator

namespace shared

/-- Error values returned by the embedded code. -/
inductive Error where
  /-- Result of `errors.New(msg)` or `fmt.Errorf(msg)`. -/
  | text (msg : String)
  /-- The value `os.ErrExist`. -/
  | ErrExist
  /-- A file-system error for which `os.IsNotExist` holds. -/
  | ErrNotExist
  /-- Any other file-system error. -/
  | fileSystem (msg : String)
  /-- An error of `json.Unmarshal`. -/
  | unmarshal (msg : String)
  /-- An error of `json.MarshalIndent`. -/
  | marshal (msg : String)
  /-- An error of the `mapstructure` decoder. -/
  | decode (msg : String)
  /-- The non-empty `validator.ValidationErrors` of a failed validation. -/
  | ValidationErrors (errs : List validator.FieldError)
  /-- The struct `NotCurrentVersionError`. -/
  | NotCurrentVersionError (Version : String)
deriving DecidableEq, Repr

/-- `GetVersion` of `shared/commons.go`. -/
def GetVersion (input : Obj) : Except Error String :=
  match asMap (mapGet input "meta") with
  | none =>
    .error (.text "structure doesn't look like one we can understand - does not have meta object")
  | some meta =>
    match asString (mapGet meta "version") with
    | none =>
      .error (.text
        "structure doesn't look like one we can understand - meta object does not have version field")
    | some v => .ok v

/-- `checkVersion` of `shared/commons.go`; `none` is the nil error. -/
def checkVersion (input : Obj) (version : String) : Option Error :=
  match GetVersion input with
  | .error err => some err
  | .ok v => if version ≠ v then some (.NotCurrentVersionError v) else none

end shared

/-- What one pass through the body of a `for !upgraded` loop does: go round again, or leave the
function with an error value (`none` for `upgraded = true` followed by `return nil`). -/
inductive LoopStep where
  | next (input : Obj)
  | exit (input : Obj) (err : Option shared.Error)

/-- State of the caller-visible tree and the returned error when an upgrade function returns,
with the number of passes through the loop body that were made. -/
structure Outcome where
  input : Obj
  err : Option shared.Error
  iterations : Nat

/-- The loop `for !upgraded { body }`, run for at most `fuel` passes; `none` when the fuel is
used up before the function returns. -/
def runLoop (body : Obj → Option LoopStep) : Nat → Obj → Option Outcome
  | 0, _ => none
  | fuel + 1, input =>
    match body input with
    | none => none
    | some (.exit t e) => some ⟨t, e, 1⟩
    | some (.next t) =>
      match runLoop body fuel t with
      | none => none
      | some o => some ⟨o.input, o.err, o.iterations + 1⟩

namespace azbi

/-- Modelled from the spec: the constant `configVersion` is declared in a file of the package
that is not among the sources; `TestConfig_Init` and `TestConfig_Load` fix its value. -/
def configVersion : String := "v0.2.1"

/-- Modelled from the spec: the constant `stateVersion` is declared in a file of the package
that is not among the sources; `TestState_Load` and `TestState_Upgrade` fix its value. -/
def stateVersion : String := "v0.0.2"

/-- Body of the loop of `Config.UpgradeFunc` (`azbi/v0/config.go`). -/
def Config.UpgradeFunc.body (input : Obj) : LoopStep :=
  match shared.GetVersion input with
  | .error err => .exit input (some err)
  | .ok v =>
    if v = "v0.2.0" then
      match asMap (mapGet input "meta") with
      | none => .exit input (some (.text "incorrect casting"))
      | some meta =>
        let meta := mapSet meta "version" (.str "v0.2.1")
        let input := mapSet input "meta" (.obj meta)
        match asMap (mapGet input "params") with
        | none => .exit input (some (.text "incorrect casting"))
        | some params =>
          let params := mapSet params "admin_username" (.str "operations")
          let input := mapSet input "params" (.obj params)
          .next input
    else
      match shared.GetVersion input with
      | .error err2 => .exit input (some err2)
      | .ok v =>
        if v ≠ configVersion then .exit input (some (.text "unknown version to upgrade"))
        else .exit input none

/-- `Config.UpgradeFunc` of `azbi/v0/config.go`. -/
def Config.UpgradeFunc (fuel : Nat) (input : Obj) : Option Outcome :=
  runLoop (fun t => some (Config.UpgradeFunc.body t)) fuel input

/-- Body of the loop of `State.UpgradeFunc` (`azbi/v0/state.go`); the nested call of
`Config.UpgradeFunc` works on the map stored under `config`, so what it did to that map is
visible in the state tree also when it fails. -/
def State.UpgradeFunc.body (fuel : Nat) (input : Obj) : Option LoopStep :=
  match shared.GetVersion input with
  | .error err => some (.exit input (some err))
  | .ok v =>
    if v = "v0.0.1" then
      match asMap (mapGet input "meta") with
      | none => some (.exit input (some (.text "incorrect casting")))
      | some meta =>
        let meta := mapSet meta "version" (.str "v0.0.2")
        let input := mapSet input "meta" (.obj meta)
        match asMap (mapGet input "config") with
        | none => some (.exit input (some (.text "incorrect casting")))
        | some configSubtree =>
          match Config.UpgradeFunc fuel configSubtree with
          | none => none
          | some c =>
            let input := mapSet input "config" (.obj c.input)
            match c.err with
            | some err => some (.exit input (some err))
            | none => some (.next input)
    else
      match shared.GetVersion input with
      | .error err2 => some (.exit input (some err2))
      | .ok v =>
        if v ≠ stateVersion then some (.exit input (some (.text "unknown version to upgrade")))
        else some (.exit input none)

/-- `State.UpgradeFunc` of `azbi/v0/state.go`. -/
def State.UpgradeFunc (fuel : Nat) (input : Obj) : Option Outcome :=
  runLoop (State.UpgradeFunc.body fuel) fuel input

end azbi

/-! ## Files and the libraries around them -/

/-- Content of a file (a Go `[]byte`). -/
abbrev Bytes := List UInt8

namespace os

/-- What the file system holds at a path: nothing, a file, or something that makes every
operation on the path fail with an error other than not-exist (for instance no permission). -/
inductive Entry where
  | missing
  | file (content : Bytes)
  | faulty (msg : String)

/-- The file system: what is found at each path. -/
abbrev FS := String → Entry

/-- `os.Stat`, reduced to its error (`none` is nil). -/
def Stat (fs : FS) (name : String) : Option shared.Error :=
  match fs name with
  | .file _ => none
  | .missing => some .ErrNotExist
  | .faulty msg => some (.fileSystem msg)

/-- `os.IsNotExist`. -/
def IsNotExist : Option shared.Error → Bool
  | some .ErrNotExist => true
  | _ => false

end os

namespace ioutil

/-- `ioutil.ReadFile`. -/
def ReadFile (fs : os.FS) (filename : String) : Except shared.Error Bytes :=
  match fs filename with
  | .file content => .ok content
  | .missing => .error .ErrNotExist
  | .faulty msg => .error (.fileSystem msg)

/-- `ioutil.WriteFile`: creates the file or replaces its content; returns the file system
after the call and the error. -/
def WriteFile (fs : os.FS) (filename : String) (data : Bytes) : os.FS × Option shared.Error :=
  match fs filename with
  | .faulty msg => (fs, some (.fileSystem msg))
  | _ => (fun p => if p = filename then .file data else fs p, none)

end ioutil

namespace json

/-- The two functions of `encoding/json` that work on JSON text, taken as given: the text
`MarshalIndent` writes for a value tree under a line start and an indent, and the value tree
`Unmarshal` reads from a text (or its error message). -/
structure Codec where
  encodeIndent : String → String → JSON → Bytes
  decodeText : Bytes → Except String JSON

/-- `json.MarshalIndent(v, pfx, indent)` for a document type whose fields all marshal: the
struct tags give the value tree (`toJSON`), the library writes it out. -/
def MarshalIndent {α : Type} (codec : Codec) (toJSON : α → JSON) (v : α) (pfx indent : String) :
    Except shared.Error Bytes :=
  .ok (codec.encodeIndent pfx indent (toJSON v))

/-- `json.Unmarshal(b, &input)` for `var input map[string]interface{}`: an object fills the
map, `null` leaves the nil map, any other value is a type error. -/
def Unmarshal (codec : Codec) (b : Bytes) : Except shared.Error Obj :=
  match codec.decodeText b with
  | .error msg => .error (.unmarshal msg)
  | .ok (.obj m) => .ok m
  | .ok .null => .ok []
  | .ok _ => .error (.unmarshal "json: cannot unmarshal into Go value of type map[string]interface {}")

end json

namespace maps

/-- What `Decoder.Decode(input)` of `mapstructure` leaves behind for `Result: &i`, where `i`
holds the pointer to the receiver, so that the decoder writes into the receiver itself: the
value of the receiver after the call, the unused keys of `Metadata` and the error message, if
any. -/
structure Decoded (α : Type) where
  target : α
  unused : List String
  err : Option String

/-- The decoder of `mapstructure` for a document type, taken as given: it sees the receiver
as it is before the call and the raw tree. -/
abbrev Decoder (α : Type) := α → Obj → Decoded α

end maps

namespace shared

/-- `Backup` of `shared/commons.go`. -/
def Backup {α : Type} (marshal : α → String → String → Except Error Bytes) (fs : os.FS)
    (i : α) (new : String) : os.FS × Option Error :=
  match os.Stat fs new with
  | none => (fs, some .ErrExist)
  | some err =>
    if os.IsNotExist (some err) then
      match marshal i "" "\t" with
      | .error err => (fs, some err)
      | .ok bytes => ioutil.WriteFile fs new bytes
    else (fs, some err)

/-- `Save` of `shared/commons.go`; `print` is the method `Print` of the `Printer`. -/
def Save {α : Type} (print : α → Except Error Bytes) (fs : os.FS) (p : α) (path : String) :
    os.FS × Option Error :=
  match print p with
  | .error err => (fs, some err)
  | .ok bytes => ioutil.WriteFile fs path bytes

/-- `Print` of `shared/commons.go`; `validate` is the method `Validate` of the `Validator`. -/
def Print {α : Type} (validate : α → Option Error)
    (marshal : α → String → String → Except Error Bytes) (v : α) : Except Error Bytes :=
  match validate v with
  | some err => .error err
  | none => marshal v "" "\t"

/-- Result of `Load`: the value of the receiver behind the pointer `i` after the call, the
returned value (`none` for nil, else the value behind the returned pointer) and the returned
error. -/
structure Loaded (α : Type) where
  target : α
  value : Option α
  err : Option Error

/-- `Load` of `shared/commons.go`.  `setUnused` is `some` of the method `SetUnused` when the
type implements `WithUnused`.  `maps.NewDecoder` gets a pointer as `Result` and so returns
no error. -/
def Load {α : Type} (codec : json.Codec) (decoder : maps.Decoder α)
    (setUnused : Option (α → List String → α)) (fs : os.FS) (i : α) (path version : String) :
    Loaded α :=
  let err := os.Stat fs path
  if os.IsNotExist err then ⟨i, none, err⟩
  else
    match ioutil.ReadFile fs path with
    | .error err => ⟨i, none, some err⟩
    | .ok b =>
      match json.Unmarshal codec b with
      | .error err => ⟨i, none, some err⟩
      | .ok input =>
        match checkVersion input version with
        | some err => ⟨i, none, some err⟩
        | none =>
          let d := decoder i input
          match d.err with
          | some msg => ⟨d.target, none, some (.decode msg)⟩
          | none =>
            match setUnused with
            | some f => ⟨f d.target d.unused, some (f d.target d.unused), none⟩
            | none => ⟨d.target, some d.target, none⟩

end shared

/-! ## The typed documents of `azbi/v0` -/

namespace json

/-- Value tree of a `*string` field. -/
def ofStrPtr : Option String → JSON
  | none => .null
  | some x => .str x

/-- Value tree of a `*int` field. -/
def ofIntPtr : Option Int → JSON
  | none => .null
  | some n => .num (n : ℚ)

/-- Value tree of a `*bool` field. -/
def ofBoolPtr : Option Bool → JSON
  | none => .null
  | some b => .bool b

/-- Value tree of a pointer field: `null` for nil. -/
def ofPtr {α : Type} (f : α → JSON) : Option α → JSON
  | none => .null
  | some x => f x

/-- Value tree of a slice field: `null` for the nil slice. -/
def ofSlice {α : Type} (f : α → JSON) : Option (List α) → JSON
  | none => .null
  | some xs => .arr (xs.map f)

end json

namespace azbi

/-- Struct `Meta` of `azbi/v0/config.go`; a nil pointer is `none`. -/
structure Meta where
  Kind : Option String := none
  Version : Option String := none
  ModuleVersion : Option String := none
deriving DecidableEq, Repr

/-- Struct `Subnet`; a nil slice is `none`. -/
structure Subnet where
  Name : Option String := none
  AddressPrefixes : Option (List String) := none
deriving DecidableEq, Repr

/-- Struct `VmImage`. -/
structure VmImage where
  Publisher : Option String := none
  Offer : Option String := none
  Sku : Option String := none
  Version : Option String := none
deriving DecidableEq, Repr

/-- Struct `DataDisk`. -/
structure DataDisk where
  GbSize : Option Int := none
  StorageType : Option String := none
deriving DecidableEq, Repr

/-- Struct `VmGroup`. -/
structure VmGroup where
  Name : Option String := none
  VmCount : Option Int := none
  VmSize : Option String := none
  UsePublicIP : Option Bool := none
  SubnetNames : Option (List String) := none
  VmImage : Option VmImage := none
  DataDisks : Option (List DataDisk) := none
deriving DecidableEq, Repr

/-- Struct `Params`, fields in declaration order. -/
structure Params where
  Name : Option String := none
  Location : Option String := none
  AddressSpace : Option (List String) := none
  Subnets : Option (List Subnet) := none
  VmGroups : Option (List VmGroup) := none
  AdminUsername : Option String := none
  RsaPublicKeyPath : Option String := none
deriving DecidableEq, Repr

/-- Struct `Config`. -/
structure Config where
  Meta : Option Meta := none
  Params : Option Params := none
  Unused : Option (List String) := none
deriving DecidableEq, Repr

/-- Struct `OutputDataDisk` of `azbi/v0/state.go`. -/
structure OutputDataDisk where
  Size : Option Int := none
  Lun : Option Int := none
deriving DecidableEq, Repr

/-- Struct `OutputVm`. -/
structure OutputVm where
  Name : Option String := none
  PrivateIps : Option (List String) := none
  PublicIp : Option String := none
  DataDisks : Option (List OutputDataDisk) := none
deriving DecidableEq, Repr

/-- Struct `OutputVmGroup`. -/
structure OutputVmGroup where
  Name : Option String := none
  Vms : Option (List OutputVm) := none
deriving DecidableEq, Repr

/-- Struct `Output`. -/
structure Output where
  RgName : Option String := none
  VnetName : Option String := none
  VmGroups : Option (List OutputVmGroup) := none
deriving DecidableEq, Repr

/-- Struct `State`; `Status` is a `shared.Status`, a string. -/
structure State where
  Meta : Option Meta := none
  Status : String := ""
  Config : Option Config := none
  Output : Option Output := none
  Unused : Option (List String) := none
deriving DecidableEq, Repr

/-- Value tree `encoding/json` builds for a `Meta` from its `json` tags. -/
def Meta.toJSON (m : Meta) : JSON :=
  .obj [("kind", json.ofStrPtr m.Kind), ("version", json.ofStrPtr m.Version),
    ("module_version", json.ofStrPtr m.ModuleVersion)]

/-- Value tree of a `Subnet`. -/
def Subnet.toJSON (x : Subnet) : JSON :=
  .obj [("name", json.ofStrPtr x.Name),
    ("address_prefixes", json.ofSlice JSON.str x.AddressPrefixes)]

/-- Value tree of a `VmImage`. -/
def VmImage.toJSON (x : VmImage) : JSON :=
  .obj [("publisher", json.ofStrPtr x.Publisher), ("offer", json.ofStrPtr x.Offer),
    ("sku", json.ofStrPtr x.Sku), ("version", json.ofStrPtr x.Version)]

/-- Value tree of a `DataDisk`. -/
def DataDisk.toJSON (x : DataDisk) : JSON :=
  .obj [("disk_size_gb", json.ofIntPtr x.GbSize), ("storage_type", json.ofStrPtr x.StorageType)]

/-- Value tree of a `VmGroup`. -/
def VmGroup.toJSON (x : VmGroup) : JSON :=
  .obj [("name", json.ofStrPtr x.Name), ("vm_count", json.ofIntPtr x.VmCount),
    ("vm_size", json.ofStrPtr x.VmSize), ("use_public_ip", json.ofBoolPtr x.UsePublicIP),
    ("subnet_names", json.ofSlice JSON.str x.SubnetNames),
    ("vm_image", json.ofPtr VmImage.toJSON x.VmImage),
    ("data_disks", json.ofSlice DataDisk.toJSON x.DataDisks)]

/-- Value tree of a `Params`. -/
def Params.toJSON (x : Params) : JSON :=
  .obj [("name", json.ofStrPtr x.Name), ("location", json.ofStrPtr x.Location),
    ("address_space", json.ofSlice JSON.str x.AddressSpace),
    ("subnets", json.ofSlice Subnet.toJSON x.Subnets),
    ("vm_groups", json.ofSlice VmGroup.toJSON x.VmGroups),
    ("admin_username", json.ofStrPtr x.AdminUsername),
    ("rsa_pub_path", json.ofStrPtr x.RsaPublicKeyPath)]

/-- Value tree of a `Config`; `Unused` carries the tag `json:"-"` and is left out. -/
def Config.toJSON (c : Config) : JSON :=
  .obj [("meta", json.ofPtr Meta.toJSON c.Meta), ("params", json.ofPtr Params.toJSON c.Params)]

/-- Value tree of an `OutputDataDisk`. -/
def OutputDataDisk.toJSON (x : OutputDataDisk) : JSON :=
  .obj [("size", json.ofIntPtr x.Size), ("lun", json.ofIntPtr x.Lun)]

/-- Value tree of an `OutputVm`. -/
def OutputVm.toJSON (x : OutputVm) : JSON :=
  .obj [("vm_name", json.ofStrPtr x.Name), ("private_ips", json.ofSlice JSON.str x.PrivateIps),
    ("public_ip", json.ofStrPtr x.PublicIp),
    ("data_disks", json.ofSlice OutputDataDisk.toJSON x.DataDisks)]

/-- Value tree of an `OutputVmGroup`. -/
def OutputVmGroup.toJSON (x : OutputVmGroup) : JSON :=
  .obj [("vm_group_name", json.ofStrPtr x.Name), ("vms", json.ofSlice OutputVm.toJSON x.Vms)]

/-- Value tree of an `Output`. -/
def Output.toJSON (x : Output) : JSON :=
  .obj [("rg_name", json.ofStrPtr x.RgName), ("vnet_name", json.ofStrPtr x.VnetName),
    ("vm_groups", json.ofSlice OutputVmGroup.toJSON x.VmGroups)]

/-- Value tree of a `State`; `Unused` carries the tag `json:"-"` and is left out. -/
def State.toJSON (x : State) : JSON :=
  .obj [("meta", json.ofPtr Meta.toJSON x.Meta), ("status", .str x.Status),
    ("config", json.ofPtr Config.toJSON x.Config), ("output", json.ofPtr Output.toJSON x.Output)]

end azbi

/-! ## The lifecycle methods of `Config` and `State` -/

namespace validator

/-- The violations `validate.Struct` finds in a document, taken as given for a document
type; none found means a nil error. -/
abbrev StructErrors (α : Type) := α → List FieldError

end validator

namespace azbi

open shared

/-- `Config.Validate` of `azbi/v0/config.go`; the receiver is a pointer, `none` is nil.
`RegisterValidation` is called with a non-empty tag and a function, so it returns no error. -/
def Config.Validate (structErrors : validator.StructErrors Config) (c : Option Config) :
    Option Error :=
  match c with
  | none => some (.text "expected config is nil")
  | some c =>
    match structErrors c with
    | [] => none
    | e :: es => some (.ValidationErrors (e :: es))

/-- `Config.SetUnused`. -/
def Config.SetUnused (c : Config) (unused : List String) : Config :=
  { c with Unused := some unused }

/-- `Config.Backup`. -/
def Config.Backup (codec : json.Codec) (fs : os.FS) (c : Config) (path : String) :
    os.FS × Option Error :=
  shared.Backup (json.MarshalIndent codec Config.toJSON) fs c path

/-- `Config.Print`. -/
def Config.Print (codec : json.Codec) (structErrors : validator.StructErrors Config)
    (c : Config) : Except Error Bytes :=
  shared.Print (fun v => Config.Validate structErrors (some v))
    (json.MarshalIndent codec Config.toJSON) c

/-- `Config.Save`. -/
def Config.Save (codec : json.Codec) (structErrors : validator.StructErrors Config)
    (fs : os.FS) (c : Config) (path : String) : os.FS × Option Error :=
  shared.Save (Config.Print codec structErrors) fs c path

/-- `Config.Load`: returns the receiver after the call and the error. -/
def Config.Load (codec : json.Codec) (decoder : maps.Decoder Config)
    (structErrors : validator.StructErrors Config) (fs : os.FS) (c : Config) (path : String) :
    Config × Option Error :=
  let r := shared.Load codec decoder (some Config.SetUnused) fs c path configVersion
  match r.err with
  | some err => (r.target, some err)
  | none =>
    match r.value with
    | none => (r.target, some (.text "incorrect casting"))
    | some config =>
      match Config.Validate structErrors (some config) with
      | some err => (r.target, some err)
      | none => (config, none)

/-- `State.Validate` of `azbi/v0/state.go`. -/
def State.Validate (structErrors : validator.StructErrors State) (s : Option State) :
    Option Error :=
  match s with
  | none => some (.text "expected state is nil")
  | some s =>
    match structErrors s with
    | [] => none
    | e :: es => some (.ValidationErrors (e :: es))

/-- `State.SetUnused`. -/
def State.SetUnused (s : State) (unused : List String) : State :=
  { s with Unused := some unused }

/-- `State.Backup`. -/
def State.Backup (codec : json.Codec) (fs : os.FS) (s : State) (path : String) :
    os.FS × Option Error :=
  shared.Backup (json.MarshalIndent codec State.toJSON) fs s path

/-- `State.Print`. -/
def State.Print (codec : json.Codec) (structErrors : validator.StructErrors State)
    (s : State) : Except Error Bytes :=
  shared.Print (fun v => State.Validate structErrors (some v))
    (json.MarshalIndent codec State.toJSON) s

/-- `State.Save`. -/
def State.Save (codec : json.Codec) (structErrors : validator.StructErrors State)
    (fs : os.FS) (s : State) (path : String) : os.FS × Option Error :=
  shared.Save (State.Print codec structErrors) fs s path

/-- `State.Load`: returns the receiver after the call and the error. -/
def State.Load (codec : json.Codec) (decoder : maps.Decoder State)
    (structErrors : validator.StructErrors State) (fs : os.FS) (s : State) (path : String) :
    State × Option Error :=
  let r := shared.Load codec decoder (some State.SetUnused) fs s path stateVersion
  match r.err with
  | some err => (r.target, some err)
  | none =>
    match r.value with
    | none => (r.target, some (.text "incorrect casting"))
    | some state =>
      match State.Validate structErrors (some state) with
      | some err => (r.target, some err)
      | none => (state, none)

end azbi

/-! ## Init -/

namespace azbi

/-- Modelled from the spec: the constant `configKind` is declared in a file of the package
that is not among the sources; `TestConfig_Init` fixes its value. -/
def configKind : String := "azbiConfig"

/-- Modelled from the spec: the constant `stateKind` is declared in a file of the package
that is not among the sources; `TestState_Init` fixes its value. -/
def stateKind : String := "azbiState"

/-- `Config.Init` of `azbi/v0/config.go`: the receiver before the call goes in, the receiver
after the call comes out. -/
def Config.Init (_c : Config) (moduleVersion : String) : Config :=
  { Meta := some
      { Kind := some configKind
        Version := some configVersion
        ModuleVersion := some moduleVersion }
    Params := some
      { Name := some "unknown"
        Location := some "northeurope"
        AddressSpace := some ["10.0.0.0/16"]
        AdminUsername := some "operations"
        RsaPublicKeyPath := some "/shared/vms_rsa.pub"
        Subnets := some
          [ { Name := some "main"
              AddressPrefixes := some ["10.0.1.0/24"] } ]
        VmGroups := some
          [ { Name := some "vm-group-0"
              VmCount := some 1
              VmSize := some "Standard_DS2_v2"
              UsePublicIP := some true
              SubnetNames := some ["main"]
              VmImage := some
                { Publisher := some "Canonical"
                  Offer := some "UbuntuServer"
                  Sku := some "18.04-LTS"
                  Version := some "18.04.202006101" }
              DataDisks := some
                [ { GbSize := some 10
                    StorageType := some "Premium_LRS" } ] } ] }
    Unused := some [] }

/-- `State.Init` of `azbi/v0/state.go`; `shared.Initialized` is the status "initialized"
(`shared/enums.go`). -/
def State.Init (_s : State) (moduleVersion : String) : State :=
  { Meta := some
      { Kind := some stateKind
        Version := some stateVersion
        ModuleVersion := some moduleVersion }
    Status := "initialized"
    Config := none
    Output := none
    Unused := some [] }

end azbi

/-! ## Loops, slices and struct-level validation -/

/-- The elements of a slice; the nil slice has none (`len` and `range` treat it as empty). -/
def elems {α : Type} : Option (List α) → List α
  | none => []
  | some xs => xs

/-- The loop `for i, x := range xs { s = body i x s }`, entered with the index of the first
element. -/
def rangeFold {α σ : Type} (body : Nat → α → σ → σ) : Nat → List α → σ → σ
  | _, [], s => s
  | i, x :: xs, s => rangeFold body (i + 1) xs (body i x s)

/-- The elements an appending loop adds: `f i x` for each element `x` at index `i`, in
order, the first index given. -/
def gather {α β : Type} (f : Nat → α → List β) : Nat → List α → List β
  | _, [] => []
  | i, x :: xs => f i x ++ gather f (i + 1) xs

/-- How a loop body ends: it falls through to the next pass, or the enclosing function
returns. -/
inductive LoopFlow (σ : Type) where
  | next (s : σ)
  | ret (s : σ)

/-- The loop `for i, x := range xs { body }` whose body may `return` from the function. -/
def rangeLoop {α σ : Type} (body : Nat → α → σ → LoopFlow σ) :
    Nat → List α → σ → LoopFlow σ
  | _, [], s => .next s
  | i, x :: xs, s =>
    match body i x s with
    | .ret s' => .ret s'
    | .next s' => rangeLoop body (i + 1) xs s'

namespace validator

/-- A call a struct-level validation function makes on its `StructLevel`; the first argument of
`ReportError`, the field value, is left out (it does not enter namespace, field or tag). -/
inductive Report where
  | ReportError (fieldName structFieldName tag param : String)
  | ReportValidationErrors (relativeNamespace relativeActualNamespace : String)
      (errs : List FieldError)
deriving DecidableEq, Repr

/-- The calls made on a `StructLevel` so far. -/
abbrev StructLevel := List Report

/-- Whether a call is a `ReportError` with the given tag. -/
def Report.hasTag (tag : String) : Report → Bool
  | .ReportError _ _ t _ => t = tag
  | .ReportValidationErrors _ _ _ => false

/-- The error value of `validate.Struct(s)`: nil, `ValidationErrors`, or another error. -/
inductive StructResult where
  | valid
  | ValidationErrors (errs : List FieldError)
  | InvalidValidationError
deriving DecidableEq, Repr

end validator

/-! ## `awsbi/v0` -/

namespace awsbi

/-- Struct `DataDisk` of `awsbi/v0/awsbi_v0.go`; the field `Type` is written `Type'`. -/
structure DataDisk where
  DeviceName : Option String := none
  GbSize : Option Int := none
  Type' : Option String := none
deriving DecidableEq, Repr

/-- Struct `VmImage`. -/
structure VmImage where
  AMI : Option String := none
  Owner : Option String := none
deriving DecidableEq, Repr

/-- Struct `VmGroup`. -/
structure VmGroup where
  Name : Option String := none
  VmCount : Option Int := none
  VmSize : Option String := none
  UsePublicIp : Option Bool := none
  SubnetNames : Option (List String) := none
  SecurityGroupNames : Option (List String) := none
  VmImage : Option VmImage := none
  RootVolumeGbSize : Option Int := none
  DataDisks : Option (List DataDisk) := none
deriving DecidableEq, Repr

/-- Struct `SecurityRule`. -/
structure SecurityRule where
  Protocol : Option String := none
  FromPort : Option Int := none
  ToPort : Option Int := none
  CidrBlocks : Option (List String) := none
deriving DecidableEq, Repr

/-- Struct `Rules`. -/
structure Rules where
  Ingress : Option (List SecurityRule) := none
  Egress : Option (List SecurityRule) := none
deriving DecidableEq, Repr

/-- Struct `SecurityGroup`. -/
structure SecurityGroup where
  Name : Option String := none
  Rules : Option Rules := none
deriving DecidableEq, Repr

/-- Struct `Subnet`. -/
structure Subnet where
  Name : Option String := none
  AvailabilityZone : Option String := none
  AddressPrefixes : Option String := none
deriving DecidableEq, Repr

/-- Struct `Subnets`. -/
structure Subnets where
  Private : Option (List Subnet) := none
  Public : Option (List Subnet) := none
deriving DecidableEq, Repr

/-- Struct `Params`. -/
structure Params where
  Name : Option String := none
  Region : Option String := none
  NatGatewayCount : Option Int := none
  VirtualPrivateGateway : Option Bool := none
  RsaPublicKeyPath : Option String := none
  VpcAddressSpace : Option String := none
  Subnets : Option Subnets := none
  SecurityGroups : Option (List SecurityGroup) := none
  VmGroups : Option (List VmGroup) := none
deriving DecidableEq, Repr

/-- The pass over the subnet names of VM group `i` in `AwsBIParamsValidation`. -/
def AwsBIParamsValidation.subnetName (params : Params) (i j : Nat) (sn : String)
    (sl : validator.StructLevel) : validator.StructLevel :=
  let sl :=
    if sn = "" then
      sl ++ [.ReportError ("VmGroups[" ++ toString i ++ "].SubnetNames[" ++ toString j ++ "]")
        ("SubnetNames[" ++ toString j ++ "]") "required" ""]
    else sl
  let found := false
  let found :=
    match params.Subnets with
    | some subnets =>
      let found := rangeFold (fun _ (s : Subnet) found =>
        if s.Name ≠ none ∧ some sn = s.Name then true else found) 0 (elems subnets.Private) found
      rangeFold (fun _ (s : Subnet) found =>
        if s.Name ≠ none ∧ some sn = s.Name then true else found) 0 (elems subnets.Public) found
    | none => found
  if !found then
    sl ++ [.ReportError ("VmGroups[" ++ toString i ++ "].SubnetNames[" ++ toString j ++ "]")
      ("SubnetNames[" ++ toString j ++ "]") "insubnets" ""]
  else sl

/-- The pass over the security group names of VM group `i` in `AwsBIParamsValidation`. -/
def AwsBIParamsValidation.securityGroupName (params : Params) (i j : Nat) (sg : String)
    (sl : validator.StructLevel) : validator.StructLevel :=
  let sl :=
    if sg = "" then
      sl ++ [.ReportError
        ("VmGroups[" ++ toString i ++ "].SecurityGroupNames[" ++ toString j ++ "]")
        ("SecurityGroupNames[" ++ toString j ++ "]") "required" ""]
    else sl
  let found := false
  let found :=
    match params.SecurityGroups with
    | some securityGroups =>
      rangeFold (fun _ (s : SecurityGroup) found =>
        if s.Name ≠ none ∧ some sg = s.Name then true else found) 0 securityGroups found
    | none => found
  if !found then
    sl ++ [.ReportError
      ("VmGroups[" ++ toString i ++ "].SecurityGroupNames[" ++ toString j ++ "]")
      ("SecurityGroupNames[" ++ toString j ++ "]") "insecuritygroups" ""]
  else sl

/-- The pass over one list of subnets (`Private` or `Public`) in `AwsBIParamsValidation`:
each subnet is validated on its own and what is found is reported under the list. -/
def AwsBIParamsValidation.subnet (structOf : Subnet → validator.StructResult)
    (listName : String) (i : Nat) (s : Subnet) (sl : validator.StructLevel) :
    validator.StructLevel :=
  match structOf s with
  | .valid => sl
  | .ValidationErrors e =>
    sl ++ [.ReportValidationErrors ("Subnets." ++ listName ++ "[" ++ toString i ++ "].")
      ("Subnets." ++ listName ++ "[" ++ toString i ++ "].") e]
  | .InvalidValidationError =>
    sl ++ [.ReportError ("Subnets." ++ listName) listName "fatal" ""]

/-- `AwsBIParamsValidation` of `awsbi/v0/awsbi_v0.go`: the calls it makes on the
`StructLevel`, in order.  `structOf` is `validator.New().Struct(s)` for a subnet, taken as
given. -/
def AwsBIParamsValidation (structOf : Subnet → validator.StructResult) (params : Params) :
    validator.StructLevel :=
  let sl : validator.StructLevel := []
  let sl :=
    if (elems params.VmGroups).length > 0 then
      rangeFold (fun i (vmGroup : VmGroup) sl =>
        let sl := rangeFold (AwsBIParamsValidation.subnetName params i) 0
          (elems vmGroup.SubnetNames) sl
        rangeFold (AwsBIParamsValidation.securityGroupName params i) 0
          (elems vmGroup.SecurityGroupNames) sl) 0 (elems params.VmGroups) sl
    else sl
  match params.Subnets with
  | some subnets =>
    let sl :=
      if (elems subnets.Private).length = 0 ∧ (elems subnets.Public).length = 0 then
        sl ++ [.ReportError "Subnets" "Subnets" "private_or_public" ""]
      else sl
    let sl :=
      if (elems subnets.Private).length > 0 then
        rangeFold (AwsBIParamsValidation.subnet structOf "Private") 0 (elems subnets.Private) sl
      else sl
    if (elems subnets.Public).length > 0 then
      rangeFold (AwsBIParamsValidation.subnet structOf "Public") 0 (elems subnets.Public) sl
    else sl
  | none => sl

end awsbi

namespace awsbi

/-- The subnets a `Params` declares: those of `Subnets.Private` and of `Subnets.Public`, none
when `Subnets` is nil. -/
def Params.declaredSubnets (params : Params) : List Subnet :=
  match params.Subnets with
  | none => []
  | some subnets => elems subnets.Private ++ elems subnets.Public

end awsbi

/-! ## Struct-level validation and `ExtractEmptySubnets` of `azbi/v0` -/

namespace validator

/-- The `FieldError`s the library records for a call on the `StructLevel` of a struct at
namespace `ns`: `ReportError` gives one error at `ns` followed by the field name, whose field
is the field name; `ReportValidationErrors` passes the given errors on under `ns` and the
relative namespace.  The keys and fields the tests of `Config.Validate` expect show this. -/
def Report.fieldErrors (ns : String) : Report → List FieldError
  | .ReportError fieldName _ tag _ => [⟨ns ++ fieldName, fieldName, tag⟩]
  | .ReportValidationErrors relativeNamespace _ errs =>
    errs.map (fun e => ⟨ns ++ relativeNamespace ++ e.Namespace, e.Field, e.Tag⟩)

end validator

namespace azbi

/-- The pass over subnet name `j` of VM group `i` in `AzBISubnetsValidation`
(`azbi/v0/validation.go`): after a report the function returns. -/
def AzBISubnetsValidation.subnetName (params : Params) (i j : Nat) (sn : String)
    (sl : validator.StructLevel) : LoopFlow validator.StructLevel :=
  if sn = "" then
    .ret (sl ++ [.ReportError ("VmGroups[" ++ toString i ++ "].SubnetNames[" ++ toString j ++ "]")
      ("SubnetNames[" ++ toString j ++ "]") "required" ""])
  else
    let found := false
    let found := rangeFold (fun _ (s : Subnet) found =>
      if s.Name ≠ none ∧ some sn = s.Name then true else found) 0 (elems params.Subnets) found
    if !found then
      .ret (sl ++ [.ReportError
        ("VmGroups[" ++ toString i ++ "].SubnetNames[" ++ toString j ++ "]")
        ("SubnetNames[" ++ toString j ++ "]") "insubnets" ""])
    else .next sl

/-- `AzBISubnetsValidation` of `azbi/v0/validation.go`: the calls it makes on the
`StructLevel`. -/
def AzBISubnetsValidation (params : Params) : validator.StructLevel :=
  let sl : validator.StructLevel := []
  if (elems params.VmGroups).length > 0 then
    match rangeLoop (fun i (vmGroup : VmGroup) sl =>
        rangeLoop (AzBISubnetsValidation.subnetName params i) 0 (elems vmGroup.SubnetNames) sl)
        0 (elems params.VmGroups) sl with
    | .ret sl => sl
    | .next sl => sl
  else sl

/-- The call `validate.Struct(c)` in `Config.Validate`: the violations of the `validate` tags,
taken as given, followed by what the function registered for `Params` with
`RegisterStructValidation` reports; the library runs it on `c.Params`, when that is not nil,
after the fields of `Params`, the last validated field of `Config`. -/
def Config.Struct (tagErrors : validator.StructErrors Config) : validator.StructErrors Config :=
  fun c =>
    tagErrors c ++
      match c.Params with
      | none => []
      | some params =>
        (AzBISubnetsValidation params).flatMap (validator.Report.fieldErrors "Config.Params.")

/-- The Go map `m` of `ExtractEmptySubnets`; it is read, written and deleted from by key
only. -/
abbrev SubnetMap := String → Option Subnet

/-- The statement `m[k] = v`. -/
def SubnetMap.set (m : SubnetMap) (k : String) (v : Subnet) : SubnetMap :=
  fun x => if x = k then some v else m x

/-- The statement `delete(m, k)`. -/
def SubnetMap.delete (m : SubnetMap) (k : String) : SubnetMap :=
  fun x => if x = k then none else m x

/-- The run-time panic of `*p` for a nil `p`. -/
def nilDereference : String := "invalid memory address or nil pointer dereference"

/-- First loop of `ExtractEmptySubnets`: `m[*subnet.Name] = subnet` for every subnet. -/
def ExtractEmptySubnets.fill : List Subnet → SubnetMap → Except String SubnetMap
  | [], m => .ok m
  | subnet :: rest, m =>
    match subnet.Name with
    | none => .error nilDereference
    | some name => ExtractEmptySubnets.fill rest (m.set name subnet)

/-- Innermost loop of `ExtractEmptySubnets`, over the subnet names of a VM group; it ends at
the `break` after a `delete`. -/
def ExtractEmptySubnets.names (subnet : Subnet) : List String → SubnetMap → Except String SubnetMap
  | [], m => .ok m
  | subnetName :: rest, m =>
    match subnet.Name with
    | none => .error nilDereference
    | some name =>
      if name = subnetName then
        if (m subnetName).isSome then .ok (m.delete subnetName)
        else ExtractEmptySubnets.names subnet rest m
      else ExtractEmptySubnets.names subnet rest m

/-- Middle loop of `ExtractEmptySubnets`, over the subnets, for one VM group. -/
def ExtractEmptySubnets.subnets (vmGroup : VmGroup) :
    List Subnet → SubnetMap → Except String SubnetMap
  | [], m => .ok m
  | subnet :: rest, m =>
    match ExtractEmptySubnets.names subnet (elems vmGroup.SubnetNames) m with
    | .error e => .error e
    | .ok m' => ExtractEmptySubnets.subnets vmGroup rest m'

/-- Outer loop of `ExtractEmptySubnets`, over the VM groups. -/
def ExtractEmptySubnets.groups (subnets : List Subnet) :
    List VmGroup → SubnetMap → Except String SubnetMap
  | [], m => .ok m
  | vmGroup :: rest, m =>
    match ExtractEmptySubnets.subnets vmGroup subnets m with
    | .error e => .error e
    | .ok m' => ExtractEmptySubnets.groups subnets rest m'

/-- Last loop of `ExtractEmptySubnets`: the map values of the subnets whose name is still a
key, appended to `result`. -/
def ExtractEmptySubnets.result (m : SubnetMap) :
    List Subnet → List Subnet → Except String (List Subnet)
  | [], result => .ok result
  | s :: rest, result =>
    match s.Name with
    | none => .error nilDereference
    | some name =>
      match m name with
      | some v => ExtractEmptySubnets.result m rest (result ++ [v])
      | none => ExtractEmptySubnets.result m rest result

/-- `Params.ExtractEmptySubnets` of `azbi/v0/config.go`; the receiver is a pointer (`none` is
nil), the result is a slice (`none` is nil) or the panic of a nil dereference. -/
def Params.ExtractEmptySubnets (p : Option Params) : Except String (Option (List Subnet)) :=
  match p with
  | none => .ok none
  | some p =>
    if p.Subnets = none ∨ (elems p.Subnets).length = 0 then .ok none
    else if p.VmGroups = none ∨ (elems p.VmGroups).length = 0 then .ok p.Subnets
    else
      match ExtractEmptySubnets.fill (elems p.Subnets) (fun _ => none) with
      | .error e => .error e
      | .ok m =>
        match ExtractEmptySubnets.groups (elems p.Subnets) (elems p.VmGroups) m with
        | .error e => .error e
        | .ok m =>
          match ExtractEmptySubnets.result m (elems p.Subnets) [] with
          | .error e => .error e
          | .ok result => .ok (some result)

end azbi

/-! ## The module helper of `imh/imh.go` -/

namespace errors

/-- `errors.As(err, &ncverr)` for the variable `ncverr` of type
`shared.NotCurrentVersionError`. -/
def AsNotCurrentVersionError : Option shared.Error → Bool
  | some (.NotCurrentVersionError _) => true
  | _ => false

end errors

namespace imh

/-- Constant `configFileName`. -/
def configFileName : String := "config.json"

/-- Constant `stateFileName`. -/
def stateFileName : String := "state.json"

/-- Constant `backupDirectoryName`. -/
def backupDirectoryName : String := "backup"

/-- The two `Modulator` arguments of the helper methods. -/
inductive Doc where
  | config
  | state
deriving DecidableEq, Repr

/-- A call the helper makes: `os.MkdirAll`, or a method of one of its two documents. -/
inductive Call where
  | MkdirAll (path : String)
  | Load (d : Doc) (path : String)
  | Init (d : Doc) (moduleVersion : String)
  | Upgrade (d : Doc) (path : String)
  | Backup (d : Doc) (path : String)
  | Save (d : Doc) (path : String)
deriving DecidableEq, Repr

/-- What surrounds the helper: the error each call returns (`none` is nil), which may depend
on the calls made before it. -/
abbrev World := List Call → Call → Option shared.Error

/-- Makes a call: it is added to the calls made, and its error is what the world answers. -/
def perform (w : World) (calls : List Call) (c : Call) : List Call × Option shared.Error :=
  (calls ++ [c], w calls c)

/-- Struct `InfrastructureModuleHelper`. -/
structure InfrastructureModuleHelper where
  ModuleDirectoryPath : String
  ModuleVersion : String

/-- Error values the helper returns: the result of `fmt.Errorf` for a format and, where the
format has the verb `%v`, the error printed there; or an error passed on as it is. -/
inductive Failure where
  | Errorf (format : String) (arg : Option shared.Error)
  | same (err : shared.Error)
deriving DecidableEq, Repr

/-- The three results of `Initialize` and of `Load`: the two documents (`none` is nil) and
the error. -/
structure Returned where
  config : Option Doc
  state : Option Doc
  err : Option Failure
deriving DecidableEq, Repr

/-- The block of `Initialize` that obtains one document: `Load`, then `Init` after a
not-exist error, `Upgrade` after a `NotCurrentVersionError`, and a return for another error.
The source has the block twice, for the state and for the config.  The result is the calls
made and the error the function returns with, `none` when it goes on. -/
def Initialize.load (w : World) (moduleVersion : String) (d : Doc) (path format : String)
    (calls : List Call) : List Call × Option Failure :=
  match perform w calls (.Load d path) with
  | (calls, err) =>
    if os.IsNotExist err then
      ((perform w calls (.Init d moduleVersion)).1, none)
    else if errors.AsNotCurrentVersionError err then
      match perform w calls (.Upgrade d path) with
      | (calls, some err2) => (calls, some (.same err2))
      | (calls, none) => (calls, none)
    else
      match err with
      | some err => (calls, some (.Errorf format (some err)))
      | none => (calls, none)

/-- The block of `Load` that obtains one document: as in `Initialize`, without the branch for
a not-exist error. -/
def Load.load (w : World) (d : Doc) (path format : String) (calls : List Call) :
    List Call × Option Failure :=
  match perform w calls (.Load d path) with
  | (calls, err) =>
    if errors.AsNotCurrentVersionError err then
      match perform w calls (.Upgrade d path) with
      | (calls, some err2) => (calls, some (.same err2))
      | (calls, none) => (calls, none)
    else
      match err with
      | some err => (calls, some (.Errorf format (some err)))
      | none => (calls, none)

/-- Function `backup`; `join` is `filepath.Join` and `now` the text of
`time.Now().Format("20060102-150405.999999")`, both taken as given. -/
def backup (w : World) (join : String → String → String) (now : String)
    (moduleDirectoryPath : String) (calls : List Call) : List Call × Option Failure :=
  let backupDirectoryPath := join moduleDirectoryPath backupDirectoryName
  match perform w calls (.MkdirAll backupDirectoryPath) with
  | (calls, some err) => (calls, some (.same err))
  | (calls, none) =>
    match perform w calls
        (.Backup .config (join backupDirectoryPath ("config-" ++ now ++ ".json"))) with
    | (calls, some err) => (calls, some (.Errorf "config backup failed: %v" (some err)))
    | (calls, none) =>
      match perform w calls
          (.Backup .state (join backupDirectoryPath ("state-" ++ now ++ ".json"))) with
      | (calls, some err) => (calls, some (.Errorf "state backup failed: %v" (some err)))
      | (calls, none) => (calls, none)

/-- `InfrastructureModuleHelper.Initialize`: the calls made, in order, and the results. -/
def InfrastructureModuleHelper.Initialize (h : InfrastructureModuleHelper) (w : World)
    (join : String → String → String) (now : String) : List Call × Returned :=
  if h.ModuleDirectoryPath = "" then
    ([], ⟨none, none, some (.Errorf "setup module directory path first" none)⟩)
  else if h.ModuleVersion = "" then
    ([], ⟨none, none, some (.Errorf "setup module version first" none)⟩)
  else
    match perform w [] (.MkdirAll h.ModuleDirectoryPath) with
    | (calls, some err) => (calls, ⟨none, none, some (.same err)⟩)
    | (calls, none) =>
      let configFilePath := join h.ModuleDirectoryPath configFileName
      let stateFilePath := join h.ModuleDirectoryPath stateFileName
      match Initialize.load w h.ModuleVersion .state stateFilePath "load state failed: %v"
          calls with
      | (calls, some err) => (calls, ⟨none, none, some err⟩)
      | (calls, none) =>
        match Initialize.load w h.ModuleVersion .config configFilePath
            "load config failed: %v" calls with
        | (calls, some err) => (calls, ⟨none, none, some err⟩)
        | (calls, none) =>
          match backup w join now h.ModuleDirectoryPath calls with
          | (calls, some err) => (calls, ⟨none, none, some err⟩)
          | (calls, none) => (calls, ⟨some .config, some .state, none⟩)

/-- `InfrastructureModuleHelper.Load`: the calls made, in order, and the results. -/
def InfrastructureModuleHelper.Load (h : InfrastructureModuleHelper) (w : World)
    (join : String → String → String) (now : String) : List Call × Returned :=
  if h.ModuleDirectoryPath = "" then
    ([], ⟨none, none, some (.Errorf "setup module directory path first" none)⟩)
  else if h.ModuleVersion = "" then
    ([], ⟨none, none, some (.Errorf "setup module version first" none)⟩)
  else
    match perform w [] (.MkdirAll h.ModuleDirectoryPath) with
    | (calls, some err) => (calls, ⟨none, none, some (.same err)⟩)
    | (calls, none) =>
      let configFilePath := join h.ModuleDirectoryPath configFileName
      let stateFilePath := join h.ModuleDirectoryPath stateFileName
      match Load.load w .state stateFilePath "load state failed: %v" calls with
      | (calls, some err) => (calls, ⟨none, none, some err⟩)
      | (calls, none) =>
        match Load.load w .config configFilePath "load config failed: %v" calls with
        | (calls, some err) => (calls, ⟨none, none, some err⟩)
        | (calls, none) =>
          match backup w join now h.ModuleDirectoryPath calls with
          | (calls, some err) => (calls, ⟨none, none, some err⟩)
          | (calls, none) => (calls, ⟨some .config, some .state, none⟩)

/-- `InfrastructureModuleHelper.Save`: the calls made, in order, and the error. -/
def InfrastructureModuleHelper.Save (h : InfrastructureModuleHelper) (w : World)
    (join : String → String → String) : List Call × Option Failure :=
  if h.ModuleDirectoryPath = "" then
    ([], some (.Errorf "setup module directory path first" none))
  else if h.ModuleVersion = "" then
    ([], some (.Errorf "setup module version first" none))
  else
    match perform w [] (.MkdirAll h.ModuleDirectoryPath) with
    | (calls, some err) => (calls, some (.same err))
    | (calls, none) =>
      let configFilePath := join h.ModuleDirectoryPath configFileName
      let stateFilePath := join h.ModuleDirectoryPath stateFileName
      match perform w calls (.Save .state stateFilePath) with
      | (calls, some err) => (calls, some (.same err))
      | (calls, none) =>
        match perform w calls (.Save .config configFilePath) with
        | (calls, some err) => (calls, some (.same err))
        | (calls, none) => (calls, none)

/-- Specification of how one document is obtained, in the words of the claims: the calls
made for the document after the calls `before`, and the error the helper returns with
(`none` when it goes on).  With `fallback` a not-exist error of `Load` leads to `Init`;
without it such an error is a failed load like any other. -/
inductive Routing (w : World) (fallback : Bool) (moduleVersion : String) (d : Doc)
    (path format : String) (before : List Call) : List Call → Option Failure → Prop where
  | loaded :
      w before (.Load d path) = none →
      Routing w fallback moduleVersion d path format before [.Load d path] none
  | initialised (err : shared.Error) :
      fallback = true → w before (.Load d path) = some err → os.IsNotExist (some err) = true →
      Routing w fallback moduleVersion d path format before
        [.Load d path, .Init d moduleVersion] none
  | upgraded (v : String) :
      w before (.Load d path) = some (.NotCurrentVersionError v) →
      w (before ++ [.Load d path]) (.Upgrade d path) = none →
      Routing w fallback moduleVersion d path format before
        [.Load d path, .Upgrade d path] none
  | upgradeFailed (v : String) (err2 : shared.Error) :
      w before (.Load d path) = some (.NotCurrentVersionError v) →
      w (before ++ [.Load d path]) (.Upgrade d path) = some err2 →
      Routing w fallback moduleVersion d path format before
        [.Load d path, .Upgrade d path] (some (.same err2))
  | loadFailed (err : shared.Error) :
      w before (.Load d path) = some err →
      (fallback = true → os.IsNotExist (some err) = false) →
      (∀ v, err ≠ .NotCurrentVersionError v) →
      Routing w fallback moduleVersion d path format before
        [.Load d path] (some (.Errorf format (some err)))

end imh

/-! ## The `validate` tags -/

namespace validator

/-- The checks behind the tag `cidr` (the library parses the value with `net.ParseCIDR`) and
behind the tag `version` (the function `validators.HasVersion`, registered by every `Validate`
and declared in a package that is not among the sources; it sees the parameter of the tag and
the value), taken as given. -/
structure Checks where
  cidr : String → Bool
  version : String → String → Bool

/-- The pass of the library over the chain of tags of one field, `checks` being the tags in
the order of the chain, each with whether the value of the field passes it: the first tag
that fails is reported and the rest of the chain is left.  The test "empty or incorrect params
fields" of `awsbi` shows it: the empty `vpc_address_space` under `required,min=1,cidr` gives
"min" and nothing else. -/
def chain (ns field : String) (checks : List (String × Bool)) : List FieldError :=
  match checks.find? (fun c => !c.2) with
  | some c => [⟨ns ++ field, field, c.1⟩]
  | none => []

/-- A check on the value behind a pointer; it fails on nil (where no chain gets that far
when it starts with `required`). -/
def holds {α : Type} (p : α → Bool) : Option α → Bool
  | none => false
  | some x => p x

/-- The tag `min=n` on a `*string`: at least `n` characters. -/
def minLen (n : Nat) (v : Option String) : Bool :=
  holds (fun s => decide (n ≤ s.length)) v

/-- The tag `min=n` on a `*int`. -/
def minInt (n : Int) (v : Option Int) : Bool :=
  holds (fun x => decide (n ≤ x)) v

/-- The tag `gtefield=F` on a `*int`, `other` being the field `F` of the same struct; it
fails when `F` is nil (test "missing default_node_pool.min"). -/
def gteField (v other : Option Int) : Bool :=
  match v, other with
  | some x, some y => decide (y ≤ x)
  | _, _ => false

/-- The tag `ltefield=F` on a `*int`; it fails when `F` is nil (test "missing
default_node_pool.max"). -/
def lteField (v other : Option Int) : Bool :=
  match v, other with
  | some x, some y => decide (x ≤ y)
  | _, _ => false

/-- A slice field whose chain holds `dive`: the tags before `dive` are a chain on the slice
itself; when they pass, every element is validated with what follows `dive`, under the name of
the field followed by the index in brackets. -/
def dive {α : Type} (ns field : String) (checks : List (String × Bool)) (xs : List α)
    (elem : String → α → List FieldError) : List FieldError :=
  match chain ns field checks with
  | [] => gather (fun i x => elem (field ++ "[" ++ toString i ++ "]") x) 0 xs
  | errs => errs

/-- A field that points to a struct, under a chain that starts with `required`: nil is
reported as "required", otherwise the struct behind the pointer is validated, its namespace
being the field name followed by a dot (test "empty config and output" of `State`). -/
def requiredStruct {α : Type} (ns field : String) (v : Option α)
    (inner : String → α → List FieldError) : List FieldError :=
  match v with
  | none => [⟨ns ++ field, field, "required"⟩]
  | some x => inner (ns ++ field ++ ".") x

/-- A field that points to a struct, under the chain `omitempty`: nil is passed over. -/
def omitemptyStruct {α : Type} (ns field : String) (v : Option α)
    (inner : String → α → List FieldError) : List FieldError :=
  match v with
  | none => []
  | some x => inner (ns ++ field ++ ".") x

end validator

/-! ## `azks/v0` -/

namespace azks

open validator

/-- Constant `kind` of `azks/v0/azks_v0.go`. -/
def kind : String := "azks"

/-- Constant `version`. -/
def version : String := "v0.0.3"

/-- Struct `AzureAd`. -/
structure AzureAd where
  Managed : Option Bool := none
  TenantId : Option String := none
  AdminGroupObjectIds : Option (List String) := none
deriving DecidableEq, Repr

/-- Struct `AutoScalerProfile`. -/
structure AutoScalerProfile where
  BalanceSimilarNodeGroups : Option Bool := none
  MaxGracefulTerminationSec : Option String := none
  ScaleDownDelayAfterAdd : Option String := none
  ScaleDownDelayAfterDelete : Option String := none
  ScaleDownDelayAfterFailure : Option String := none
  ScanInterval : Option String := none
  ScaleDownUnneeded : Option String := none
  ScaleDownUnready : Option String := none
  ScaleDownUtilizationThreshold : Option String := none
deriving DecidableEq, Repr

/-- Struct `DefaultNodePool`; the field `Type` is written `Type'`. -/
structure DefaultNodePool where
  Size : Option Int := none
  Min : Option Int := none
  Max : Option Int := none
  VmSize : Option String := none
  DiskGbSize : Option Int := none
  AutoScaling : Option Bool := none
  Type' : Option String := none
deriving DecidableEq, Repr

/-- Struct `Params`. -/
structure Params where
  Name : Option String := none
  Location : Option String := none
  RsaPublicKeyPath : Option String := none
  RgName : Option String := none
  VnetName : Option String := none
  SubnetName : Option String := none
  KubernetesVersion : Option String := none
  EnableNodePublicIp : Option Bool := none
  EnableRbac : Option Bool := none
  DefaultNodePool : Option DefaultNodePool := none
  AutoScalerProfile : Option AutoScalerProfile := none
  AzureAd : Option AzureAd := none
  IdentityType : Option String := none
  AdminUsername : Option String := none
deriving DecidableEq, Repr

/-- Struct `Config`. -/
structure Config where
  Kind : Option String := none
  Version : Option String := none
  Params : Option Params := none
  Unused : Option (List String) := none
deriving DecidableEq, Repr

/-- The `validate` tags of `DefaultNodePool`, field by field in the order of declaration. -/
def DefaultNodePool.Struct (ns : String) (p : DefaultNodePool) : List FieldError :=
  chain ns "Size" [("required", p.Size.isSome), ("min", minInt 0 p.Size),
    ("gtefield", gteField p.Size p.Min), ("ltefield", lteField p.Size p.Max)] ++
  chain ns "Min" [("required", p.Min.isSome), ("min", minInt 0 p.Min)] ++
  chain ns "Max" [("required", p.Max.isSome), ("min", minInt 0 p.Max),
    ("gtefield", gteField p.Max p.Min)] ++
  chain ns "VmSize" [("required", p.VmSize.isSome), ("min", minLen 1 p.VmSize)] ++
  chain ns "DiskGbSize" [("required", p.DiskGbSize.isSome), ("min", minInt 1 p.DiskGbSize)] ++
  chain ns "AutoScaling" [("required", p.AutoScaling.isSome)] ++
  chain ns "Type" [("required", p.Type'.isSome), ("min", minLen 1 p.Type')]

/-- The `validate` tags of `AutoScalerProfile`. -/
def AutoScalerProfile.Struct (ns : String) (p : AutoScalerProfile) : List FieldError :=
  chain ns "BalanceSimilarNodeGroups" [("required", p.BalanceSimilarNodeGroups.isSome)] ++
  chain ns "MaxGracefulTerminationSec" [("required", p.MaxGracefulTerminationSec.isSome),
    ("min", minLen 1 p.MaxGracefulTerminationSec)] ++
  chain ns "ScaleDownDelayAfterAdd" [("required", p.ScaleDownDelayAfterAdd.isSome),
    ("min", minLen 1 p.ScaleDownDelayAfterAdd)] ++
  chain ns "ScaleDownDelayAfterDelete" [("required", p.ScaleDownDelayAfterDelete.isSome),
    ("min", minLen 1 p.ScaleDownDelayAfterDelete)] ++
  chain ns "ScaleDownDelayAfterFailure" [("required", p.ScaleDownDelayAfterFailure.isSome),
    ("min", minLen 1 p.ScaleDownDelayAfterFailure)] ++
  chain ns "ScanInterval" [("required", p.ScanInterval.isSome),
    ("min", minLen 1 p.ScanInterval)] ++
  chain ns "ScaleDownUnneeded" [("required", p.ScaleDownUnneeded.isSome),
    ("min", minLen 1 p.ScaleDownUnneeded)] ++
  chain ns "ScaleDownUnready" [("required", p.ScaleDownUnready.isSome),
    ("min", minLen 1 p.ScaleDownUnready)] ++
  chain ns "ScaleDownUtilizationThreshold"
    [("required", p.ScaleDownUtilizationThreshold.isSome),
     ("min", minLen 1 p.ScaleDownUtilizationThreshold)]

/-- The `validate` tags of `AzureAd`; an element of `AdminGroupObjectIds` is a string, which
`required` takes as missing when it is empty. -/
def AzureAd.Struct (ns : String) (a : AzureAd) : List FieldError :=
  chain ns "Managed" [("required", a.Managed.isSome)] ++
  chain ns "TenantId" [("required", a.TenantId.isSome), ("min", minLen 1 a.TenantId)] ++
  dive ns "AdminGroupObjectIds"
    [("required", a.AdminGroupObjectIds.isSome),
     ("min", decide (1 ≤ (elems a.AdminGroupObjectIds).length))]
    (elems a.AdminGroupObjectIds)
    (fun name x => chain ns name [("required", decide (x ≠ "")), ("min", decide (1 ≤ x.length))])

/-- The `validate` tags of `Params`. -/
def Params.Struct (ns : String) (p : Params) : List FieldError :=
  chain ns "Name" [("required", p.Name.isSome), ("min", minLen 1 p.Name)] ++
  chain ns "Location" [("required", p.Location.isSome), ("min", minLen 1 p.Location)] ++
  chain ns "RsaPublicKeyPath" [("required", p.RsaPublicKeyPath.isSome),
    ("min", minLen 1 p.RsaPublicKeyPath)] ++
  chain ns "RgName" [("required", p.RgName.isSome), ("min", minLen 1 p.RgName)] ++
  chain ns "VnetName" [("required", p.VnetName.isSome), ("min", minLen 1 p.VnetName)] ++
  chain ns "SubnetName" [("required", p.SubnetName.isSome), ("min", minLen 1 p.SubnetName)] ++
  chain ns "KubernetesVersion" [("required", p.KubernetesVersion.isSome),
    ("min", minLen 1 p.KubernetesVersion)] ++
  chain ns "EnableNodePublicIp" [("required", p.EnableNodePublicIp.isSome)] ++
  chain ns "EnableRbac" [("required", p.EnableRbac.isSome)] ++
  requiredStruct ns "DefaultNodePool" p.DefaultNodePool DefaultNodePool.Struct ++
  requiredStruct ns "AutoScalerProfile" p.AutoScalerProfile AutoScalerProfile.Struct ++
  omitemptyStruct ns "AzureAd" p.AzureAd AzureAd.Struct ++
  chain ns "IdentityType" [("required", p.IdentityType.isSome),
    ("min", minLen 1 p.IdentityType)] ++
  chain ns "AdminUsername" [("required", p.AdminUsername.isSome),
    ("min", minLen 1 p.AdminUsername)]

/-- The call `validate.Struct(c)` of `Config.isValid`: the `validate` tags of `Config`;
`Unused` has none. -/
def Config.Struct (k : Checks) : StructErrors Config := fun c =>
  chain "Config." "Kind" [("required", c.Kind.isSome), ("eq", holds (fun s => s = "azks") c.Kind)] ++
  chain "Config." "Version" [("required", c.Version.isSome),
    ("version", holds (k.version "~0") c.Version)] ++
  requiredStruct "Config." "Params" c.Params Params.Struct

/-- `Config.isValid` of `azks/v0/azks_v0.go`, for a receiver that is not nil. -/
def Config.isValid (structErrors : StructErrors Config) (c : Config) : Option shared.Error :=
  match structErrors c with
  | [] => none
  | e :: es => some (.ValidationErrors (e :: es))

/-- `Config.Unmarshal` of `azks/v0/azks_v0.go`: the receiver after the call and the error.
The decoder gets `&c` as `Result` and writes into the receiver. -/
def Config.Unmarshal (codec : json.Codec) (decoder : maps.Decoder Config)
    (structErrors : StructErrors Config) (c : Config) (b : Bytes) :
    Config × Option shared.Error :=
  match json.Unmarshal codec b with
  | .error err => (c, some err)
  | .ok input =>
    let d := decoder c input
    match d.err with
    | some msg => (d.target, some (.decode msg))
    | none =>
      let c := { d.target with Unused := some d.unused }
      (c, Config.isValid structErrors c)

end azks

/-! ## `Config` of `awsbi/v0` -/

namespace awsbi

open validator

/-- Constant `kind` of `awsbi/v0/awsbi_v0.go`. -/
def kind : String := "awsbi"

/-- Constant `version`. -/
def version : String := "v0.0.1"

/-- Struct `Config`. -/
structure Config where
  Kind : Option String := none
  Version : Option String := none
  Params : Option Params := none
  Unused : Option (List String) := none
deriving DecidableEq, Repr

/-- The call `validate.Struct(c)` of `Config.isValid`: the `validate` tags of `Config`, and for
a `Params` that is not nil what the tags of `Params` and of the structs below it give
(`paramsTags`, taken as given) followed by the reports of `AwsBIParamsValidation`, the function
registered for `Params`. -/
def Config.Struct (k : Checks) (paramsTags : awsbi.Params → List FieldError)
    (structOf : Subnet → StructResult) : StructErrors Config := fun c =>
  chain "Config." "Kind" [("required", c.Kind.isSome),
    ("eq", holds (fun s => s = "awsbi") c.Kind)] ++
  chain "Config." "Version" [("required", c.Version.isSome),
    ("version", holds (k.version "~0") c.Version)] ++
  match c.Params with
  | none => [⟨"Config.Params", "Params", "required"⟩]
  | some params =>
    paramsTags params ++
      (AwsBIParamsValidation structOf params).flatMap (Report.fieldErrors "Config.Params.")

/-- `Config.isValid` of `awsbi/v0/awsbi_v0.go`; the receiver is a pointer, `none` is nil. -/
def Config.isValid (structErrors : StructErrors Config) (c : Option Config) :
    Option shared.Error :=
  match c with
  | none => some (.text "azbi config is nil")
  | some c =>
    match structErrors c with
    | [] => none
    | e :: es => some (.ValidationErrors (e :: es))

/-- `Config.Unmarshal` of `awsbi/v0/awsbi_v0.go`: the receiver after the call and the error.
The decoder gets `&c` as `Result` and writes into the receiver. -/
def Config.Unmarshal (codec : json.Codec) (decoder : maps.Decoder Config)
    (structErrors : StructErrors Config) (c : Config) (b : Bytes) :
    Config × Option shared.Error :=
  match json.Unmarshal codec b with
  | .error err => (c, some err)
  | .ok input =>
    let d := decoder c input
    match d.err with
    | some msg => (d.target, some (.decode msg))
    | none =>
      let c := { d.target with Unused := some d.unused }
      (c, Config.isValid structErrors (some c))

end awsbi

/-! ## The `validate` tags of `azbi/v0` -/

namespace azbi

open validator

/-- The `validate` tags of `Meta`; a chain of alternatives is reported under its whole text
(test "incorrect status" of `State`). -/
def Meta.Struct (k : Checks) (ns : String) (m : Meta) : List FieldError :=
  chain ns "Kind" [("required", m.Kind.isSome),
    ("eq=azbiConfig|eq=azbiState",
      holds (fun s => decide (s = "azbiConfig" ∨ s = "azbiState")) m.Kind)] ++
  chain ns "Version" [("required", m.Version.isSome),
    ("version", holds (k.version "~0") m.Version)] ++
  chain ns "ModuleVersion" [("required", m.ModuleVersion.isSome)]

/-- The `validate` tags of `Subnet`; `required` on a slice asks for a slice that is not nil,
on a string element for a string that is not empty. -/
def Subnet.Struct (k : Checks) (ns : String) (s : Subnet) : List FieldError :=
  chain ns "Name" [("required", s.Name.isSome), ("min", minLen 1 s.Name)] ++
  dive ns "AddressPrefixes"
    [("required", s.AddressPrefixes.isSome),
     ("min", decide (1 ≤ (elems s.AddressPrefixes).length))]
    (elems s.AddressPrefixes)
    (fun name x => chain ns name [("required", decide (x ≠ "")), ("cidr", k.cidr x)])

/-- The `validate` tags of `VmImage`. -/
def VmImage.Struct (ns : String) (x : VmImage) : List FieldError :=
  chain ns "Publisher" [("required", x.Publisher.isSome), ("min", minLen 1 x.Publisher)] ++
  chain ns "Offer" [("required", x.Offer.isSome), ("min", minLen 1 x.Offer)] ++
  chain ns "Sku" [("required", x.Sku.isSome), ("min", minLen 1 x.Sku)] ++
  chain ns "Version" [("required", x.Version.isSome), ("min", minLen 1 x.Version)]

/-- The `validate` tags of `DataDisk`. -/
def DataDisk.Struct (ns : String) (x : DataDisk) : List FieldError :=
  chain ns "GbSize" [("required", x.GbSize.isSome), ("min", minInt 1 x.GbSize)] ++
  chain ns "StorageType" [("required", x.StorageType.isSome),
    ("eq=Standard_LRS|eq=Premium_LRS|eq=StandardSSD_LRS|eq=UltraSSD_LRS",
      holds (fun s => decide (s = "Standard_LRS" ∨ s = "Premium_LRS" ∨ s = "StandardSSD_LRS" ∨
        s = "UltraSSD_LRS")) x.StorageType)]

/-- The `validate` tags of `VmGroup`; `omitempty` passes over the nil slice only. -/
def VmGroup.Struct (ns : String) (g : VmGroup) : List FieldError :=
  chain ns "Name" [("required", g.Name.isSome), ("min", minLen 1 g.Name)] ++
  chain ns "VmCount" [("required", g.VmCount.isSome), ("min", minInt 1 g.VmCount)] ++
  chain ns "VmSize" [("required", g.VmSize.isSome), ("min", minLen 1 g.VmSize)] ++
  chain ns "UsePublicIP" [("required", g.UsePublicIP.isSome)] ++
  (match g.SubnetNames with
   | none => []
   | some xs =>
     dive ns "SubnetNames" [("min", decide (1 ≤ xs.length))] xs
       (fun name x => chain ns name [("required", decide (x ≠ ""))])) ++
  requiredStruct ns "VmImage" g.VmImage VmImage.Struct ++
  dive ns "DataDisks" [("required", g.DataDisks.isSome)] (elems g.DataDisks)
    (fun name x => DataDisk.Struct (ns ++ name ++ ".") x)

/-- The `validate` tags of `Params`.  `required_with=AddressSpace` asks for `Subnets` that is
not nil when `AddressSpace` is not nil, `excluded_without=AddressSpace` for `Subnets` that is
nil when `AddressSpace` is nil (tests "address space but no subnets", "subnets but no address
space"). -/
def Params.Struct (k : Checks) (ns : String) (p : Params) : List FieldError :=
  chain ns "Name" [("required", p.Name.isSome), ("min", minLen 1 p.Name)] ++
  chain ns "Location" [("required", p.Location.isSome), ("min", minLen 1 p.Location)] ++
  (match p.AddressSpace with
   | none => []
   | some xs =>
     dive ns "AddressSpace" [("min", decide (1 ≤ xs.length))] xs
       (fun name x => chain ns name [("min", decide (1 ≤ x.length)), ("cidr", k.cidr x)])) ++
  (match chain ns "Subnets"
      [("required_with", p.AddressSpace.isNone || p.Subnets.isSome),
       ("excluded_without", p.AddressSpace.isSome || p.Subnets.isNone)] with
   | [] =>
     match p.Subnets with
     | none => []
     | some xs =>
       dive ns "Subnets" [("min", decide (1 ≤ xs.length))] xs
         (fun name x => Subnet.Struct k (ns ++ name ++ ".") x)
   | errs => errs) ++
  dive ns "VmGroups" [("required", p.VmGroups.isSome)] (elems p.VmGroups)
    (fun name g => VmGroup.Struct (ns ++ name ++ ".") g) ++
  chain ns "AdminUsername" [("required", p.AdminUsername.isSome),
    ("min", minLen 1 p.AdminUsername)] ++
  chain ns "RsaPublicKeyPath" [("required", p.RsaPublicKeyPath.isSome),
    ("min", minLen 1 p.RsaPublicKeyPath)]

/-- The `validate` tags of the fields of a `Config` that stands at namespace `ns`; `Unused`
has none. -/
def Config.fields (k : Checks) (ns : String) (c : Config) : List FieldError :=
  requiredStruct ns "Meta" c.Meta (Meta.Struct k) ++
  requiredStruct ns "Params" c.Params (Params.Struct k)

/-- What the `validate` tags give for a `Config`. -/
def Config.tagErrors (k : Checks) : StructErrors Config := Config.fields k "Config."

/-- The fields of `Output`, `OutputVmGroup`, `OutputVm` and `OutputDataDisk` carry no
`validate` tag: the library finds nothing in them. -/
def Output.Struct (_ns : String) (_o : Output) : List FieldError := []

/-- The call `validate.Struct(s)` in `State.Validate`: the `validate` tags of `State` and of
what it embeds.  No function is registered with `RegisterStructValidation` there, so the
`Params` of an embedded `Config` are validated by their tags only. -/
def State.Struct (k : Checks) : StructErrors State := fun s =>
  requiredStruct "State." "Meta" s.Meta (Meta.Struct k) ++
  chain "State." "Status" [("required", decide (s.Status ≠ "")),
    ("eq=initialized|eq=applied|eq=destroyed",
      decide (s.Status = "initialized" ∨ s.Status = "applied" ∨ s.Status = "destroyed"))] ++
  omitemptyStruct "State." "Config" s.Config (Config.fields k) ++
  omitemptyStruct "State." "Output" s.Output Output.Struct

end azbi

/-! ## Upgrade -/

namespace shared

/-- `Upgrade` of `shared/commons.go`.  `upgradeFunc` is the method `UpgradeFunc` of the
`Upgrader` (`none` when it does not return within its fuel), `setUnused` is `some` of the
method `SetUnused` when the type implements `WithUnused`.  The function reads the file at
`path` and has no statement that writes. -/
def Upgrade {α : Type} (codec : json.Codec) (decoder : maps.Decoder α)
    (setUnused : Option (α → List String → α)) (upgradeFunc : Obj → Option Outcome)
    (fs : os.FS) (u : α) (path : String) : Option (Loaded α) :=
  let err := os.Stat fs path
  if os.IsNotExist err then some ⟨u, none, err⟩
  else
    match ioutil.ReadFile fs path with
    | .error err => some ⟨u, none, some err⟩
    | .ok b =>
      match json.Unmarshal codec b with
      | .error err => some ⟨u, none, some err⟩
      | .ok input =>
        match upgradeFunc input with
        | none => none
        | some o =>
          match o.err with
          | some err => some ⟨u, none, some err⟩
          | none =>
            let d := decoder u o.input
            match d.err with
            | some msg => some ⟨d.target, none, some (.decode msg)⟩
            | none =>
              match setUnused with
              | some f => some ⟨f d.target d.unused, some (f d.target d.unused), none⟩
              | none => some ⟨d.target, some d.target, none⟩

end shared

namespace azbi

open shared

/-- `Config.Upgrade` of `azbi/v0/config.go`: the file system after the call, which is the one
before it, the receiver after the call and the error. -/
def Config.Upgrade (fuel : Nat) (codec : json.Codec) (decoder : maps.Decoder Config)
    (structErrors : validator.StructErrors Config) (fs : os.FS) (c : Config) (path : String) :
    Option (os.FS × Config × Option Error) :=
  match shared.Upgrade codec decoder (some Config.SetUnused) (Config.UpgradeFunc fuel)
      fs c path with
  | none => none
  | some r =>
    match r.err with
    | some err => some (fs, r.target, some err)
    | none =>
      match r.value with
      | none => some (fs, r.target, some (.text "incorrect casting"))
      | some config =>
        match Config.Validate structErrors (some config) with
        | some err => some (fs, r.target, some err)
        | none => some (fs, config, none)

/-- `State.Upgrade` of `azbi/v0/state.go`: the file system after the call, which is the one
before it, the receiver after the call and the error. -/
def State.Upgrade (fuel : Nat) (codec : json.Codec) (decoder : maps.Decoder State)
    (structErrors : validator.StructErrors State) (fs : os.FS) (s : State) (path : String) :
    Option (os.FS × State × Option Error) :=
  match shared.Upgrade codec decoder (some State.SetUnused) (State.UpgradeFunc fuel)
      fs s path with
  | none => none
  | some r =>
    match r.err with
    | some err => some (fs, r.target, some err)
    | none =>
      match r.value with
      | none => some (fs, r.target, some (.text "incorrect casting"))
      | some state =>
        match State.Validate structErrors (some state) with
        | some err => some (fs, r.target, some err)
        | none => some (fs, state, none)

end azbi

/-! ## Numbers read from a JSON text -/

namespace float64

/-- The integer nearest to `x`, the even one of the two when `x` lies half way. -/
def roundEven (x : ℚ) : ℤ :=
  let f := ⌊x⌋
  if x - f < 1 / 2 then f
  else if 1 / 2 < x - f then f + 1
  else if f % 2 = 0 then f else f + 1

/-- The `float64` nearest to `q`, the one with the even mantissa when `q` lies half way
between two: the value `json.Unmarshal` stores for a number it reads into an `interface{}`.
A `float64` has 53 bits of mantissa; the bounds of its exponent are left out. -/
def round (q : ℚ) : ℚ :=
  if q = 0 then 0
  else
    let e := Int.log 2 |q| - 52
    (if q < 0 then -1 else 1) * (roundEven (|q| / 2 ^ e) : ℚ) * 2 ^ e

end float64

mutual

/-- A value tree with every number replaced by the nearest `float64`. -/
def JSON.float64 : JSON → JSON
  | .num q => .num (float64.round q)
  | .arr xs => .arr (JSON.float64List xs)
  | .obj kvs => .obj (JSON.float64Obj kvs)
  | .null => .null
  | .bool b => .bool b
  | .str s => .str s

/-- `JSON.float64` on the elements of an array. -/
def JSON.float64List : List JSON → List JSON
  | [] => []
  | x :: xs => JSON.float64 x :: JSON.float64List xs

/-- `JSON.float64` on the entries of an object. -/
def JSON.float64Obj : List (String × JSON) → List (String × JSON)
  | [] => []
  | (k, v) :: rest => (k, JSON.float64 v) :: JSON.float64Obj rest

end

/-! ## The decoder of `mapstructure`

`shared.Load` builds the decoder with `Metadata`, `TagName: "json"` and `Result: &i`, all
other settings at their defaults (`ZeroFields` and `WeaklyTypedInput` off): it writes into
the value the receiver points to, sets nothing for a nil input, and collects the keys of the
tree that no field takes. -/

namespace maps

/-- What decoding one value leaves behind: the target after it, the keys added to
`Metadata.Unused` and the names of the values that could not be decoded. -/
structure Step (α : Type) where
  value : α
  unused : List String
  errors : List String

/-- The start of `Decoder.decode`: for a nil input nothing is set; otherwise the kind of the
target decides. -/
def decode {α : Type} (kind : String → JSON → α → Step α) (name : String) (input : JSON)
    (old : α) : Step α :=
  match input with
  | .null => ⟨old, [], []⟩
  | _ => kind name input old

/-- Target of kind string. -/
def decodeString (name : String) (input : JSON) (old : String) : Step String :=
  match input with
  | .str s => ⟨s, [], []⟩
  | _ => ⟨old, [], [name]⟩

/-- The conversion `int64(f)` of a `float64`: toward zero. -/
def truncate (q : ℚ) : Int :=
  if 0 ≤ q then ⌊q⌋ else ⌈q⌉

/-- Target of kind int: a number of the tree is a `float64` and is converted. -/
def decodeInt (name : String) (input : JSON) (old : Int) : Step Int :=
  match input with
  | .num q => ⟨truncate q, [], []⟩
  | _ => ⟨old, [], [name]⟩

/-- Target of kind bool. -/
def decodeBool (name : String) (input : JSON) (old : Bool) : Step Bool :=
  match input with
  | .bool b => ⟨b, [], []⟩
  | _ => ⟨old, [], [name]⟩

/-- Target of kind pointer: the value is decoded into what the pointer points to, into a new
zero value when the pointer is nil; the new value is kept only when decoding it went well. -/
def decodePtr {α : Type} (zero : α) (kind : String → JSON → α → Step α) (name : String)
    (input : JSON) (old : Option α) : Step (Option α) :=
  let r := decode kind name input (old.getD zero)
  if r.errors = [] then ⟨some r.value, r.unused, r.errors⟩
  else ⟨old.map (fun _ => r.value), r.unused, r.errors⟩

/-- The loop of `decodeSlice`: element `i` of the data is decoded into element `i` of the
slice, into a zero value appended to it where the slice ends; elements of the slice beyond
the data stay. -/
def decodeSlice.loop {α : Type} (zero : α) (kind : String → JSON → α → Step α)
    (name : String) : Nat → List JSON → List α → Step (List α)
  | _, [], ys => ⟨ys, [], []⟩
  | i, x :: xs, ys =>
    let r := decode kind (name ++ "[" ++ toString i ++ "]") x (ys.headD zero)
    let rest := decodeSlice.loop zero kind name (i + 1) xs ys.tail
    ⟨r.value :: rest.value, r.unused ++ rest.unused, r.errors ++ rest.errors⟩

/-- Target of kind slice: the data has to be an array; a nil slice is made anew, a slice
that is not nil is written into. -/
def decodeSlice {α : Type} (zero : α) (kind : String → JSON → α → Step α) (name : String)
    (input : JSON) (old : Option (List α)) : Step (Option (List α)) :=
  match input with
  | .arr xs =>
    let r := decodeSlice.loop zero kind name 0 xs (elems old)
    ⟨some r.value, r.unused, r.errors⟩
  | _ => ⟨old, [], [name]⟩

/-- Whether a character of a key is the character of a tag up to case, as
`strings.EqualFold` has it for a tag of ASCII characters: the other case of a letter, and
the Kelvin sign for `k`, the long s for `s`. -/
def foldChar (c a : Char) : Bool :=
  c = a || c.toLower = a.toLower || (a.toLower = 'k' && c = 'K') ||
    (a.toLower = 's' && c = 'ſ')

/-- `strings.EqualFold(key, tag)` for a tag of ASCII characters. -/
def equalFold (key tag : String) : Bool :=
  key.data.length = tag.data.length && (List.zipWith foldChar key.data tag.data).all id

/-- The entry of the data a field takes: the one under the name of its tag, otherwise one
whose key is that name up to case (the library takes the first that the iteration over the
map meets; here it is the first in the order of the tree). -/
def lookup (m : Obj) (tag : String) : Option (String × JSON) :=
  match mapGet m tag with
  | some v => some (tag, v)
  | none => m.find? (fun kv => equalFold kv.1 tag)

/-- The name under which a field or key of the struct called `name` is reported. -/
def qualify (name key : String) : String :=
  if name = "" then key else name ++ "." ++ key

/-- Target of kind struct: the data has to be a map; every field, in the order of
declaration, is decoded from its entry, if there is one; when no field failed, the keys that
no field took are added to `Metadata.Unused` afterwards.  The library takes these keys in the
order in which Go iterates over the map, which is not fixed; here it is the order of the
tree. -/
def decodeStruct {α : Type} (fields : List (String × (String → JSON → α → Step α)))
    (name : String) (input : JSON) (old : α) : Step α :=
  match input with
  | .obj m =>
    let r := fields.foldl (fun (acc : Step α) f =>
      match lookup m f.1 with
      | none => acc
      | some kv =>
        let s := f.2 (qualify name f.1) kv.2 acc.value
        ⟨s.value, acc.unused ++ s.unused, acc.errors ++ s.errors⟩) ⟨old, [], []⟩
    let used := fields.filterMap (fun f => (lookup m f.1).map (fun kv => kv.1))
    let unused := ((m.map (fun kv => kv.1)).eraseDups.filter (fun k => !used.contains k)).map
      (qualify name)
    ⟨r.value, if r.errors = [] then r.unused ++ unused else r.unused, r.errors⟩
  | _ => ⟨old, [], [name]⟩

/-- A field of a struct as a target: read from the struct, decode, write back. -/
def field {σ α : Type} (get : σ → α) (set : σ → α → σ) (kind : String → JSON → α → Step α) :
    String → JSON → σ → Step σ :=
  fun name input s =>
    let r := decode kind name input (get s)
    ⟨set s r.value, r.unused, r.errors⟩

/-- The message of the error `Decode` returns; the wording of the library is not modelled,
the names of the values that could not be decoded stand for it. -/
def errorText (names : List String) : String :=
  toString names.length ++ " error(s) decoding: " ++ ", ".intercalate names

end maps

namespace azbi

open maps

/-- The fields of `Meta` with their `json` tags. -/
def Meta.jsonFields : List (String × (String → JSON → Meta → Step Meta)) :=
  [("kind", field (fun m => m.Kind) (fun m x => { m with Kind := x })
      (decodePtr "" decodeString)),
   ("version", field (fun m => m.Version) (fun m x => { m with Version := x })
      (decodePtr "" decodeString)),
   ("module_version", field (fun m => m.ModuleVersion)
      (fun m x => { m with ModuleVersion := x }) (decodePtr "" decodeString))]

/-- The fields of `Subnet`. -/
def Subnet.jsonFields : List (String × (String → JSON → Subnet → Step Subnet)) :=
  [("name", field (fun s => s.Name) (fun s x => { s with Name := x })
      (decodePtr "" decodeString)),
   ("address_prefixes", field (fun s => s.AddressPrefixes)
      (fun s x => { s with AddressPrefixes := x }) (decodeSlice "" decodeString))]

/-- The fields of `VmImage`. -/
def VmImage.jsonFields : List (String × (String → JSON → VmImage → Step VmImage)) :=
  [("publisher", field (fun s => s.Publisher) (fun s x => { s with Publisher := x })
      (decodePtr "" decodeString)),
   ("offer", field (fun s => s.Offer) (fun s x => { s with Offer := x })
      (decodePtr "" decodeString)),
   ("sku", field (fun s => s.Sku) (fun s x => { s with Sku := x })
      (decodePtr "" decodeString)),
   ("version", field (fun s => s.Version) (fun s x => { s with Version := x })
      (decodePtr "" decodeString))]

/-- The fields of `DataDisk`. -/
def DataDisk.jsonFields : List (String × (String → JSON → DataDisk → Step DataDisk)) :=
  [("disk_size_gb", field (fun s => s.GbSize) (fun s x => { s with GbSize := x })
      (decodePtr 0 decodeInt)),
   ("storage_type", field (fun s => s.StorageType) (fun s x => { s with StorageType := x })
      (decodePtr "" decodeString))]

/-- The fields of `VmGroup`. -/
def VmGroup.jsonFields : List (String × (String → JSON → VmGroup → Step VmGroup)) :=
  [("name", field (fun s => s.Name) (fun s x => { s with Name := x })
      (decodePtr "" decodeString)),
   ("vm_count", field (fun s => s.VmCount) (fun s x => { s with VmCount := x })
      (decodePtr 0 decodeInt)),
   ("vm_size", field (fun s => s.VmSize) (fun s x => { s with VmSize := x })
      (decodePtr "" decodeString)),
   ("use_public_ip", field (fun s => s.UsePublicIP) (fun s x => { s with UsePublicIP := x })
      (decodePtr false decodeBool)),
   ("subnet_names", field (fun s => s.SubnetNames) (fun s x => { s with SubnetNames := x })
      (decodeSlice "" decodeString)),
   ("vm_image", field (fun s => s.VmImage) (fun s x => { s with VmImage := x })
      (decodePtr {} (decodeStruct VmImage.jsonFields))),
   ("data_disks", field (fun s => s.DataDisks) (fun s x => { s with DataDisks := x })
      (decodeSlice {} (decodeStruct DataDisk.jsonFields)))]

/-- The fields of `Params`. -/
def Params.jsonFields : List (String × (String → JSON → Params → Step Params)) :=
  [("name", field (fun s => s.Name) (fun s x => { s with Name := x })
      (decodePtr "" decodeString)),
   ("location", field (fun s => s.Location) (fun s x => { s with Location := x })
      (decodePtr "" decodeString)),
   ("address_space", field (fun s => s.AddressSpace) (fun s x => { s with AddressSpace := x })
      (decodeSlice "" decodeString)),
   ("subnets", field (fun s => s.Subnets) (fun s x => { s with Subnets := x })
      (decodeSlice {} (decodeStruct Subnet.jsonFields))),
   ("vm_groups", field (fun s => s.VmGroups) (fun s x => { s with VmGroups := x })
      (decodeSlice {} (decodeStruct VmGroup.jsonFields))),
   ("admin_username", field (fun s => s.AdminUsername)
      (fun s x => { s with AdminUsername := x }) (decodePtr "" decodeString)),
   ("rsa_pub_path", field (fun s => s.RsaPublicKeyPath)
      (fun s x => { s with RsaPublicKeyPath := x }) (decodePtr "" decodeString))]

/-- The fields of `Config`; the decoder takes the name in a `json` tag as it is, so that
`Unused` is the field for the key `-`. -/
def Config.jsonFields : List (String × (String → JSON → Config → Step Config)) :=
  [("meta", field (fun s => s.Meta) (fun s x => { s with Meta := x })
      (decodePtr {} (decodeStruct Meta.jsonFields))),
   ("params", field (fun s => s.Params) (fun s x => { s with Params := x })
      (decodePtr {} (decodeStruct Params.jsonFields))),
   ("-", field (fun s => s.Unused) (fun s x => { s with Unused := x })
      (decodeSlice "" decodeString))]

/-- The decoder `shared.Load` builds for a `*Config`: `Decode(input)` for the receiver `c`. -/
def Config.Decode : maps.Decoder Config := fun c input =>
  let r := decodeStruct Config.jsonFields "" (.obj input) c
  ⟨r.value, r.unused, if r.errors = [] then none else some (errorText r.errors)⟩

end azbi

/-! ## Example documents -/

namespace azbi.examples

/-- A config tree at the old version with an object `params`. -/
def oldConfig : Obj :=
  [("meta", .obj [("kind", .str "azbiConfig"), ("version", .str "v0.2.0"),
      ("module_version", .str "v0.0.1")]),
   ("params", .obj [("location", .str "northeurope"), ("name", .str "epiphany")])]

/-- A state tree at the old version that embeds `oldConfig`. -/
def oldState : Obj :=
  [("meta", .obj [("kind", .str "azbiState"), ("version", .str "v0.0.1"),
      ("module_version", .str "v1.1.1")]),
   ("status", .str "initialized"),
   ("config", .obj oldConfig),
   ("output", .null)]

/-- A config tree at the old version that has no `params`. -/
def oldConfigNoParams : Obj :=
  [("meta", .obj [("kind", .str "azbiConfig"), ("version", .str "v0.2.0")])]

/-- A state tree at the old version whose `config` is null. -/
def oldStateNullConfig : Obj :=
  [("meta", .obj [("kind", .str "azbiState"), ("version", .str "v0.0.1")]),
   ("status", .str "initialized"), ("config", .null), ("output", .null)]

/-- A tree whose version marker no schema knows. -/
def strangeDoc : Obj :=
  [("meta", .obj [("kind", .str "azbiConfig"), ("version", .str "v9.9.9")]),
   ("params", .obj [("name", .str "epiphany")])]

/-- The tree `Config.UpgradeFunc` leaves for `oldConfig`. -/
def newConfig : Obj :=
  [("meta", .obj [("kind", .str "azbiConfig"), ("version", .str "v0.2.1"),
      ("module_version", .str "v0.0.1")]),
   ("params", .obj [("location", .str "northeurope"), ("name", .str "epiphany"),
      ("admin_username", .str "operations")])]

/-- The tree `State.UpgradeFunc` leaves for `oldState`. -/
def newState : Obj :=
  [("meta", .obj [("kind", .str "azbiState"), ("version", .str "v0.0.2"),
      ("module_version", .str "v1.1.1")]),
   ("status", .str "initialized"),
   ("config", .obj newConfig),
   ("output", .null)]

/-- A JSON library whose reader yields `oldConfig` for every text and whose writer yields
the empty text. -/
def codecOldConfig : json.Codec :=
  { encodeIndent := fun _ _ _ => [], decodeText := fun _ => .ok (.obj oldConfig) }

/-- A decoder that fails on every tree. -/
def failingDecoder (α : Type) : maps.Decoder α :=
  fun i _ => ⟨i, [], some "decoding failed"⟩

/-- The two `required` rules on the fields `Meta` and `Params` of `Config`. -/
def requiredOfConfig : validator.StructErrors Config := fun c =>
  (if c.Meta.isNone then [⟨"Config.Meta", "Meta", "required"⟩] else []) ++
  (if c.Params.isNone then [⟨"Config.Params", "Params", "required"⟩] else [])

/-- The `required` rule on the field `Meta` of `State`. -/
def requiredOfState : validator.StructErrors State := fun s =>
  if s.Meta.isNone then [⟨"State.Meta", "Meta", "required"⟩] else []

/-- A file system with one file, `config.json`, and nothing else. -/
def fsOneFile : os.FS := fun p => if p = "config.json" then .file [123, 125] else .missing

/-- A config with every field set to something else than `Config.Init` sets. -/
def busyConfig : Config :=
  { Meta := some { Kind := some "other", Version := some "v9.9.9", ModuleVersion := some "old" }
    Params := some { Name := some "epiphany", Subnets := some [], VmGroups := none }
    Unused := some ["params.extra"] }

/-- A state with every field set to something else than `State.Init` sets. -/
def busyState : State :=
  { Meta := some { Kind := some "other", Version := some "v9.9.9", ModuleVersion := some "old" }
    Status := "applied"
    Config := some busyConfig
    Output := some { RgName := some "epiphany-rg" }
    Unused := some ["output.extra"] }

/-- The default params with the subnet references of the VM group replaced by two names that
no subnet carries. -/
def twoMissingParams : Params :=
  { Name := some "unknown"
    Location := some "northeurope"
    AddressSpace := some ["10.0.0.0/16"]
    AdminUsername := some "operations"
    RsaPublicKeyPath := some "/shared/vms_rsa.pub"
    Subnets := some [{ Name := some "main", AddressPrefixes := some ["10.0.1.0/24"] }]
    VmGroups := some
      [ { Name := some "vm-group-0"
          VmCount := some 1
          VmSize := some "Standard_DS2_v2"
          UsePublicIP := some true
          SubnetNames := some ["missing1", "missing2"]
          VmImage := some
            { Publisher := some "Canonical"
              Offer := some "UbuntuServer"
              Sku := some "18.04-LTS"
              Version := some "18.04.202006101" }
          DataDisks := some [{ GbSize := some 10, StorageType := some "Premium_LRS" }] } ] }

/-- The default config with `twoMissingParams` for its params; apart from the two subnet
references it is the document `Config.Init` builds. -/
def twoMissingSubnets : Config :=
  { Config.Init {} "v1.1.1" with Params := some twoMissingParams }

/-- Two subnets that share the name "subnet1" and differ in their address prefixes, and a VM
group that uses neither. -/
def sameNameSubnets : Params :=
  { Subnets := some
      [ { Name := some "subnet1", AddressPrefixes := some ["1.1.1.1/24"] },
        { Name := some "subnet1", AddressPrefixes := some ["2.2.2.2/24"] } ]
    VmGroups := some [{ SubnetNames := some ["other"] }] }

/-- A subnet without a name, and a VM group. -/
def namelessSubnet : Params :=
  { Subnets := some [{ Name := none, AddressPrefixes := some ["1.1.1.1/24"] }]
    VmGroups := some [{ SubnetNames := some ["subnet1"] }] }

/-- The params of the test "multiple vm_groups some free subnets". -/
def someFreeSubnets : Params :=
  { Subnets := some
      [ { Name := some "subnet1", AddressPrefixes := some ["1.1.1.1/24"] },
        { Name := some "subnet2", AddressPrefixes := some ["2.2.2.2/24"] },
        { Name := some "subnet3", AddressPrefixes := some ["3.3.3.3/24"] },
        { Name := some "subnet4", AddressPrefixes := some ["4.4.4.4/24"] },
        { Name := some "subnet5", AddressPrefixes := some ["5.5.5.5/24"] } ]
    VmGroups := some
      [ { SubnetNames := some ["subnet2", "subnet5"] },
        { SubnetNames := some ["subnet2", "subnet4"] } ] }

/-- Params with the subnet "main" and one VM group that refers to "main" and to "missing". -/
def secondMissingParams : Params :=
  { Subnets := some [{ Name := some "main", AddressPrefixes := some ["10.0.1.0/24"] }]
    VmGroups := some [{ SubnetNames := some ["main", "missing"] }] }

/-- The config of the test "missing requested subnets list": no tag rule is violated, and the
VM group refers to the subnet "main" while no subnet is declared. -/
def danglingConfig : Config :=
  { Meta := some
      { Kind := some "azbiConfig", Version := some "v0.2.1", ModuleVersion := some "v0.0.1" }
    Params := some
      { Location := some "northeurope"
        Name := some "epiphany"
        AdminUsername := some "operations"
        RsaPublicKeyPath := some "some-file-name"
        VmGroups := some
          [ { Name := some "vm-group0"
              VmCount := some 1
              SubnetNames := some ["main"]
              VmSize := some "Standard_DS2_v2"
              UsePublicIP := some false
              VmImage := some
                { Publisher := some "Canonical"
                  Offer := some "UbuntuServer"
                  Sku := some "18.04-LTS"
                  Version := some "18.04.202006101" }
              DataDisks := some [] } ] }
    Unused := some [] }

/-- The state of the test "minimal correct" with `danglingConfig` embedded. -/
def danglingState : State :=
  { Meta := some
      { Kind := some "azbiState", Version := some "v0.0.2", ModuleVersion := some "v1.1.1" }
    Status := "initialized"
    Config := some danglingConfig
    Unused := some [] }

/-- Params with the subnet "main" and one VM group that refers to "main", to the empty name
and to "missing", in this order. -/
def emptyThenMissingParams : Params :=
  { Subnets := some [{ Name := some "main", AddressPrefixes := some ["10.0.1.0/24"] }]
    VmGroups := some [{ SubnetNames := some ["main", "", "missing"] }] }

/-- A decoder that yields the default config, without unused keys, for every tree. -/
def defaultDecoder : maps.Decoder Config :=
  fun _ _ => ⟨Config.Init {} "v0.0.1", [], none⟩

/-- The default config with the version of the test "minor version mismatch", which
`Validate` accepts. -/
def minorVersionConfig : Config :=
  { Config.Init {} "v0.0.1" with
    Meta := some
      { Kind := some "azbiConfig", Version := some "v0.100.0", ModuleVersion := some "v0.0.1" } }

/-- A JSON library that reads the value tree of `minorVersionConfig` from every text. -/
def codecMinorVersion : json.Codec :=
  { encodeIndent := fun _ _ _ => [1]
    decodeText := fun _ => .ok (Config.toJSON minorVersionConfig) }

/-- A JSON library that reads the value tree of the default config from every text. -/
def codecDefault : json.Codec :=
  { encodeIndent := fun _ _ _ => [1]
    decodeText := fun _ => .ok (Config.toJSON (Config.Init {} "v0.0.1")) }

/-- A file system without files. -/
def fsEmpty : os.FS := fun _ => .missing

/-- The default config with `n` virtual machines in its group. -/
def countConfig (n : Int) : Config :=
  { Meta := some
      { Kind := some "azbiConfig", Version := some "v0.2.1", ModuleVersion := some "v0.0.1" }
    Params := some
      { Name := some "unknown"
        Location := some "northeurope"
        AddressSpace := some ["10.0.0.0/16"]
        AdminUsername := some "operations"
        RsaPublicKeyPath := some "/shared/vms_rsa.pub"
        Subnets := some
          [ { Name := some "main"
              AddressPrefixes := some ["10.0.1.0/24"] } ]
        VmGroups := some
          [ { Name := some "vm-group-0"
              VmCount := some n
              VmSize := some "Standard_DS2_v2"
              UsePublicIP := some true
              SubnetNames := some ["main"]
              VmImage := some
                { Publisher := some "Canonical"
                  Offer := some "UbuntuServer"
                  Sku := some "18.04-LTS"
                  Version := some "18.04.202006101" }
              DataDisks := some
                [ { GbSize := some 10
                    StorageType := some "Premium_LRS" } ] } ] }
    Unused := some [] }

/-- A JSON library that reads from every text the value tree of the default config with
2 ^ 53 virtual machines: what `json.Unmarshal` makes of the text written for 2 ^ 53 + 1 of
them. -/
def codecHugeCount : json.Codec :=
  { encodeIndent := fun _ _ _ => [1]
    decodeText := fun _ => .ok (Config.toJSON (countConfig 9007199254740992)) }

/-- The default config without address space, subnets and subnet names, all three optional. -/
def bareConfig : Config :=
  { Meta := some
      { Kind := some "azbiConfig", Version := some "v0.2.1", ModuleVersion := some "v0.0.1" }
    Params := some
      { Name := some "unknown"
        Location := some "northeurope"
        AdminUsername := some "operations"
        RsaPublicKeyPath := some "/shared/vms_rsa.pub"
        VmGroups := some
          [ { Name := some "vm-group-0"
              VmCount := some 1
              VmSize := some "Standard_DS2_v2"
              UsePublicIP := some true
              VmImage := some
                { Publisher := some "Canonical"
                  Offer := some "UbuntuServer"
                  Sku := some "18.04-LTS"
                  Version := some "18.04.202006101" }
              DataDisks := some
                [ { GbSize := some 10
                    StorageType := some "Premium_LRS" } ] } ] }
    Unused := some [] }

/-- A JSON library that reads the value tree of `bareConfig` from every text. -/
def codecBare : json.Codec :=
  { encodeIndent := fun _ _ _ => [1]
    decodeText := fun _ => .ok (Config.toJSON bareConfig) }

/-- The raw tree of the test "unknown fields in multiple places" of `TestConfig_Load`. -/
def unknownFieldsTree : Obj :=
  [("meta", .obj [("kind", .str "azbiConfig"), ("version", .str "v0.2.1"),
      ("module_version", .str "v0.0.1")]),
   ("extra_outer_field", .str "extra_outer_value"),
   ("params", .obj
     [("extra_inner_field", .str "extra_inner_value"),
      ("location", .str "northeurope"),
      ("name", .str "epiphany"),
      ("address_space", .arr [.str "10.0.0.0/16"]),
      ("subnets", .arr [.obj [("name", .str "main"),
        ("address_prefixes", .arr [.str "10.0.1.0/24"])]]),
      ("vm_groups", .arr [.obj
        [("name", .str "vm-group0"),
         ("vm_count", .num 3),
         ("vm_size", .str "Standard_DS2_v2"),
         ("use_public_ip", .bool true),
         ("subnet_names", .arr [.str "main"]),
         ("vm_image", .obj [("publisher", .str "Canonical"), ("offer", .str "UbuntuServer"),
           ("sku", .str "18.04-LTS"), ("version", .str "18.04.202006101")]),
         ("data_disks", .arr [.obj [("disk_size_gb", .num 10),
           ("storage_type", .str "Premium_LRS")]])]]),
      ("admin_username", .str "operations"),
      ("rsa_pub_path", .str "/shared/vms_rsa.pub")])]

/-- The config the test "unknown fields in multiple places" expects. -/
def unknownFieldsConfig : Config :=
  { Meta := some
      { Kind := some "azbiConfig", Version := some "v0.2.1", ModuleVersion := some "v0.0.1" }
    Params := some
      { Location := some "northeurope"
        Name := some "epiphany"
        AddressSpace := some ["10.0.0.0/16"]
        Subnets := some
          [ { Name := some "main"
              AddressPrefixes := some ["10.0.1.0/24"] } ]
        VmGroups := some
          [ { Name := some "vm-group0"
              VmCount := some 3
              VmSize := some "Standard_DS2_v2"
              UsePublicIP := some true
              SubnetNames := some ["main"]
              VmImage := some
                { Publisher := some "Canonical"
                  Offer := some "UbuntuServer"
                  Sku := some "18.04-LTS"
                  Version := some "18.04.202006101" }
              DataDisks := some
                [ { GbSize := some 10
                    StorageType := some "Premium_LRS" } ] } ]
        AdminUsername := some "operations"
        RsaPublicKeyPath := some "/shared/vms_rsa.pub" }
    Unused := some ["params.extra_inner_field", "extra_outer_field"] }

/-- A JSON library that reads the tree of the test "unknown fields in multiple places" from
every text. -/
def codecUnknownFields : json.Codec :=
  { encodeIndent := fun _ _ _ => [1]
    decodeText := fun _ => .ok (.obj unknownFieldsTree) }

/-- The raw tree of the test "minimal correct json" of `TestConfig_Load`. -/
def minimalTree : Obj :=
  [("meta", .obj [("kind", .str "azbiConfig"), ("version", .str "v0.2.1"),
      ("module_version", .str "v0.0.1")]),
   ("params", .obj
     [("location", .str "northeurope"),
      ("name", .str "epiphany"),
      ("admin_username", .str "operations"),
      ("rsa_pub_path", .str "some-file-name"),
      ("vm_groups", .arr [.obj
        [("name", .str "vm-group0"),
         ("vm_count", .num 1),
         ("vm_size", .str "Standard_DS2_v2"),
         ("use_public_ip", .bool false),
         ("vm_image", .obj [("publisher", .str "Canonical"), ("offer", .str "UbuntuServer"),
           ("sku", .str "18.04-LTS"), ("version", .str "18.04.202006101")]),
         ("data_disks", .arr [])]])])]

/-- The config the test "minimal correct json" expects. -/
def minimalConfig : Config :=
  { Meta := some
      { Kind := some "azbiConfig", Version := some "v0.2.1", ModuleVersion := some "v0.0.1" }
    Params := some
      { Location := some "northeurope"
        Name := some "epiphany"
        AdminUsername := some "operations"
        RsaPublicKeyPath := some "some-file-name"
        VmGroups := some
          [ { Name := some "vm-group0"
              VmCount := some 1
              VmSize := some "Standard_DS2_v2"
              UsePublicIP := some false
              VmImage := some
                { Publisher := some "Canonical"
                  Offer := some "UbuntuServer"
                  Sku := some "18.04-LTS"
                  Version := some "18.04.202006101" }
              DataDisks := some [] } ] }
    Unused := some [] }

end azbi.examples

namespace awsbi.examples

/-- The subnet references of the test "missing requested subnets list": one public subnet,
and a VM group that asks for a private one. -/
def missingSubnet : Params :=
  { Subnets := some
      { Private := some []
        Public := some [{ Name := some "first_public_subnet", AvailabilityZone := some "any",
                          AddressPrefixes := some "10.1.2.0/24" }] }
    SecurityGroups := some [{ Name := some "default_sg" }]
    VmGroups := some
      [{ Name := some "vm-group0"
         SubnetNames := some ["first_private_subnet"]
         SecurityGroupNames := some ["default_sg"] }] }

/-- Two VM groups with three references that resolve nowhere and one empty name; `Subnets`
is present with both lists empty. -/
def manyMissing : Params :=
  { Subnets := some { Private := some [], Public := none }
    SecurityGroups := some [{ Name := some "default_sg" }]
    VmGroups := some
      [{ SubnetNames := some ["a", ""], SecurityGroupNames := some ["default_sg", "x"] },
       { SubnetNames := some ["b"], SecurityGroupNames := none }] }

end awsbi.examples

namespace imh.examples

/-- A helper for the module directory `/module`. -/
def helper : InfrastructureModuleHelper :=
  { ModuleDirectoryPath := "/module", ModuleVersion := "v1.0.0" }

/-- A path join that puts a slash between its arguments. -/
def join : String → String → String := fun a b => a ++ "/" ++ b

/-- A world where the state file is missing and the config file holds an old version; every
other call succeeds. -/
def freshStateOldConfig : World := fun _ c =>
  match c with
  | .Load .state _ => some .ErrNotExist
  | .Load .config _ => some (.NotCurrentVersionError "v0.2.0")
  | _ => none

/-- A world where the state loads and the config file is missing. -/
def missingConfig : World := fun _ c =>
  match c with
  | .Load .config _ => some .ErrNotExist
  | _ => none

/-- A world where saving the state fails. -/
def stateSaveFails : World := fun _ c =>
  match c with
  | .Save .state _ => some (.fileSystem "disk full")
  | _ => none

end imh.examples

namespace validator.examples

/-- Checks that accept the two address blocks of the default documents and, under `~0`, the
current versions and the version "v0.100.0" of the tests "minor version mismatch". -/
def checks : Checks :=
  { cidr := fun s => decide (s = "10.0.0.0/16" ∨ s = "10.0.1.0/24")
    version := fun p v =>
      decide (p = "~0" ∧ (v = "v0.2.1" ∨ v = "v0.0.2" ∨ v = "v0.100.0")) }

/-- A JSON library that reads the empty object from every text. -/
def codecEmptyObject : json.Codec :=
  { encodeIndent := fun _ _ _ => [], decodeText := fun _ => .ok (.obj []) }

/-- A decoder that finds nothing to write: it leaves the receiver as it is and has no unused
key, which is what decoding a tree without keys comes to. -/
def idleDecoder (α : Type) : maps.Decoder α :=
  fun i _ => ⟨i, [], none⟩

end validator.examples

namespace azks.examples

/-- A node pool whose `min` lies above its `max`, with a size between the two. -/
def crossedPool : DefaultNodePool :=
  { Size := some 3, Min := some 5, Max := some 2, VmSize := some "Standard_DS2_v2",
    DiskGbSize := some 36, AutoScaling := some true, Type' := some "VirtualMachineScaleSets" }

/-- The node pool of the test "default_node_pool size > max". -/
def largePool : DefaultNodePool :=
  { Size := some 4, Min := some 2, Max := some 3, VmSize := some "Standard_DS2_v2",
    DiskGbSize := some 36, AutoScaling := some true, Type' := some "VirtualMachineScaleSets" }

end azks.examples

/-! ## Maps -/

theorem mapGet_mapSet_self (m : Obj) (k : String) (v : JSON) :
    mapGet (mapSet m k v) k = some v := by
  induction m with
  | nil => simp [mapSet, mapGet]
  | cons p rest ih =>
    obtain ⟨k', v'⟩ := p
    by_cases h : k' = k
    · simp [mapSet, mapGet, h]
    · simp [mapSet, mapGet, h, ih]

theorem mapGet_mapSet_ne (m : Obj) (k k' : String) (v : JSON) (hne : k ≠ k') :
    mapGet (mapSet m k v) k' = mapGet m k' := by
  induction m with
  | nil => simp [mapSet, mapGet, hne]
  | cons p rest ih =>
    obtain ⟨k₀, v₀⟩ := p
    by_cases h : k₀ = k
    · subst h
      simp [mapSet, mapGet, hne]
    · by_cases h' : k₀ = k'
      · subst h'
        simp [mapSet, mapGet, h]
      · simp [mapSet, mapGet, h, h', ih]

theorem asMap_eq_some (x : Option JSON) (m : Obj) :
    asMap x = some m ↔ x = some (.obj m) := by
  cases x with
  | none => simp [asMap]
  | some j => cases j <;> simp [asMap]

theorem asString_eq_some (x : Option JSON) (s : String) :
    asString x = some s ↔ x = some (.str s) := by
  cases x with
  | none => simp [asString]
  | some j => cases j <;> simp [asString]

namespace shared

theorem GetVersion_eq_ok (input : Obj) (v : String) :
    GetVersion input = .ok v ↔
      ∃ meta, mapGet input "meta" = some (.obj meta) ∧ mapGet meta "version" = some (.str v) := by
  constructor
  · intro h
    unfold GetVersion at h
    cases hm : asMap (mapGet input "meta") with
    | none => rw [hm] at h; cases h
    | some meta =>
      rw [hm] at h
      simp only at h
      cases hs : asString (mapGet meta "version") with
      | none => rw [hs] at h; cases h
      | some s =>
        rw [hs] at h
        cases h
        exact ⟨meta, (asMap_eq_some _ _).1 hm, (asString_eq_some _ _).1 hs⟩
  · rintro ⟨meta, hm, hv⟩
    unfold GetVersion
    rw [(asMap_eq_some _ _).2 hm]
    simp only
    rw [(asString_eq_some _ _).2 hv]

theorem GetVersion_of_meta (input meta : Obj) (v : String)
    (hm : mapGet input "meta" = some (.obj meta))
    (hv : mapGet meta "version" = some (.str v)) : GetVersion input = .ok v :=
  (GetVersion_eq_ok input v).2 ⟨meta, hm, hv⟩

end shared

/-! ## The upgrade loop -/

theorem runLoop_exit (body : Obj → Option LoopStep) (fuel : Nat) (input t : Obj)
    (e : Option shared.Error) (h : body input = some (.exit t e)) :
    runLoop body (fuel + 1) input = some ⟨t, e, 1⟩ := by
  simp [runLoop, h]

theorem runLoop_next_exit (body : Obj → Option LoopStep) (fuel : Nat) (input t t' : Obj)
    (e : Option shared.Error) (h : body input = some (.next t))
    (h' : body t = some (.exit t' e)) :
    runLoop body (fuel + 2) input = some ⟨t', e, 2⟩ := by
  simp [runLoop, h, h']

namespace azbi

open shared

theorem Config_body_of_error (input : Obj) (e : Error) (h : GetVersion input = .error e) :
    Config.UpgradeFunc.body input = .exit input (some e) := by
  simp [Config.UpgradeFunc.body, h]

theorem Config_body_of_other (input : Obj) (v : String) (h : GetVersion input = .ok v)
    (hv : v ≠ "v0.2.0") :
    Config.UpgradeFunc.body input =
      .exit input (if v ≠ configVersion then some (.text "unknown version to upgrade") else none) := by
  unfold Config.UpgradeFunc.body
  simp only [h, if_neg hv]
  by_cases hc : v = configVersion <;> simp [hc]

theorem Config_body_of_old (input meta : Obj) (hm : mapGet input "meta" = some (.obj meta))
    (hv : mapGet meta "version" = some (.str "v0.2.0")) :
    Config.UpgradeFunc.body input =
      match asMap (mapGet input "params") with
      | none =>
        .exit (mapSet input "meta" (.obj (mapSet meta "version" (.str "v0.2.1"))))
          (some (.text "incorrect casting"))
      | some params =>
        .next (mapSet (mapSet input "meta" (.obj (mapSet meta "version" (.str "v0.2.1"))))
          "params" (.obj (mapSet params "admin_username" (.str "operations")))) := by
  have hg := GetVersion_of_meta input meta _ hm hv
  have hp : mapGet (mapSet input "meta" (.obj (mapSet meta "version" (.str "v0.2.1")))) "params"
      = mapGet input "params" := mapGet_mapSet_ne _ _ _ _ (by decide)
  simp only [Config.UpgradeFunc.body, hg, hm, asMap, hp]
  simp

theorem GetVersion_bumped (input meta : Obj) (v k : String) (x : JSON) (hk : k ≠ "meta") :
    GetVersion (mapSet (mapSet input "meta" (.obj (mapSet meta "version" (.str v)))) k x)
      = .ok v := by
  apply GetVersion_of_meta _ (mapSet meta "version" (.str v))
  · rw [mapGet_mapSet_ne _ _ _ _ hk, mapGet_mapSet_self]
  · exact mapGet_mapSet_self _ _ _

theorem GetVersion_bumped_meta (input meta : Obj) (v : String) :
    GetVersion (mapSet input "meta" (.obj (mapSet meta "version" (.str v)))) = .ok v := by
  apply GetVersion_of_meta _ (mapSet meta "version" (.str v))
  · exact mapGet_mapSet_self _ _ _
  · exact mapGet_mapSet_self _ _ _

theorem Config_run_of_error (fuel : Nat) (input : Obj) (e : Error)
    (h : GetVersion input = .error e) :
    Config.UpgradeFunc (fuel + 1) input = some ⟨input, some e, 1⟩ :=
  runLoop_exit _ _ _ _ _ (by rw [Config_body_of_error input e h])

theorem Config_run_of_other (fuel : Nat) (input : Obj) (v : String)
    (h : GetVersion input = .ok v) (hv : v ≠ "v0.2.0") :
    Config.UpgradeFunc (fuel + 1) input =
      some ⟨input, if v ≠ configVersion then some (.text "unknown version to upgrade") else none,
        1⟩ :=
  runLoop_exit _ _ _ _ _ (by rw [Config_body_of_other input v h hv])

theorem Config_run_of_old_bad (fuel : Nat) (input meta : Obj)
    (hm : mapGet input "meta" = some (.obj meta))
    (hv : mapGet meta "version" = some (.str "v0.2.0"))
    (hp : asMap (mapGet input "params") = none) :
    Config.UpgradeFunc (fuel + 1) input =
      some ⟨mapSet input "meta" (.obj (mapSet meta "version" (.str "v0.2.1"))),
        some (.text "incorrect casting"), 1⟩ :=
  runLoop_exit _ _ _ _ _ (by rw [Config_body_of_old input meta hm hv, hp])

theorem Config_run_of_old_good (fuel : Nat) (input meta params : Obj)
    (hm : mapGet input "meta" = some (.obj meta))
    (hv : mapGet meta "version" = some (.str "v0.2.0"))
    (hp : mapGet input "params" = some (.obj params)) :
    Config.UpgradeFunc (fuel + 2) input =
      some ⟨mapSet (mapSet input "meta" (.obj (mapSet meta "version" (.str "v0.2.1"))))
          "params" (.obj (mapSet params "admin_username" (.str "operations"))), none, 2⟩ := by
  refine runLoop_next_exit _ _ _
    (mapSet (mapSet input "meta" (.obj (mapSet meta "version" (.str "v0.2.1"))))
      "params" (.obj (mapSet params "admin_username" (.str "operations")))) _ _ ?_ ?_
  · rw [Config_body_of_old input meta hm hv, (asMap_eq_some _ _).2 hp]
  · rw [Config_body_of_other _ "v0.2.1" (GetVersion_bumped _ _ _ _ _ (by decide)) (by decide)]
    simp [configVersion]

theorem State_body_of_error (fuel : Nat) (input : Obj) (e : Error)
    (h : GetVersion input = .error e) :
    State.UpgradeFunc.body fuel input = some (.exit input (some e)) := by
  simp [State.UpgradeFunc.body, h]

theorem State_body_of_other (fuel : Nat) (input : Obj) (v : String)
    (h : GetVersion input = .ok v) (hv : v ≠ "v0.0.1") :
    State.UpgradeFunc.body fuel input =
      some (.exit input
        (if v ≠ stateVersion then some (.text "unknown version to upgrade") else none)) := by
  unfold State.UpgradeFunc.body
  simp only [h, if_neg hv]
  by_cases hc : v = stateVersion <;> simp [hc]

theorem State_body_of_old (fuel : Nat) (input meta : Obj)
    (hm : mapGet input "meta" = some (.obj meta))
    (hv : mapGet meta "version" = some (.str "v0.0.1")) :
    State.UpgradeFunc.body fuel input =
      match asMap (mapGet input "config") with
      | none =>
        some (.exit (mapSet input "meta" (.obj (mapSet meta "version" (.str "v0.0.2"))))
          (some (.text "incorrect casting")))
      | some configSubtree =>
        match Config.UpgradeFunc fuel configSubtree with
        | none => none
        | some c =>
          match c.err with
          | some err =>
            some (.exit (mapSet (mapSet input "meta" (.obj (mapSet meta "version" (.str "v0.0.2"))))
              "config" (.obj c.input)) (some err))
          | none =>
            some (.next (mapSet (mapSet input "meta" (.obj (mapSet meta "version" (.str "v0.0.2"))))
              "config" (.obj c.input))) := by
  have hg := GetVersion_of_meta input meta _ hm hv
  have hp : mapGet (mapSet input "meta" (.obj (mapSet meta "version" (.str "v0.0.2")))) "config"
      = mapGet input "config" := mapGet_mapSet_ne _ _ _ _ (by decide)
  simp only [State.UpgradeFunc.body, hg, hm, asMap, hp]
  simp

theorem State_run_of_error (fuel : Nat) (input : Obj) (e : Error)
    (h : GetVersion input = .error e) :
    State.UpgradeFunc (fuel + 1) input = some ⟨input, some e, 1⟩ :=
  runLoop_exit _ _ _ _ _ (State_body_of_error _ input e h)

theorem State_run_of_other (fuel : Nat) (input : Obj) (v : String)
    (h : GetVersion input = .ok v) (hv : v ≠ "v0.0.1") :
    State.UpgradeFunc (fuel + 1) input =
      some ⟨input, if v ≠ stateVersion then some (.text "unknown version to upgrade") else none,
        1⟩ :=
  runLoop_exit _ _ _ _ _ (State_body_of_other _ input v h hv)

theorem State_run_of_old_bad (fuel : Nat) (input meta : Obj)
    (hm : mapGet input "meta" = some (.obj meta))
    (hv : mapGet meta "version" = some (.str "v0.0.1"))
    (hp : asMap (mapGet input "config") = none) :
    State.UpgradeFunc (fuel + 1) input =
      some ⟨mapSet input "meta" (.obj (mapSet meta "version" (.str "v0.0.2"))),
        some (.text "incorrect casting"), 1⟩ :=
  runLoop_exit _ _ _ _ _ (by rw [State_body_of_old _ input meta hm hv, hp])

theorem State_run_of_old_nested_error (fuel : Nat) (input meta cfg : Obj) (c : Outcome)
    (e : Error)
    (hm : mapGet input "meta" = some (.obj meta))
    (hv : mapGet meta "version" = some (.str "v0.0.1"))
    (hp : mapGet input "config" = some (.obj cfg))
    (hc : Config.UpgradeFunc (fuel + 1) cfg = some c) (he : c.err = some e) :
    State.UpgradeFunc (fuel + 1) input =
      some ⟨mapSet (mapSet input "meta" (.obj (mapSet meta "version" (.str "v0.0.2"))))
          "config" (.obj c.input), some e, 1⟩ :=
  runLoop_exit _ _ _ _ _ (by
    rw [State_body_of_old _ input meta hm hv, (asMap_eq_some _ _).2 hp]
    simp only [hc, he])

theorem State_run_of_old_good (fuel : Nat) (input meta cfg : Obj) (c : Outcome)
    (hm : mapGet input "meta" = some (.obj meta))
    (hv : mapGet meta "version" = some (.str "v0.0.1"))
    (hp : mapGet input "config" = some (.obj cfg))
    (hc : Config.UpgradeFunc (fuel + 2) cfg = some c) (he : c.err = none) :
    State.UpgradeFunc (fuel + 2) input =
      some ⟨mapSet (mapSet input "meta" (.obj (mapSet meta "version" (.str "v0.0.2"))))
          "config" (.obj c.input), none, 2⟩ := by
  refine runLoop_next_exit _ _ _
    (mapSet (mapSet input "meta" (.obj (mapSet meta "version" (.str "v0.0.2"))))
      "config" (.obj c.input)) _ _ ?_ ?_
  · rw [State_body_of_old _ input meta hm hv, (asMap_eq_some _ _).2 hp]
    simp only [hc, he]
  · rw [State_body_of_other _ _ "v0.0.2" (GetVersion_bumped _ _ _ _ _ (by decide)) (by decide)]
    simp [stateVersion]

/-- With two units of fuel `Config.UpgradeFunc` returns, after at most two passes, and a nil
error is returned only with the version marker at `configVersion`. -/
theorem Config_run_total (fuel : Nat) (input : Obj) :
    ∃ o, Config.UpgradeFunc (fuel + 2) input = some o ∧ o.iterations ≤ 2 ∧
      (GetVersion input ≠ .ok "v0.2.0" → o.iterations = 1 ∧ o.input = input) ∧
      (o.err = none → GetVersion o.input = .ok configVersion) := by
  cases h : GetVersion input with
  | error e =>
    exact ⟨_, Config_run_of_error (fuel + 1) input e h, by simp, by simp, by simp⟩
  | ok v =>
    by_cases hv : v = "v0.2.0"
    · subst hv
      obtain ⟨meta, hm, hmv⟩ := (GetVersion_eq_ok _ _).1 h
      cases hp : asMap (mapGet input "params") with
      | none =>
        exact ⟨_, Config_run_of_old_bad (fuel + 1) input meta hm hmv hp, by simp, by simp, by simp⟩
      | some params =>
        refine ⟨_, Config_run_of_old_good fuel input meta params hm hmv
          ((asMap_eq_some _ _).1 hp), by simp, by simp, ?_⟩
        intro _
        exact GetVersion_bumped _ _ _ _ _ (by decide)
    · refine ⟨_, Config_run_of_other (fuel + 1) input v h hv, by simp, by simp, ?_⟩
      by_cases hc : v = configVersion
      · intro _
        rw [h, hc]
      · simp [hc]

/-- Fuel beyond two passes does not change what `Config.UpgradeFunc` returns. -/
theorem Config_run_fuel (fuel : Nat) (input : Obj) :
    Config.UpgradeFunc (fuel + 2) input = Config.UpgradeFunc 2 input := by
  cases h : GetVersion input with
  | error e =>
    exact (Config_run_of_error (fuel + 1) input e h).trans (Config_run_of_error 1 input e h).symm
  | ok v =>
    by_cases hv : v = "v0.2.0"
    · subst hv
      obtain ⟨meta, hm, hmv⟩ := (GetVersion_eq_ok _ _).1 h
      cases hp : asMap (mapGet input "params") with
      | none =>
        exact (Config_run_of_old_bad (fuel + 1) input meta hm hmv hp).trans
          (Config_run_of_old_bad 1 input meta hm hmv hp).symm
      | some params =>
        have hp' := (asMap_eq_some _ _).1 hp
        exact (Config_run_of_old_good fuel input meta params hm hmv hp').trans
          (Config_run_of_old_good 0 input meta params hm hmv hp').symm
    · exact (Config_run_of_other (fuel + 1) input v h hv).trans
        (Config_run_of_other 1 input v h hv).symm

/-- With two units of fuel `State.UpgradeFunc` returns, after at most two passes, and a nil
error is returned only with the version marker at `stateVersion`. -/
theorem State_run_total (fuel : Nat) (input : Obj) :
    ∃ o, State.UpgradeFunc (fuel + 2) input = some o ∧ o.iterations ≤ 2 ∧
      (GetVersion input ≠ .ok "v0.0.1" → o.iterations = 1 ∧ o.input = input) ∧
      (o.err = none → GetVersion o.input = .ok stateVersion) := by
  cases h : GetVersion input with
  | error e =>
    exact ⟨_, State_run_of_error (fuel + 1) input e h, by simp, by simp, by simp⟩
  | ok v =>
    by_cases hv : v = "v0.0.1"
    · subst hv
      obtain ⟨meta, hm, hmv⟩ := (GetVersion_eq_ok _ _).1 h
      cases hp : asMap (mapGet input "config") with
      | none =>
        exact ⟨_, State_run_of_old_bad (fuel + 1) input meta hm hmv hp, by simp, by simp, by simp⟩
      | some cfg =>
        have hp' := (asMap_eq_some _ _).1 hp
        obtain ⟨c, hrun, -, -, -⟩ := Config_run_total fuel cfg
        cases he : c.err with
        | none =>
          refine ⟨_, State_run_of_old_good fuel input meta cfg c hm hmv hp' hrun he,
            by simp, by simp, ?_⟩
          intro _
          exact GetVersion_bumped _ _ _ _ _ (by decide)
        | some e =>
          exact ⟨_, State_run_of_old_nested_error (fuel + 1) input meta cfg c e hm hmv hp' hrun he,
            by simp, by simp, by simp⟩
    · refine ⟨_, State_run_of_other (fuel + 1) input v h hv, by simp, by simp, ?_⟩
      by_cases hc : v = stateVersion
      · intro _
        rw [h, hc]
      · simp [hc]

/-- Fuel beyond two passes does not change what `State.UpgradeFunc` returns. -/
theorem State_run_fuel (fuel : Nat) (input : Obj) :
    State.UpgradeFunc (fuel + 2) input = State.UpgradeFunc 2 input := by
  cases h : GetVersion input with
  | error e =>
    exact (State_run_of_error (fuel + 1) input e h).trans (State_run_of_error 1 input e h).symm
  | ok v =>
    by_cases hv : v = "v0.0.1"
    · subst hv
      obtain ⟨meta, hm, hmv⟩ := (GetVersion_eq_ok _ _).1 h
      cases hp : asMap (mapGet input "config") with
      | none =>
        exact (State_run_of_old_bad (fuel + 1) input meta hm hmv hp).trans
          (State_run_of_old_bad 1 input meta hm hmv hp).symm
      | some cfg =>
        have hp' := (asMap_eq_some _ _).1 hp
        obtain ⟨c, hrun, -, -, -⟩ := Config_run_total fuel cfg
        have hrun2 : Config.UpgradeFunc 2 cfg = some c := by rw [← Config_run_fuel fuel cfg, hrun]
        cases he : c.err with
        | none =>
          exact (State_run_of_old_good fuel input meta cfg c hm hmv hp' hrun he).trans
            (State_run_of_old_good 0 input meta cfg c hm hmv hp' hrun2 he).symm
        | some e =>
          exact (State_run_of_old_nested_error (fuel + 1) input meta cfg c e hm hmv hp' hrun
            he).trans
            (State_run_of_old_nested_error 1 input meta cfg c e hm hmv hp' hrun2 he).symm
    · exact (State_run_of_other (fuel + 1) input v h hv).trans
        (State_run_of_other 1 input v h hv).symm

end azbi

/-! ## Claims -/

namespace azbi

open shared

/-- C1, counterexample: a config tree at "v0.2.0" without `params` carries the known old
version, and `Config.UpgradeFunc` returns the error "incorrect casting" on it. -/
theorem C1_old_version_can_fail :
    GetVersion examples.oldConfigNoParams = .ok "v0.2.0" ∧
    mapGet examples.oldConfigNoParams "params" = none ∧
    Config.UpgradeFunc 2 examples.oldConfigNoParams =
      some ⟨[("meta", .obj [("kind", .str "azbiConfig"), ("version", .str "v0.2.1")])],
        some (.text "incorrect casting"), 1⟩ :=
  ⟨rfl, rfl, rfl⟩

/-- C1, amended: on a config tree whose `meta.version` is "v0.2.0", and on a state tree whose
`meta.version` is "v0.0.1" and whose `config` is an object, `UpgradeFunc` returns and leaves
`meta.version` at the current version of the schema; the returned error is nil exactly when
`params` is an object (Config), respectively when `Config.UpgradeFunc` returns nil on the
`config` object (State). -/
theorem C1_old_version_reaches_current (fuel : Nat) (hfuel : 2 ≤ fuel)
    (config state cfg : Obj)
    (hc : GetVersion config = .ok "v0.2.0") (hs : GetVersion state = .ok "v0.0.1")
    (hcfg : mapGet state "config" = some (.obj cfg)) :
    (∃ o, Config.UpgradeFunc fuel config = some o ∧ GetVersion o.input = .ok "v0.2.1" ∧
        (o.err = none ↔ ∃ params, mapGet config "params" = some (.obj params))) ∧
    (∃ o, State.UpgradeFunc fuel state = some o ∧ GetVersion o.input = .ok "v0.0.2" ∧
        (o.err = none ↔ ∃ c, Config.UpgradeFunc fuel cfg = some c ∧ c.err = none)) := by
  obtain ⟨n, rfl⟩ : ∃ n, fuel = n + 2 := ⟨fuel - 2, by omega⟩
  constructor
  · obtain ⟨meta, hm, hmv⟩ := (GetVersion_eq_ok _ _).1 hc
    cases hp : asMap (mapGet config "params") with
    | none =>
      refine ⟨_, Config_run_of_old_bad (n + 1) config meta hm hmv hp,
        GetVersion_bumped_meta _ _ _, ?_⟩
      constructor
      · intro h; cases h
      · rintro ⟨params, h⟩
        rw [(asMap_eq_some _ _).2 h] at hp
        cases hp
    | some params =>
      have hp' := (asMap_eq_some _ _).1 hp
      exact ⟨_, Config_run_of_old_good n config meta params hm hmv hp',
        GetVersion_bumped _ _ _ _ _ (by decide), fun _ => ⟨params, hp'⟩, fun _ => rfl⟩
  · obtain ⟨meta, hm, hmv⟩ := (GetVersion_eq_ok _ _).1 hs
    obtain ⟨c, hrun, -, -, -⟩ := Config_run_total n cfg
    cases he : c.err with
    | none =>
      exact ⟨_, State_run_of_old_good n state meta cfg c hm hmv hcfg hrun he,
        GetVersion_bumped _ _ _ _ _ (by decide), fun _ => ⟨c, hrun, he⟩, fun _ => rfl⟩
    | some e =>
      refine ⟨_, State_run_of_old_nested_error (n + 1) state meta cfg c e hm hmv hcfg hrun he,
        GetVersion_bumped _ _ _ _ _ (by decide), ?_⟩
      constructor
      · intro h; cases h
      · rintro ⟨c', hrun', he'⟩
        rw [hrun] at hrun'
        cases hrun'
        rw [he] at he'
        cases he'

/-- C1, witness of the amended statement at `oldConfig` and `oldState`. -/
theorem C1_old_version_reaches_current_witness :
    GetVersion examples.oldConfig = .ok "v0.2.0" ∧
    GetVersion examples.oldState = .ok "v0.0.1" ∧
    mapGet examples.oldState "config" = some (.obj examples.oldConfig) ∧
    (∃ o, Config.UpgradeFunc 2 examples.oldConfig = some o ∧
        GetVersion o.input = .ok "v0.2.1" ∧
        (o.err = none ↔ ∃ params, mapGet examples.oldConfig "params" = some (.obj params))) ∧
    (∃ o, State.UpgradeFunc 2 examples.oldState = some o ∧ GetVersion o.input = .ok "v0.0.2" ∧
        (o.err = none ↔ ∃ c, Config.UpgradeFunc 2 examples.oldConfig = some c ∧
          c.err = none)) :=
  ⟨rfl, rfl, rfl,
    C1_old_version_reaches_current 2 (le_refl 2) examples.oldConfig examples.oldState
      examples.oldConfig rfl rfl rfl⟩

/-- C2: on a tree whose `meta.version` is "v0.2.0" and whose `params` is an object,
`Config.UpgradeFunc` returns nil after two passes, and the tree then is the input tree with
`meta.version` set to "v0.2.1" and `params.admin_username` set to "operations": every other
key of the tree, of `meta` and of `params` reads as before. -/
theorem C2_config_upgrade_exact (fuel : Nat) (hfuel : 2 ≤ fuel) (input meta params : Obj)
    (hm : mapGet input "meta" = some (.obj meta))
    (hv : mapGet meta "version" = some (.str "v0.2.0"))
    (hp : mapGet input "params" = some (.obj params)) :
    ∃ out meta' params',
      Config.UpgradeFunc fuel input = some ⟨out, none, 2⟩ ∧
      out = mapSet (mapSet input "meta" (.obj meta')) "params" (.obj params') ∧
      meta' = mapSet meta "version" (.str "v0.2.1") ∧
      params' = mapSet params "admin_username" (.str "operations") ∧
      mapGet out "meta" = some (.obj meta') ∧
      mapGet meta' "version" = some (.str "v0.2.1") ∧
      (∀ k, k ≠ "version" → mapGet meta' k = mapGet meta k) ∧
      mapGet out "params" = some (.obj params') ∧
      mapGet params' "admin_username" = some (.str "operations") ∧
      (∀ k, k ≠ "admin_username" → mapGet params' k = mapGet params k) ∧
      (∀ k, k ≠ "meta" → k ≠ "params" → mapGet out k = mapGet input k) := by
  obtain ⟨n, rfl⟩ : ∃ n, fuel = n + 2 := ⟨fuel - 2, by omega⟩
  refine ⟨_, _, _, Config_run_of_old_good n input meta params hm hv hp, rfl, rfl, rfl,
    ?_, mapGet_mapSet_self _ _ _, ?_, mapGet_mapSet_self _ _ _, mapGet_mapSet_self _ _ _, ?_, ?_⟩
  · rw [mapGet_mapSet_ne _ _ _ _ (by decide), mapGet_mapSet_self]
  · intro k hk
    exact mapGet_mapSet_ne _ _ _ _ (Ne.symm hk)
  · intro k hk
    exact mapGet_mapSet_ne _ _ _ _ (Ne.symm hk)
  · intro k hk hk'
    rw [mapGet_mapSet_ne _ _ _ _ (Ne.symm hk'), mapGet_mapSet_ne _ _ _ _ (Ne.symm hk)]

/-- C2, witness at `oldConfig`. -/
theorem C2_config_upgrade_exact_witness :
    Config.UpgradeFunc 2 examples.oldConfig =
      some ⟨[("meta", .obj [("kind", .str "azbiConfig"), ("version", .str "v0.2.1"),
            ("module_version", .str "v0.0.1")]),
          ("params", .obj [("location", .str "northeurope"), ("name", .str "epiphany"),
            ("admin_username", .str "operations")])], none, 2⟩ := by
  obtain ⟨out, meta', params', hrun, hout, hmeta, hparams, -⟩ :=
    C2_config_upgrade_exact 2 (le_refl 2) examples.oldConfig
      [("kind", .str "azbiConfig"), ("version", .str "v0.2.0"), ("module_version", .str "v0.0.1")]
      [("location", .str "northeurope"), ("name", .str "epiphany")] rfl rfl rfl
  rw [hrun, hout, hmeta, hparams]
  rfl

/-- C3: on a state tree whose `meta.version` is "v0.0.1" and whose `config` is an object at
config version "v0.2.0" with an object `params`, one call of `State.UpgradeFunc` returns nil;
afterwards the state is at "v0.0.2", the embedded config at "v0.2.1", and
`params.admin_username` of the embedded config is "operations". -/
theorem C3_state_upgrade_walks_both (fuel : Nat) (hfuel : 2 ≤ fuel)
    (input meta cfg cmeta params : Obj)
    (hm : mapGet input "meta" = some (.obj meta))
    (hv : mapGet meta "version" = some (.str "v0.0.1"))
    (hc : mapGet input "config" = some (.obj cfg))
    (hcm : mapGet cfg "meta" = some (.obj cmeta))
    (hcv : mapGet cmeta "version" = some (.str "v0.2.0"))
    (hcp : mapGet cfg "params" = some (.obj params)) :
    ∃ out cfg' params',
      State.UpgradeFunc fuel input = some ⟨out, none, 2⟩ ∧
      GetVersion out = .ok "v0.0.2" ∧
      mapGet out "config" = some (.obj cfg') ∧
      GetVersion cfg' = .ok "v0.2.1" ∧
      mapGet cfg' "params" = some (.obj params') ∧
      mapGet params' "admin_username" = some (.str "operations") := by
  obtain ⟨n, rfl⟩ : ∃ n, fuel = n + 2 := ⟨fuel - 2, by omega⟩
  have hrun := Config_run_of_old_good n cfg cmeta params hcm hcv hcp
  refine ⟨_, _, _, State_run_of_old_good n input meta cfg _ hm hv hc hrun rfl,
    GetVersion_bumped _ _ _ _ _ (by decide), mapGet_mapSet_self _ _ _,
    GetVersion_bumped _ _ _ _ _ (by decide), mapGet_mapSet_self _ _ _,
    mapGet_mapSet_self _ _ _⟩

/-- C3, witness at `oldState`. -/
theorem C3_state_upgrade_walks_both_witness :
    ∃ out cfg' params',
      State.UpgradeFunc 2 examples.oldState = some ⟨out, none, 2⟩ ∧
      GetVersion out = .ok "v0.0.2" ∧
      mapGet out "config" = some (.obj cfg') ∧
      GetVersion cfg' = .ok "v0.2.1" ∧
      mapGet cfg' "params" = some (.obj params') ∧
      mapGet params' "admin_username" = some (.str "operations") :=
  C3_state_upgrade_walks_both 2 (le_refl 2) examples.oldState
    [("kind", .str "azbiState"), ("version", .str "v0.0.1"), ("module_version", .str "v1.1.1")]
    examples.oldConfig
    [("kind", .str "azbiConfig"), ("version", .str "v0.2.0"), ("module_version", .str "v0.0.1")]
    [("location", .str "northeurope"), ("name", .str "epiphany")] rfl rfl rfl rfl rfl rfl

/-- C4: on a tree with a string `meta.version` that is neither the current version of the
schema nor the version of its upgrade table, `Config.UpgradeFunc` and `State.UpgradeFunc`
return the error "unknown version to upgrade" in the first pass and the tree is the input
tree. -/
theorem C4_unknown_version_rejected (fuel : Nat) (hfuel : 1 ≤ fuel) (input : Obj) (v : String)
    (hv : GetVersion input = .ok v) :
    (v ≠ "v0.2.1" → v ≠ "v0.2.0" →
      Config.UpgradeFunc fuel input =
        some ⟨input, some (.text "unknown version to upgrade"), 1⟩) ∧
    (v ≠ "v0.0.2" → v ≠ "v0.0.1" →
      State.UpgradeFunc fuel input =
        some ⟨input, some (.text "unknown version to upgrade"), 1⟩) := by
  obtain ⟨n, rfl⟩ : ∃ n, fuel = n + 1 := ⟨fuel - 1, by omega⟩
  constructor
  · intro hcur hold
    rw [Config_run_of_other n input v hv hold]
    simp [configVersion, hcur]
  · intro hcur hold
    rw [State_run_of_other n input v hv hold]
    simp [stateVersion, hcur]

/-- C4, witness at `strangeDoc`, whose version is "v9.9.9". -/
theorem C4_unknown_version_rejected_witness :
    Config.UpgradeFunc 2 examples.strangeDoc =
        some ⟨examples.strangeDoc, some (.text "unknown version to upgrade"), 1⟩ ∧
    State.UpgradeFunc 2 examples.strangeDoc =
        some ⟨examples.strangeDoc, some (.text "unknown version to upgrade"), 1⟩ :=
  ⟨(C4_unknown_version_rejected 2 (by decide) examples.strangeDoc "v9.9.9" rfl).1
      (by decide) (by decide),
   (C4_unknown_version_rejected 2 (by decide) examples.strangeDoc "v9.9.9" rfl).2
      (by decide) (by decide)⟩

/-- C5: `Config.UpgradeFunc` and `State.UpgradeFunc` return on every tree: two units of fuel are
enough and more fuel gives the same result; the loop body runs at most twice, and once only
when the version marker is not the old version; a pass that goes round again starts at the old
version and leaves the marker at the next version. -/
theorem C5_upgrade_terminates (fuel : Nat) (hfuel : 2 ≤ fuel) (input : Obj) :
    (∃ o, Config.UpgradeFunc fuel input = some o ∧ Config.UpgradeFunc 2 input = some o ∧
      o.iterations ≤ 2 ∧ (GetVersion input ≠ .ok "v0.2.0" → o.iterations = 1)) ∧
    (∃ o, State.UpgradeFunc fuel input = some o ∧ State.UpgradeFunc 2 input = some o ∧
      o.iterations ≤ 2 ∧ (GetVersion input ≠ .ok "v0.0.1" → o.iterations = 1)) ∧
    (∀ t, Config.UpgradeFunc.body input = .next t →
      GetVersion input = .ok "v0.2.0" ∧ GetVersion t = .ok "v0.2.1") ∧
    (∀ t, State.UpgradeFunc.body fuel input = some (.next t) →
      GetVersion input = .ok "v0.0.1" ∧ GetVersion t = .ok "v0.0.2") := by
  obtain ⟨n, rfl⟩ : ∃ n, fuel = n + 2 := ⟨fuel - 2, by omega⟩
  refine ⟨?_, ?_, ?_, ?_⟩
  · obtain ⟨o, hrun, hle, hone, -⟩ := Config_run_total n input
    exact ⟨o, hrun, by rw [← Config_run_fuel n input, hrun], hle, fun h => (hone h).1⟩
  · obtain ⟨o, hrun, hle, hone, -⟩ := State_run_total n input
    exact ⟨o, hrun, by rw [← State_run_fuel n input, hrun], hle, fun h => (hone h).1⟩
  · intro t ht
    cases h : GetVersion input with
    | error e => rw [Config_body_of_error input e h] at ht; cases ht
    | ok v =>
      by_cases hv : v = "v0.2.0"
      · subst hv
        obtain ⟨meta, hm, hmv⟩ := (GetVersion_eq_ok _ _).1 h
        rw [Config_body_of_old input meta hm hmv] at ht
        cases hp : asMap (mapGet input "params") with
        | none => rw [hp] at ht; cases ht
        | some params =>
          rw [hp] at ht
          cases ht
          exact ⟨rfl, GetVersion_bumped _ _ _ _ _ (by decide)⟩
      · rw [Config_body_of_other input v h hv] at ht
        cases ht
  · intro t ht
    cases h : GetVersion input with
    | error e => rw [State_body_of_error _ input e h] at ht; cases ht
    | ok v =>
      by_cases hv : v = "v0.0.1"
      · subst hv
        obtain ⟨meta, hm, hmv⟩ := (GetVersion_eq_ok _ _).1 h
        rw [State_body_of_old _ input meta hm hmv] at ht
        cases hp : asMap (mapGet input "config") with
        | none => rw [hp] at ht; cases ht
        | some cfg =>
          rw [hp] at ht
          simp only at ht
          cases hc : Config.UpgradeFunc (n + 2) cfg with
          | none => rw [hc] at ht; cases ht
          | some c =>
            rw [hc] at ht
            simp only at ht
            cases he : c.err with
            | some e => rw [he] at ht; cases ht
            | none =>
              rw [he] at ht
              cases ht
              exact ⟨rfl, GetVersion_bumped _ _ _ _ _ (by decide)⟩
      · rw [State_body_of_other _ input v h hv] at ht
        cases ht

/-- C5, witness at `oldState`: both loops return within two passes. -/
theorem C5_upgrade_terminates_witness :
    (∃ o, Config.UpgradeFunc 7 examples.oldState = some o ∧ o.iterations ≤ 2) ∧
    (∃ o, State.UpgradeFunc 7 examples.oldState = some o ∧ o.iterations ≤ 2) := by
  obtain ⟨⟨o, h, -, hle, -⟩, ⟨o', h', -, hle', -⟩, -⟩ :=
    C5_upgrade_terminates 7 (by decide) examples.oldState
  exact ⟨⟨o, h, hle⟩, ⟨o', h', hle'⟩⟩

/-- C6: on a tree whose `meta.version` is the current version of the schema, `UpgradeFunc`
returns nil in the first pass and the tree is the input tree; hence a second run on the tree
left by a run that returned nil returns nil and changes nothing. -/
theorem C6_upgrade_idempotent (fuel : Nat) (hfuel : 2 ≤ fuel) (input : Obj) :
    (GetVersion input = .ok "v0.2.1" → Config.UpgradeFunc fuel input = some ⟨input, none, 1⟩) ∧
    (GetVersion input = .ok "v0.0.2" → State.UpgradeFunc fuel input = some ⟨input, none, 1⟩) ∧
    (∀ o, Config.UpgradeFunc fuel input = some o → o.err = none →
      Config.UpgradeFunc fuel o.input = some ⟨o.input, none, 1⟩) ∧
    (∀ o, State.UpgradeFunc fuel input = some o → o.err = none →
      State.UpgradeFunc fuel o.input = some ⟨o.input, none, 1⟩) := by
  obtain ⟨n, rfl⟩ : ∃ n, fuel = n + 2 := ⟨fuel - 2, by omega⟩
  have hcfg : ∀ t, GetVersion t = .ok "v0.2.1" →
      Config.UpgradeFunc (n + 2) t = some ⟨t, none, 1⟩ := by
    intro t ht
    rw [Config_run_of_other (n + 1) t "v0.2.1" ht (by decide)]
    simp [configVersion]
  have hst : ∀ t, GetVersion t = .ok "v0.0.2" →
      State.UpgradeFunc (n + 2) t = some ⟨t, none, 1⟩ := by
    intro t ht
    rw [State_run_of_other (n + 1) t "v0.0.2" ht (by decide)]
    simp [stateVersion]
  refine ⟨hcfg input, hst input, ?_, ?_⟩
  · intro o ho he
    obtain ⟨o', ho', -, -, hcur⟩ := Config_run_total n input
    rw [ho] at ho'
    cases ho'
    exact hcfg _ (hcur he)
  · intro o ho he
    obtain ⟨o', ho', -, -, hcur⟩ := State_run_total n input
    rw [ho] at ho'
    cases ho'
    exact hst _ (hcur he)

/-- C6, witness: upgrading `oldConfig` gives `newConfig`, upgrading `oldState` gives
`newState`, and a second run leaves each of them as it is. -/
theorem C6_upgrade_idempotent_witness :
    Config.UpgradeFunc 2 examples.oldConfig = some ⟨examples.newConfig, none, 2⟩ ∧
    Config.UpgradeFunc 2 examples.newConfig = some ⟨examples.newConfig, none, 1⟩ ∧
    State.UpgradeFunc 2 examples.oldState = some ⟨examples.newState, none, 2⟩ ∧
    State.UpgradeFunc 2 examples.newState = some ⟨examples.newState, none, 1⟩ :=
  ⟨rfl,
   (C6_upgrade_idempotent 2 (le_refl 2) examples.oldConfig).2.2.1
     ⟨examples.newConfig, none, 2⟩ rfl rfl,
   rfl,
   (C6_upgrade_idempotent 2 (le_refl 2) examples.oldState).2.2.2
     ⟨examples.newState, none, 2⟩ rfl rfl⟩

end azbi

namespace shared

/-- C8: `GetVersion` returns the string stored at `meta.version` exactly when `meta` is an
object holding a string under `version`; without an object under `meta` (no key, or another
kind of value) and without a string under `version` (no key, or another kind of value) it
returns an error; `checkVersion` returns nil exactly when `GetVersion` returns the expected
version. -/
theorem C8_GetVersion_checkVersion (input : Obj) (version : String) :
    (∀ v, GetVersion input = .ok v ↔
      ∃ meta, mapGet input "meta" = some (.obj meta) ∧
        mapGet meta "version" = some (.str v)) ∧
    ((∀ meta, mapGet input "meta" ≠ some (.obj meta)) →
      GetVersion input = .error (.text
        "structure doesn't look like one we can understand - does not have meta object")) ∧
    (∀ meta, mapGet input "meta" = some (.obj meta) →
      (∀ v, mapGet meta "version" ≠ some (.str v)) →
      GetVersion input = .error (.text
        "structure doesn't look like one we can understand - meta object does not have version field")) ∧
    ((∃ e, GetVersion input = .error e) ↔
      ¬ ∃ meta v, mapGet input "meta" = some (.obj meta) ∧
        mapGet meta "version" = some (.str v)) ∧
    (checkVersion input version = none ↔ GetVersion input = .ok version) ∧
    (∀ v, GetVersion input = .ok v → v ≠ version →
      checkVersion input version = some (.NotCurrentVersionError v)) := by
  have hnometa : (∀ meta, mapGet input "meta" ≠ some (.obj meta)) →
      GetVersion input = .error (.text
        "structure doesn't look like one we can understand - does not have meta object") := by
    intro h
    have : asMap (mapGet input "meta") = none := by
      cases hm : asMap (mapGet input "meta") with
      | none => rfl
      | some meta => exact absurd ((asMap_eq_some _ _).1 hm) (h meta)
    simp [GetVersion, this]
  have hnoversion : ∀ meta, mapGet input "meta" = some (.obj meta) →
      (∀ v, mapGet meta "version" ≠ some (.str v)) →
      GetVersion input = .error (.text
        "structure doesn't look like one we can understand - meta object does not have version field") := by
    intro meta hm h
    have : asString (mapGet meta "version") = none := by
      cases hs : asString (mapGet meta "version") with
      | none => rfl
      | some v => exact absurd ((asString_eq_some _ _).1 hs) (h v)
    simp [GetVersion, (asMap_eq_some _ _).2 hm, this]
  refine ⟨GetVersion_eq_ok input, hnometa, hnoversion, ?_, ?_, ?_⟩
  · constructor
    · rintro ⟨e, he⟩ ⟨meta, v, hm, hv⟩
      rw [GetVersion_of_meta input meta v hm hv] at he
      cases he
    · intro h
      cases hg : GetVersion input with
      | error e => exact ⟨e, rfl⟩
      | ok v =>
        obtain ⟨meta, hm, hv⟩ := (GetVersion_eq_ok _ _).1 hg
        exact absurd ⟨meta, v, hm, hv⟩ h
  · unfold checkVersion
    cases hg : GetVersion input with
    | error e => simp
    | ok v =>
      by_cases hv : version = v
      · simp [hv]
      · simp only [ne_eq, hv, not_false_eq_true, if_true]
        constructor
        · intro h; cases h
        · intro h
          cases h
          exact absurd rfl hv
  · intro v hg hv
    simp [checkVersion, hg, Ne.symm hv]

/-- C8, witness at `oldConfig`: the version is read from `meta.version`, and `checkVersion`
against "v0.2.1" reports the version found. -/
theorem C8_GetVersion_checkVersion_witness :
    GetVersion azbi.examples.oldConfig = .ok "v0.2.0" ∧
    checkVersion azbi.examples.oldConfig "v0.2.1" = some (.NotCurrentVersionError "v0.2.0") :=
  ⟨((C8_GetVersion_checkVersion azbi.examples.oldConfig "v0.2.1").1 "v0.2.0").2
      ⟨[("kind", .str "azbiConfig"), ("version", .str "v0.2.0"),
        ("module_version", .str "v0.0.1")], rfl, rfl⟩,
   (C8_GetVersion_checkVersion azbi.examples.oldConfig "v0.2.1").2.2.2.2.2 "v0.2.0" rfl
      (by decide)⟩

end shared

/-! ## Load, Backup, Save -/

namespace shared

theorem Load_of_file {α : Type} (codec : json.Codec) (decoder : maps.Decoder α)
    (setUnused : Option (α → List String → α)) (fs : os.FS) (i : α) (path version : String)
    (content : Bytes) (input : Obj) (hfile : fs path = .file content)
    (hparse : codec.decodeText content = .ok (.obj input)) :
    Load codec decoder setUnused fs i path version =
      match checkVersion input version with
      | some err => ⟨i, none, some err⟩
      | none =>
        match (decoder i input).err with
        | some msg => ⟨(decoder i input).target, none, some (.decode msg)⟩
        | none =>
          match setUnused with
          | some f => ⟨f (decoder i input).target (decoder i input).unused,
              some (f (decoder i input).target (decoder i input).unused), none⟩
          | none => ⟨(decoder i input).target, some (decoder i input).target, none⟩ := by
  simp [Load, os.Stat, os.IsNotExist, ioutil.ReadFile, json.Unmarshal, hfile, hparse]

theorem checkVersion_of_ok (input : Obj) (v version : String) (hv : GetVersion input = .ok v) :
    checkVersion input version =
      if version ≠ v then some (.NotCurrentVersionError v) else none := by
  simp [checkVersion, hv]

theorem Backup_of_file {α : Type} (marshal : α → String → String → Except Error Bytes)
    (fs : os.FS) (i : α) (new : String) (content : Bytes) (h : fs new = .file content) :
    Backup marshal fs i new = (fs, some .ErrExist) := by
  simp [Backup, os.Stat, h]

theorem Backup_of_missing {α : Type} (marshal : α → String → String → Except Error Bytes)
    (fs : os.FS) (i : α) (new : String) (bytes : Bytes) (h : fs new = .missing)
    (hm : marshal i "" "\t" = .ok bytes) :
    Backup marshal fs i new = (fun p => if p = new then .file bytes else fs p, none) := by
  simp [Backup, os.Stat, os.IsNotExist, ioutil.WriteFile, h, hm]

end shared

namespace azbi

open shared

theorem Config_Validate_ne_notCurrent (structErrors : validator.StructErrors Config)
    (c : Option Config) (v : String) :
    Config.Validate structErrors c ≠ some (.NotCurrentVersionError v) := by
  unfold Config.Validate
  cases c with
  | none => simp
  | some c =>
    simp only
    cases h : structErrors c <;> simp

theorem State_Validate_ne_notCurrent (structErrors : validator.StructErrors State)
    (s : Option State) (v : String) :
    State.Validate structErrors s ≠ some (.NotCurrentVersionError v) := by
  unfold State.Validate
  cases s with
  | none => simp
  | some s =>
    simp only
    cases h : structErrors s <;> simp

theorem Config_Load_stale (codec : json.Codec) (decoder : maps.Decoder Config)
    (structErrors : validator.StructErrors Config) (fs : os.FS) (c : Config) (path : String)
    (content : Bytes) (input : Obj) (v : String) (hfile : fs path = .file content)
    (hparse : codec.decodeText content = .ok (.obj input)) (hv : GetVersion input = .ok v)
    (hne : v ≠ configVersion) :
    Config.Load codec decoder structErrors fs c path = (c, some (.NotCurrentVersionError v)) := by
  simp [Config.Load, Load_of_file codec decoder _ fs c path _ content input hfile hparse,
    checkVersion_of_ok input v _ hv, Ne.symm hne]

theorem Config_Load_current (codec : json.Codec) (decoder : maps.Decoder Config)
    (structErrors : validator.StructErrors Config) (fs : os.FS) (c : Config) (path : String)
    (content : Bytes) (input : Obj) (v : String) (hfile : fs path = .file content)
    (hparse : codec.decodeText content = .ok (.obj input)) (hv : GetVersion input = .ok v)
    (heq : v = configVersion) :
    (Config.Load codec decoder structErrors fs c path).2 ≠ some (.NotCurrentVersionError v) := by
  simp only [Config.Load, Load_of_file codec decoder _ fs c path _ content input hfile hparse,
    checkVersion_of_ok input v _ hv, heq, ne_eq, not_true_eq_false, if_false]
  cases hd : (decoder c input).err with
  | some msg => simp
  | none =>
    simp only
    cases hval : Config.Validate structErrors
        (some (Config.SetUnused (decoder c input).target (decoder c input).unused)) with
    | none => simp
    | some err =>
      simp only
      intro h
      cases h
      exact Config_Validate_ne_notCurrent _ _ _ hval

theorem State_Load_stale (codec : json.Codec) (decoder : maps.Decoder State)
    (structErrors : validator.StructErrors State) (fs : os.FS) (s : State) (path : String)
    (content : Bytes) (input : Obj) (v : String) (hfile : fs path = .file content)
    (hparse : codec.decodeText content = .ok (.obj input)) (hv : GetVersion input = .ok v)
    (hne : v ≠ stateVersion) :
    State.Load codec decoder structErrors fs s path = (s, some (.NotCurrentVersionError v)) := by
  simp [State.Load, Load_of_file codec decoder _ fs s path _ content input hfile hparse,
    checkVersion_of_ok input v _ hv, Ne.symm hne]

theorem State_Load_current (codec : json.Codec) (decoder : maps.Decoder State)
    (structErrors : validator.StructErrors State) (fs : os.FS) (s : State) (path : String)
    (content : Bytes) (input : Obj) (v : String) (hfile : fs path = .file content)
    (hparse : codec.decodeText content = .ok (.obj input)) (hv : GetVersion input = .ok v)
    (heq : v = stateVersion) :
    (State.Load codec decoder structErrors fs s path).2 ≠ some (.NotCurrentVersionError v) := by
  simp only [State.Load, Load_of_file codec decoder _ fs s path _ content input hfile hparse,
    checkVersion_of_ok input v _ hv, heq, ne_eq, not_true_eq_false, if_false]
  cases hd : (decoder s input).err with
  | some msg => simp
  | none =>
    simp only
    cases hval : State.Validate structErrors
        (some (State.SetUnused (decoder s input).target (decoder s input).unused)) with
    | none => simp
    | some err =>
      simp only
      intro h
      cases h
      exact State_Validate_ne_notCurrent _ _ _ hval

end azbi

namespace azbi

open shared

/-- C7: for a file that parses as a JSON object with a string `meta.version` `v`, `Load` returns
`NotCurrentVersionError` with `Version` `v` exactly when `v` is not the current version of the
schema; the decoder and the validation are not consulted then, whatever they would report,
and the receiver is as it was. -/
theorem C7_Load_version_gate (codec : json.Codec) (cdec : maps.Decoder Config)
    (sdec : maps.Decoder State) (cerrs : validator.StructErrors Config)
    (serrs : validator.StructErrors State) (fs : os.FS) (path : String) (content : Bytes)
    (input : Obj) (v : String) (c : Config) (st : State)
    (hfile : fs path = .file content) (hparse : codec.decodeText content = .ok (.obj input))
    (hv : GetVersion input = .ok v) :
    ((Config.Load codec cdec cerrs fs c path).2 = some (.NotCurrentVersionError v) ↔
      v ≠ "v0.2.1") ∧
    (v ≠ "v0.2.1" →
      Config.Load codec cdec cerrs fs c path = (c, some (.NotCurrentVersionError v))) ∧
    ((State.Load codec sdec serrs fs st path).2 = some (.NotCurrentVersionError v) ↔
      v ≠ "v0.0.2") ∧
    (v ≠ "v0.0.2" →
      State.Load codec sdec serrs fs st path = (st, some (.NotCurrentVersionError v))) := by
  refine ⟨⟨?_, ?_⟩, ?_, ⟨?_, ?_⟩, ?_⟩
  · intro h heq
    exact Config_Load_current codec cdec cerrs fs c path content input v hfile hparse hv heq h
  · intro hne
    rw [Config_Load_stale codec cdec cerrs fs c path content input v hfile hparse hv hne]
  · intro hne
    exact Config_Load_stale codec cdec cerrs fs c path content input v hfile hparse hv hne
  · intro h heq
    exact State_Load_current codec sdec serrs fs st path content input v hfile hparse hv heq h
  · intro hne
    rw [State_Load_stale codec sdec serrs fs st path content input v hfile hparse hv hne]
  · intro hne
    exact State_Load_stale codec sdec serrs fs st path content input v hfile hparse hv hne

/-- C7, witness: `config.json` holds a document at "v0.2.0"; although its decoding would fail
and the empty receiver is invalid, `Load` reports the version and leaves the receiver. -/
theorem C7_Load_version_gate_witness :
    Config.Load examples.codecOldConfig (examples.failingDecoder Config)
        examples.requiredOfConfig examples.fsOneFile {} "config.json" =
      ({}, some (.NotCurrentVersionError "v0.2.0")) ∧
    State.Load examples.codecOldConfig (examples.failingDecoder State)
        examples.requiredOfState examples.fsOneFile {} "config.json" =
      ({}, some (.NotCurrentVersionError "v0.2.0")) :=
  ⟨(C7_Load_version_gate examples.codecOldConfig (examples.failingDecoder Config)
      (examples.failingDecoder State) examples.requiredOfConfig examples.requiredOfState
      examples.fsOneFile "config.json" [123, 125] examples.oldConfig "v0.2.0" {} {}
      rfl rfl rfl).2.1 (by decide),
   (C7_Load_version_gate examples.codecOldConfig (examples.failingDecoder Config)
      (examples.failingDecoder State) examples.requiredOfConfig examples.requiredOfState
      examples.fsOneFile "config.json" [123, 125] examples.oldConfig "v0.2.0" {} {}
      rfl rfl rfl).2.2.2 (by decide)⟩

/-- C9: `Backup` returns `os.ErrExist` and leaves the file system as it is when a file is at
the path; when nothing is at the path it writes the `MarshalIndent` text (no line start, tab
indent) of the document there and returns nil, also for a document that `Validate` rejects
(for which `Save` returns the validation error); a second `Backup` to the same path then
returns `os.ErrExist` and leaves the first content. -/
theorem C9_Backup_never_overwrites (codec : json.Codec) (cerrs : validator.StructErrors Config)
    (serrs : validator.StructErrors State) (fs : os.FS) (path : String) (c c' : Config)
    (st st' : State) :
    (∀ content, fs path = .file content →
      Config.Backup codec fs c path = (fs, some .ErrExist) ∧
      State.Backup codec fs st path = (fs, some .ErrExist)) ∧
    (fs path = .missing →
      Config.Backup codec fs c path =
        (fun p => if p = path then .file (codec.encodeIndent "" "\t" (Config.toJSON c)) else fs p,
          none) ∧
      Config.Backup codec (Config.Backup codec fs c path).1 c' path =
        ((Config.Backup codec fs c path).1, some .ErrExist) ∧
      (∀ err, Config.Validate cerrs (some c) = some err →
        Config.Save codec cerrs fs c path = (fs, some err) ∧
        (Config.Backup codec fs c path).2 = none) ∧
      State.Backup codec fs st path =
        (fun p => if p = path then .file (codec.encodeIndent "" "\t" (State.toJSON st)) else fs p,
          none) ∧
      State.Backup codec (State.Backup codec fs st path).1 st' path =
        ((State.Backup codec fs st path).1, some .ErrExist) ∧
      (∀ err, State.Validate serrs (some st) = some err →
        State.Save codec serrs fs st path = (fs, some err) ∧
        (State.Backup codec fs st path).2 = none)) := by
  constructor
  · intro content h
    exact ⟨Backup_of_file _ fs c path content h, Backup_of_file _ fs st path content h⟩
  · intro h
    have hc := Backup_of_missing (json.MarshalIndent codec Config.toJSON) fs c path _ h rfl
    have hs := Backup_of_missing (json.MarshalIndent codec State.toJSON) fs st path _ h rfl
    refine ⟨hc, ?_, ?_, hs, ?_, ?_⟩
    · unfold Config.Backup
      rw [hc]
      exact Backup_of_file _ _ c' path (codec.encodeIndent "" "\t" (Config.toJSON c)) (by simp)
    · intro err herr
      refine ⟨?_, ?_⟩
      · simp [Config.Save, Save, Config.Print, Print, herr]
      · unfold Config.Backup
        rw [hc]
    · unfold State.Backup
      rw [hs]
      exact Backup_of_file _ _ st' path (codec.encodeIndent "" "\t" (State.toJSON st)) (by simp)
    · intro err herr
      refine ⟨?_, ?_⟩
      · simp [State.Save, Save, State.Print, Print, herr]
      · unfold State.Backup
        rw [hs]

/-- C9, witness: the empty `Config`, which the `required` rules reject, is backed up to the
free path `backup-file.json`; the second `Backup` there and a `Backup` onto `config.json`
return `os.ErrExist`. -/
theorem C9_Backup_never_overwrites_witness :
    Config.Validate examples.requiredOfConfig (some {}) =
      some (.ValidationErrors [⟨"Config.Meta", "Meta", "required"⟩,
        ⟨"Config.Params", "Params", "required"⟩]) ∧
    (Config.Backup examples.codecOldConfig examples.fsOneFile {} "backup-file.json").2 = none ∧
    (Config.Backup examples.codecOldConfig
      (Config.Backup examples.codecOldConfig examples.fsOneFile {} "backup-file.json").1 {}
      "backup-file.json").2 = some .ErrExist ∧
    Config.Backup examples.codecOldConfig examples.fsOneFile {} "config.json" =
      (examples.fsOneFile, some .ErrExist) :=
  ⟨rfl,
   (((C9_Backup_never_overwrites examples.codecOldConfig examples.requiredOfConfig
      examples.requiredOfState examples.fsOneFile "backup-file.json" {} {} {} {}).2 rfl).2.2.1
      _ rfl).2,
   congrArg Prod.snd ((C9_Backup_never_overwrites examples.codecOldConfig
      examples.requiredOfConfig examples.requiredOfState examples.fsOneFile "backup-file.json"
      {} {} {} {}).2 rfl).2.1,
   ((C9_Backup_never_overwrites examples.codecOldConfig examples.requiredOfConfig
      examples.requiredOfState examples.fsOneFile "config.json" {} {} {} {}).1 [123, 125]
      rfl).1⟩

end azbi

namespace azbi

open shared

/-- C10: `Save` validates before anything is written: when `Validate` returns an error (the
violations `validate.Struct` found), `Save` returns that error and the file system is as it
was; when `Validate` returns nil, `Save` is the write of the bytes `Print` returns, the
`MarshalIndent` text (no line start, tab indent) of the document, to the path. -/
theorem C10_Save_validates_first (codec : json.Codec) (cerrs : validator.StructErrors Config)
    (serrs : validator.StructErrors State) (fs : os.FS) (path : String) (c : Config)
    (st : State) :
    (∀ err, Config.Validate cerrs (some c) = some err →
      Config.Print codec cerrs c = .error err ∧
      Config.Save codec cerrs fs c path = (fs, some err)) ∧
    (cerrs c ≠ [] →
      Config.Save codec cerrs fs c path = (fs, some (.ValidationErrors (cerrs c)))) ∧
    (Config.Validate cerrs (some c) = none →
      Config.Print codec cerrs c = .ok (codec.encodeIndent "" "\t" (Config.toJSON c)) ∧
      Config.Save codec cerrs fs c path =
        ioutil.WriteFile fs path (codec.encodeIndent "" "\t" (Config.toJSON c)) ∧
      ((∀ msg, fs path ≠ .faulty msg) →
        Config.Save codec cerrs fs c path =
          (fun p => if p = path then .file (codec.encodeIndent "" "\t" (Config.toJSON c))
            else fs p, none))) ∧
    (∀ err, State.Validate serrs (some st) = some err →
      State.Print codec serrs st = .error err ∧
      State.Save codec serrs fs st path = (fs, some err)) ∧
    (serrs st ≠ [] →
      State.Save codec serrs fs st path = (fs, some (.ValidationErrors (serrs st)))) ∧
    (State.Validate serrs (some st) = none →
      State.Print codec serrs st = .ok (codec.encodeIndent "" "\t" (State.toJSON st)) ∧
      State.Save codec serrs fs st path =
        ioutil.WriteFile fs path (codec.encodeIndent "" "\t" (State.toJSON st)) ∧
      ((∀ msg, fs path ≠ .faulty msg) →
        State.Save codec serrs fs st path =
          (fun p => if p = path then .file (codec.encodeIndent "" "\t" (State.toJSON st))
            else fs p, none))) := by
  have hwrite : ∀ bytes : Bytes, (∀ msg, fs path ≠ .faulty msg) →
      ioutil.WriteFile fs path bytes = (fun p => if p = path then .file bytes else fs p, none) := by
    intro bytes hok
    unfold ioutil.WriteFile
    cases hfs : fs path with
    | faulty msg => exact absurd hfs (hok msg)
    | missing => rfl
    | file content => rfl
  refine ⟨?_, ?_, ?_, ?_, ?_, ?_⟩
  · intro err herr
    simp [Config.Save, Save, Config.Print, Print, herr]
  · intro hne
    cases herrs : cerrs c with
    | nil => exact absurd herrs hne
    | cons e es => simp [Config.Save, Save, Config.Print, Print, Config.Validate, herrs]
  · intro hok
    have hprint : Config.Print codec cerrs c =
        .ok (codec.encodeIndent "" "\t" (Config.toJSON c)) := by
      simp [Config.Print, Print, hok, json.MarshalIndent]
    have hsave : Config.Save codec cerrs fs c path =
        ioutil.WriteFile fs path (codec.encodeIndent "" "\t" (Config.toJSON c)) := by
      simp [Config.Save, Save, hprint]
    exact ⟨hprint, hsave, fun h => by rw [hsave, hwrite _ h]⟩
  · intro err herr
    simp [State.Save, Save, State.Print, Print, herr]
  · intro hne
    cases herrs : serrs st with
    | nil => exact absurd herrs hne
    | cons e es => simp [State.Save, Save, State.Print, Print, State.Validate, herrs]
  · intro hok
    have hprint : State.Print codec serrs st =
        .ok (codec.encodeIndent "" "\t" (State.toJSON st)) := by
      simp [State.Print, Print, hok, json.MarshalIndent]
    have hsave : State.Save codec serrs fs st path =
        ioutil.WriteFile fs path (codec.encodeIndent "" "\t" (State.toJSON st)) := by
      simp [State.Save, Save, hprint]
    exact ⟨hprint, hsave, fun h => by rw [hsave, hwrite _ h]⟩

/-- C10, witness: saving the empty `Config` over `config.json` returns the two `required`
violations and leaves the file system; saving a `Config` with `Meta` and `Params` writes what
`Print` returns. -/
theorem C10_Save_validates_first_witness :
    Config.Save examples.codecOldConfig examples.requiredOfConfig examples.fsOneFile {}
        "config.json" =
      (examples.fsOneFile, some (.ValidationErrors [⟨"Config.Meta", "Meta", "required"⟩,
        ⟨"Config.Params", "Params", "required"⟩])) ∧
    Config.Print examples.codecOldConfig examples.requiredOfConfig
        { Meta := some {}, Params := some {} } = .ok [] ∧
    (Config.Save examples.codecOldConfig examples.requiredOfConfig examples.fsOneFile
        { Meta := some {}, Params := some {} } "config.json").2 = none :=
  ⟨(C10_Save_validates_first examples.codecOldConfig examples.requiredOfConfig
      examples.requiredOfState examples.fsOneFile "config.json" {} {}).2.1 (by decide),
   ((C10_Save_validates_first examples.codecOldConfig examples.requiredOfConfig
      examples.requiredOfState examples.fsOneFile "config.json"
      { Meta := some {}, Params := some {} } {}).2.2.1 rfl).1,
   congrArg Prod.snd (((C10_Save_validates_first examples.codecOldConfig
      examples.requiredOfConfig examples.requiredOfState examples.fsOneFile "config.json"
      { Meta := some {}, Params := some {} } {}).2.2.1 rfl).2.2
      (fun msg h => by simp [examples.fsOneFile] at h))⟩

end azbi

/-! ## Init -/

namespace azbi

/-- C11: for every module version and every receiver, `Config.Init` and `State.Init` return
(they are total and have no error result) and the receiver afterwards is the hard-coded
default with the kind of the schema, its current version and the given module version;
`State.Init` sets the status "initialized" and nil `Config` and `Output`; `Unused` is the
empty list; the result does not depend on the receiver before the call. -/
theorem C11_Init_replaces_receiver (moduleVersion : String) (c c' : Config) (s s' : State) :
    Config.Init c moduleVersion = Config.Init c' moduleVersion ∧
    (Config.Init c moduleVersion).Meta =
      some { Kind := some "azbiConfig", Version := some "v0.2.1",
             ModuleVersion := some moduleVersion } ∧
    (Config.Init c moduleVersion).Params =
      some { Name := some "unknown", Location := some "northeurope",
             AddressSpace := some ["10.0.0.0/16"],
             Subnets := some [{ Name := some "main", AddressPrefixes := some ["10.0.1.0/24"] }],
             VmGroups := some [
               { Name := some "vm-group-0", VmCount := some 1,
                 VmSize := some "Standard_DS2_v2", UsePublicIP := some true,
                 SubnetNames := some ["main"],
                 VmImage := some
                   { Publisher := some "Canonical", Offer := some "UbuntuServer",
                     Sku := some "18.04-LTS", Version := some "18.04.202006101" },
                 DataDisks := some [{ GbSize := some 10, StorageType := some "Premium_LRS" }] }],
             AdminUsername := some "operations",
             RsaPublicKeyPath := some "/shared/vms_rsa.pub" } ∧
    (Config.Init c moduleVersion).Unused = some [] ∧
    State.Init s moduleVersion = State.Init s' moduleVersion ∧
    State.Init s moduleVersion =
      { Meta := some { Kind := some "azbiState", Version := some "v0.0.2",
                       ModuleVersion := some moduleVersion },
        Status := "initialized", Config := none, Output := none, Unused := some [] } :=
  ⟨rfl, rfl, rfl, rfl, rfl, rfl⟩

/-- C11, instance: `Init` on the busy example documents gives the same documents as `Init` on
empty ones, stamped with the module version "v1.1.1". -/
theorem C11_Init_replaces_receiver_witness :
    Config.Init examples.busyConfig "v1.1.1" = Config.Init {} "v1.1.1" ∧
    (Config.Init examples.busyConfig "v1.1.1").Meta =
      some { Kind := some "azbiConfig", Version := some "v0.2.1",
             ModuleVersion := some "v1.1.1" } ∧
    State.Init examples.busyState "v1.1.1" =
      { Meta := some { Kind := some "azbiState", Version := some "v0.0.2",
                       ModuleVersion := some "v1.1.1" },
        Status := "initialized", Config := none, Output := none, Unused := some [] } :=
  ⟨(C11_Init_replaces_receiver "v1.1.1" examples.busyConfig {} examples.busyState {}).1,
   (C11_Init_replaces_receiver "v1.1.1" examples.busyConfig {} examples.busyState {}).2.1,
   (C11_Init_replaces_receiver "v1.1.1" examples.busyConfig {} examples.busyState {}).2.2.2.2.2⟩

end azbi

/-! ## Loops that append -/

theorem rangeFold_append {α β : Type} (body : Nat → α → List β → List β)
    (f : Nat → α → List β) (h : ∀ i x s, body i x s = s ++ f i x) (i : Nat) (xs : List α)
    (s : List β) : rangeFold body i xs s = s ++ gather f i xs := by
  induction xs generalizing i s with
  | nil => simp [rangeFold, gather]
  | cons x xs ih => simp [rangeFold, gather, h, ih, List.append_assoc]

theorem filter_gather {α β : Type} (p : β → Bool) (f : Nat → α → List β) (i : Nat)
    (xs : List α) :
    (gather f i xs).filter p = gather (fun i x => (f i x).filter p) i xs := by
  induction xs generalizing i with
  | nil => simp [gather]
  | cons x xs ih => simp [gather, ih]

theorem map_gather {α β γ : Type} (g : β → γ) (f : Nat → α → List β) (i : Nat)
    (xs : List α) :
    (gather f i xs).map g = gather (fun i x => (f i x).map g) i xs := by
  induction xs generalizing i with
  | nil => simp [gather]
  | cons x xs ih => simp [gather, ih]

theorem gather_congr {α β : Type} (f g : Nat → α → List β) (i : Nat) (xs : List α)
    (h : ∀ k x, xs[k]? = some x → f (i + k) x = g (i + k) x) :
    gather f i xs = gather g i xs := by
  induction xs generalizing i with
  | nil => simp [gather]
  | cons x xs ih =>
    have h0 := h 0 x (by simp)
    simp only [Nat.add_zero] at h0
    have ht : ∀ k y, xs[k]? = some y → f (i + 1 + k) y = g (i + 1 + k) y := by
      intro k y hk
      have := h (k + 1) y (by simpa using hk)
      simpa [Nat.add_assoc, Nat.add_comm 1 k] using this
    simp [gather, h0, ih (i + 1) ht]

theorem gather_nil {α β : Type} (i : Nat) (xs : List α) :
    gather (fun _ _ => ([] : List β)) i xs = [] := by
  induction xs generalizing i with
  | nil => simp [gather]
  | cons x xs ih => simp [gather, ih]

theorem mem_gather {α β : Type} (f : Nat → α → List β) (i : Nat) (xs : List α) (b : β) :
    b ∈ gather f i xs ↔ ∃ k x, xs[k]? = some x ∧ b ∈ f (i + k) x := by
  induction xs generalizing i with
  | nil => simp [gather]
  | cons x xs ih =>
    simp only [gather, List.mem_append, ih]
    constructor
    · rintro (h | ⟨k, y, hk, hb⟩)
      · exact ⟨0, x, by simp, by simpa using h⟩
      · exact ⟨k + 1, y, by simpa using hk, by simpa [Nat.add_assoc, Nat.add_comm 1 k] using hb⟩
    · rintro ⟨k, y, hk, hb⟩
      cases k with
      | zero =>
        simp only [List.getElem?_cons_zero, Option.some.injEq] at hk
        subst hk
        exact Or.inl (by simpa using hb)
      | succ k =>
        exact Or.inr ⟨k, y, by simpa using hk,
          by simpa [Nat.add_assoc, Nat.add_comm 1 k] using hb⟩

theorem nodup_gather {α β : Type} (key : β → Nat) (f : Nat → α → List β)
    (hkey : ∀ i x b, b ∈ f i x → key b = i) (hnd : ∀ i x, (f i x).Nodup) (i : Nat)
    (xs : List α) : (gather f i xs).Nodup := by
  induction xs generalizing i with
  | nil => simp [gather]
  | cons x xs ih =>
    simp only [gather]
    refine List.Nodup.append (hnd i x) (ih (i + 1)) ?_
    intro b hb hb'
    obtain ⟨k, y, -, hy⟩ := (mem_gather f (i + 1) xs b).1 hb'
    have h1 := hkey i x b hb
    have h2 := hkey _ y b hy
    omega

theorem rangeFold_found {α : Type} (p : α → Prop) [DecidablePred p] (i : Nat) (xs : List α)
    (b : Bool) :
    rangeFold (fun _ (x : α) found => if p x then true else found) i xs b =
      (b || xs.any (fun x => decide (p x))) := by
  induction xs generalizing i b with
  | nil => simp [rangeFold]
  | cons x xs ih =>
    simp only [rangeFold, ih, List.any_cons]
    by_cases h : p x <;> simp [h]

/-! ## `AwsBIParamsValidation` -/

namespace awsbi

open validator

theorem subnetName_append (params : Params) (i j : Nat) (sn : String) (sl : StructLevel) :
    AwsBIParamsValidation.subnetName params i j sn sl =
      sl ++ AwsBIParamsValidation.subnetName params i j sn [] := by
  unfold AwsBIParamsValidation.subnetName
  simp only
  split <;> split <;> simp

theorem securityGroupName_append (params : Params) (i j : Nat) (sg : String)
    (sl : StructLevel) :
    AwsBIParamsValidation.securityGroupName params i j sg sl =
      sl ++ AwsBIParamsValidation.securityGroupName params i j sg [] := by
  unfold AwsBIParamsValidation.securityGroupName
  simp only
  split <;> split <;> simp

theorem subnet_append (structOf : Subnet → StructResult) (listName : String) (i : Nat)
    (s : Subnet) (sl : StructLevel) :
    AwsBIParamsValidation.subnet structOf listName i s sl =
      sl ++ AwsBIParamsValidation.subnet structOf listName i s [] := by
  unfold AwsBIParamsValidation.subnet
  cases structOf s <;> simp

/-- The calls of `AwsBIParamsValidation`, group by group and then for `Subnets`. -/
theorem AwsBIParamsValidation_eq (structOf : Subnet → StructResult) (params : Params) :
    AwsBIParamsValidation structOf params =
      gather (fun i (vmGroup : VmGroup) =>
        gather (fun j sn => AwsBIParamsValidation.subnetName params i j sn []) 0
          (elems vmGroup.SubnetNames) ++
        gather (fun j sg => AwsBIParamsValidation.securityGroupName params i j sg []) 0
          (elems vmGroup.SecurityGroupNames)) 0 (elems params.VmGroups) ++
      (match params.Subnets with
       | none => []
       | some subnets =>
         (if (elems subnets.Private).length = 0 ∧ (elems subnets.Public).length = 0 then
            [.ReportError "Subnets" "Subnets" "private_or_public" ""]
          else []) ++
         gather (fun i s => AwsBIParamsValidation.subnet structOf "Private" i s []) 0
           (elems subnets.Private) ++
         gather (fun i s => AwsBIParamsValidation.subnet structOf "Public" i s []) 0
           (elems subnets.Public)) := by
  have hgroups : ∀ sl : StructLevel,
      rangeFold (fun i (vmGroup : VmGroup) sl =>
        let sl := rangeFold (AwsBIParamsValidation.subnetName params i) 0
          (elems vmGroup.SubnetNames) sl
        rangeFold (AwsBIParamsValidation.securityGroupName params i) 0
          (elems vmGroup.SecurityGroupNames) sl) 0 (elems params.VmGroups) sl =
      sl ++ gather (fun i (vmGroup : VmGroup) =>
        gather (fun j sn => AwsBIParamsValidation.subnetName params i j sn []) 0
          (elems vmGroup.SubnetNames) ++
        gather (fun j sg => AwsBIParamsValidation.securityGroupName params i j sg []) 0
          (elems vmGroup.SecurityGroupNames)) 0 (elems params.VmGroups) := by
    intro sl
    apply rangeFold_append
    intro i vmGroup s
    simp only
    rw [rangeFold_append _ _ (fun j sn s => subnetName_append params i j sn s),
      rangeFold_append _ _ (fun j sg s => securityGroupName_append params i j sg s),
      List.append_assoc]
  have hsub : ∀ (listName : String) (xs : List Subnet) (sl : StructLevel),
      rangeFold (AwsBIParamsValidation.subnet structOf listName) 0 xs sl =
        sl ++ gather (fun i s => AwsBIParamsValidation.subnet structOf listName i s []) 0 xs :=
    fun listName xs sl =>
      rangeFold_append _ _ (fun i s sl => subnet_append structOf listName i s sl) 0 xs sl
  have hpart : ∀ (listName : String) (xs : List Subnet) (sl : StructLevel),
      (if xs.length > 0 then rangeFold (AwsBIParamsValidation.subnet structOf listName) 0 xs sl
        else sl) =
        sl ++ gather (fun i s => AwsBIParamsValidation.subnet structOf listName i s []) 0 xs := by
    intro listName xs sl
    cases xs with
    | nil => simp [gather]
    | cons x xs => simp [hsub]
  unfold AwsBIParamsValidation
  have hg : (if (elems params.VmGroups).length > 0 then
      rangeFold (fun i (vmGroup : VmGroup) sl =>
        let sl := rangeFold (AwsBIParamsValidation.subnetName params i) 0
          (elems vmGroup.SubnetNames) sl
        rangeFold (AwsBIParamsValidation.securityGroupName params i) 0
          (elems vmGroup.SecurityGroupNames) sl) 0 (elems params.VmGroups) ([] : StructLevel)
      else []) =
      gather (fun i (vmGroup : VmGroup) =>
        gather (fun j sn => AwsBIParamsValidation.subnetName params i j sn []) 0
          (elems vmGroup.SubnetNames) ++
        gather (fun j sg => AwsBIParamsValidation.securityGroupName params i j sg []) 0
          (elems vmGroup.SecurityGroupNames)) 0 (elems params.VmGroups) := by
    split
    · rw [hgroups]; simp
    · next h =>
      cases hxs : elems params.VmGroups with
      | nil => simp [gather]
      | cons x xs => simp [hxs] at h
  simp only [hg]
  cases params.Subnets with
  | none => simp
  | some subnets =>
    simp only
    simp only [hpart]
    split <;> simp [List.append_assoc]

end awsbi

namespace awsbi

open validator

theorem subnetName_found (params : Params) (sn : String) :
    (match params.Subnets with
      | some subnets =>
        rangeFold (fun _ (s : Subnet) found =>
          if s.Name ≠ none ∧ some sn = s.Name then true else found) 0 (elems subnets.Public)
          (rangeFold (fun _ (s : Subnet) found =>
            if s.Name ≠ none ∧ some sn = s.Name then true else found) 0 (elems subnets.Private)
            false)
      | none => false) =
      decide (∃ s ∈ params.declaredSubnets, s.Name = some sn) := by
  unfold Params.declaredSubnets
  cases params.Subnets with
  | none => simp
  | some subnets =>
    simp only
    rw [rangeFold_found (fun s : Subnet => s.Name ≠ none ∧ some sn = s.Name),
      rangeFold_found (fun s : Subnet => s.Name ≠ none ∧ some sn = s.Name)]
    rw [Bool.eq_iff_iff]
    simp only [Bool.false_or, Bool.or_eq_true, List.any_eq_true, decide_eq_true_eq,
      List.mem_append]
    constructor
    · rintro (⟨s, hs, -, h⟩ | ⟨s, hs, -, h⟩)
      · exact ⟨s, Or.inl hs, h.symm⟩
      · exact ⟨s, Or.inr hs, h.symm⟩
    · rintro ⟨s, hs | hs, h⟩
      · exact Or.inl ⟨s, hs, by simp [h], h.symm⟩
      · exact Or.inr ⟨s, hs, by simp [h], h.symm⟩

theorem securityGroupName_found (params : Params) (sg : String) :
    (match params.SecurityGroups with
      | some securityGroups =>
        rangeFold (fun _ (s : SecurityGroup) found =>
          if s.Name ≠ none ∧ some sg = s.Name then true else found) 0 securityGroups false
      | none => false) =
      decide (∃ s ∈ elems params.SecurityGroups, s.Name = some sg) := by
  cases params.SecurityGroups with
  | none => simp [elems]
  | some securityGroups =>
    simp only [elems]
    rw [rangeFold_found (fun s : SecurityGroup => s.Name ≠ none ∧ some sg = s.Name)]
    rw [Bool.eq_iff_iff]
    simp only [Bool.false_or, List.any_eq_true, decide_eq_true_eq]
    constructor
    · rintro ⟨s, hs, -, h⟩
      exact ⟨s, hs, h.symm⟩
    · rintro ⟨s, hs, h⟩
      exact ⟨s, hs, by simp [h], h.symm⟩

/-- The calls of one pass over a subnet name: "required" for the empty name, then "insubnets"
when no declared subnet carries the name. -/
theorem subnetName_eq (params : Params) (i j : Nat) (sn : String) :
    AwsBIParamsValidation.subnetName params i j sn [] =
      (if sn = "" then
        [.ReportError ("VmGroups[" ++ toString i ++ "].SubnetNames[" ++ toString j ++ "]")
          ("SubnetNames[" ++ toString j ++ "]") "required" ""]
       else []) ++
      (if ∃ s ∈ params.declaredSubnets, s.Name = some sn then []
       else
        [.ReportError ("VmGroups[" ++ toString i ++ "].SubnetNames[" ++ toString j ++ "]")
          ("SubnetNames[" ++ toString j ++ "]") "insubnets" ""]) := by
  unfold AwsBIParamsValidation.subnetName
  simp only [subnetName_found]
  by_cases h' : sn = ""
  · subst h'
    by_cases h : ∃ s ∈ params.declaredSubnets, s.Name = some "" <;> simp [h]
  · by_cases h : ∃ s ∈ params.declaredSubnets, s.Name = some sn <;> simp [h, h']

/-- The calls of one pass over a security group name. -/
theorem securityGroupName_eq (params : Params) (i j : Nat) (sg : String) :
    AwsBIParamsValidation.securityGroupName params i j sg [] =
      (if sg = "" then
        [.ReportError
          ("VmGroups[" ++ toString i ++ "].SecurityGroupNames[" ++ toString j ++ "]")
          ("SecurityGroupNames[" ++ toString j ++ "]") "required" ""]
       else []) ++
      (if ∃ s ∈ elems params.SecurityGroups, s.Name = some sg then []
       else
        [.ReportError
          ("VmGroups[" ++ toString i ++ "].SecurityGroupNames[" ++ toString j ++ "]")
          ("SecurityGroupNames[" ++ toString j ++ "]") "insecuritygroups" ""]) := by
  unfold AwsBIParamsValidation.securityGroupName
  simp only [securityGroupName_found]
  by_cases h' : sg = ""
  · subst h'
    by_cases h : ∃ s ∈ elems params.SecurityGroups, s.Name = some "" <;> simp [h]
  · by_cases h : ∃ s ∈ elems params.SecurityGroups, s.Name = some sg <;> simp [h, h']

theorem subnetName_filter (params : Params) (i j : Nat) (sn tag : String)
    (h : tag ≠ "required") :
    (AwsBIParamsValidation.subnetName params i j sn []).filter (Report.hasTag tag) =
      if tag = "insubnets" ∧ ¬ ∃ s ∈ params.declaredSubnets, s.Name = some sn then
        [.ReportError ("VmGroups[" ++ toString i ++ "].SubnetNames[" ++ toString j ++ "]")
          ("SubnetNames[" ++ toString j ++ "]") "insubnets" ""]
      else [] := by
  rw [subnetName_eq, List.filter_append]
  have hreq : ∀ r : List Report, r = (if sn = "" then
      [.ReportError ("VmGroups[" ++ toString i ++ "].SubnetNames[" ++ toString j ++ "]")
        ("SubnetNames[" ++ toString j ++ "]") "required" ""] else []) →
      r.filter (Report.hasTag tag) = [] := by
    intro r hr
    subst hr
    split <;> simp [Report.hasTag, Ne.symm h]
  rw [hreq _ rfl, List.nil_append]
  by_cases h1 : ∃ s ∈ params.declaredSubnets, s.Name = some sn
  · simp [h1]
  · by_cases h3 : tag = "insubnets"
    · subst h3
      simp [h1, Report.hasTag]
    · have h3' : ¬ "insubnets" = tag := fun e => h3 e.symm
      simp [h1, h3, h3', Report.hasTag]

theorem securityGroupName_filter (params : Params) (i j : Nat) (sg tag : String)
    (h : tag ≠ "required") :
    (AwsBIParamsValidation.securityGroupName params i j sg []).filter (Report.hasTag tag) =
      if tag = "insecuritygroups" ∧ ¬ ∃ s ∈ elems params.SecurityGroups, s.Name = some sg then
        [.ReportError
          ("VmGroups[" ++ toString i ++ "].SecurityGroupNames[" ++ toString j ++ "]")
          ("SecurityGroupNames[" ++ toString j ++ "]") "insecuritygroups" ""]
      else [] := by
  rw [securityGroupName_eq, List.filter_append]
  have hreq : ∀ r : List Report, r = (if sg = "" then
      [.ReportError
        ("VmGroups[" ++ toString i ++ "].SecurityGroupNames[" ++ toString j ++ "]")
        ("SecurityGroupNames[" ++ toString j ++ "]") "required" ""] else []) →
      r.filter (Report.hasTag tag) = [] := by
    intro r hr
    subst hr
    split <;> simp [Report.hasTag, Ne.symm h]
  rw [hreq _ rfl, List.nil_append]
  by_cases h1 : ∃ s ∈ elems params.SecurityGroups, s.Name = some sg
  · simp [h1]
  · by_cases h3 : tag = "insecuritygroups"
    · subst h3
      simp [h1, Report.hasTag]
    · have h3' : ¬ "insecuritygroups" = tag := fun e => h3 e.symm
      simp [h1, h3, h3', Report.hasTag]

theorem subnet_filter (structOf : Subnet → StructResult) (listName : String) (i : Nat)
    (s : Subnet) (tag : String) (h : tag ≠ "fatal") :
    (AwsBIParamsValidation.subnet structOf listName i s []).filter (Report.hasTag tag) = [] := by
  unfold AwsBIParamsValidation.subnet
  cases structOf s <;> simp [Report.hasTag, Ne.symm h, List.filter]

end awsbi

namespace awsbi

open validator

theorem filter_tail (structOf : Subnet → StructResult) (params : Params) (tag : String)
    (h : tag ≠ "fatal") :
    (match params.Subnets with
       | none => []
       | some subnets =>
         (if (elems subnets.Private).length = 0 ∧ (elems subnets.Public).length = 0 then
            [Report.ReportError "Subnets" "Subnets" "private_or_public" ""]
          else []) ++
         gather (fun i s => AwsBIParamsValidation.subnet structOf "Private" i s []) 0
           (elems subnets.Private) ++
         gather (fun i s => AwsBIParamsValidation.subnet structOf "Public" i s []) 0
           (elems subnets.Public)).filter (Report.hasTag tag) =
      match params.Subnets with
      | none => []
      | some subnets =>
        if tag = "private_or_public" ∧
            (elems subnets.Private).length = 0 ∧ (elems subnets.Public).length = 0 then
          [Report.ReportError "Subnets" "Subnets" "private_or_public" ""]
        else [] := by
  cases params.Subnets with
  | none => simp
  | some subnets =>
    simp only [List.filter_append, filter_gather, subnet_filter _ _ _ _ _ h, gather_nil,
      List.append_nil]
    by_cases h1 : (elems subnets.Private).length = 0 ∧ (elems subnets.Public).length = 0
    · by_cases h2 : tag = "private_or_public"
      · subst h2
        simp [h1, Report.hasTag]
      · have h2' : ¬ "private_or_public" = tag := fun e => h2 e.symm
        simp [h1, h2, h2', Report.hasTag]
    · rw [if_neg h1, if_neg (fun hh => h1 hh.2)]
      simp

theorem mem_bad_pairs {α β : Type} (names : α → List β) (good : β → Prop) [DecidablePred good]
    (groups : List α) (i j : Nat) :
    (i, j) ∈ gather (fun i g => gather (fun j x => if good x then [] else [(i, j)]) 0 (names g))
        0 groups ↔
      ∃ g x, groups[i]? = some g ∧ (names g)[j]? = some x ∧ ¬ good x := by
  simp only [mem_gather, Nat.zero_add]
  constructor
  · rintro ⟨k, g, hg, l, x, hx, hmem⟩
    by_cases hgood : good x
    · simp [hgood] at hmem
    · simp only [hgood, if_false, List.mem_singleton, Prod.mk.injEq] at hmem
      obtain ⟨rfl, rfl⟩ := hmem
      exact ⟨g, x, hg, hx, hgood⟩
  · rintro ⟨g, x, hg, hx, hgood⟩
    exact ⟨i, g, hg, j, x, hx, by simp [hgood]⟩

theorem nodup_bad_pairs {α β : Type} (names : α → List β) (good : β → Prop)
    [DecidablePred good] (groups : List α) :
    (gather (fun i g => gather (fun j x => if good x then [] else [(i, j)]) 0 (names g))
        0 groups).Nodup := by
  refine nodup_gather Prod.fst _ ?_ ?_ 0 groups
  · intro i g b hb
    obtain ⟨l, x, -, hmem⟩ := (mem_gather _ _ _ _).1 hb
    by_cases hgood : good x
    · simp [hgood] at hmem
    · simp only [hgood, if_false, List.mem_singleton] at hmem
      rw [hmem]
  · intro i g
    refine nodup_gather Prod.snd _ ?_ ?_ 0 (names g)
    · intro j x b hb
      by_cases hgood : good x
      · simp [hgood] at hb
      · simp only [hgood, if_false, List.mem_singleton] at hb
        rw [hb]
    · intro j x
      by_cases hgood : good x <;> simp [hgood]

/-- C12: the `ReportError` calls of `AwsBIParamsValidation` with tag "insubnets" are, in order
and each once, those for the pairs (i, j) such that the subnet name `j` of VM group `i` is
the name of no subnet of `Subnets.Private` or `Subnets.Public`, with field name
`VmGroups[i].SubnetNames[j]`; with `Subnets` nil these are all pairs. -/
theorem C12_aws_insubnets_all_reported (structOf : Subnet → StructResult) (params : Params) :
    ∃ bad : List (Nat × Nat),
      (AwsBIParamsValidation structOf params).filter (Report.hasTag "insubnets") =
        bad.map (fun ij =>
          .ReportError ("VmGroups[" ++ toString ij.1 ++ "].SubnetNames[" ++ toString ij.2 ++ "]")
            ("SubnetNames[" ++ toString ij.2 ++ "]") "insubnets" "") ∧
      (∀ i j, (i, j) ∈ bad ↔
        ∃ vmGroup sn, (elems params.VmGroups)[i]? = some vmGroup ∧
          (elems vmGroup.SubnetNames)[j]? = some sn ∧
          ∀ s ∈ params.declaredSubnets, s.Name ≠ some sn) ∧
      bad.Nodup ∧
      (params.Subnets = none →
        ∀ i j vmGroup sn, (elems params.VmGroups)[i]? = some vmGroup →
          (elems vmGroup.SubnetNames)[j]? = some sn → (i, j) ∈ bad) := by
  have hmem := mem_bad_pairs (fun g : VmGroup => elems g.SubnetNames)
    (fun sn => ∃ s ∈ params.declaredSubnets, s.Name = some sn) (elems params.VmGroups)
  refine ⟨gather (fun i (g : VmGroup) => gather (fun j sn =>
    if ∃ s ∈ params.declaredSubnets, s.Name = some sn then [] else [(i, j)]) 0
      (elems g.SubnetNames)) 0 (elems params.VmGroups), ?_, ?_, ?_, ?_⟩
  · rw [AwsBIParamsValidation_eq, List.filter_append,
      filter_tail structOf params "insubnets" (by decide), filter_gather, map_gather]
    have htail : (match params.Subnets with
        | none => ([] : List Report)
        | some subnets =>
          if "insubnets" = "private_or_public" ∧
              (elems subnets.Private).length = 0 ∧ (elems subnets.Public).length = 0 then
            [Report.ReportError "Subnets" "Subnets" "private_or_public" ""]
          else []) = [] := by
      cases params.Subnets <;> simp
    rw [htail, List.append_nil]
    congr 1
    funext i g
    simp only [List.filter_append, filter_gather,
      subnetName_filter params _ _ _ "insubnets" (by decide),
      securityGroupName_filter params _ _ _ "insubnets" (by decide), map_gather]
    have hsg : ∀ xs : List String, gather (fun (j : Nat) (sg : String) =>
        if "insubnets" = "insecuritygroups" ∧
            ¬ ∃ s ∈ elems params.SecurityGroups, s.Name = some sg then
          [Report.ReportError
            ("VmGroups[" ++ toString i ++ "].SecurityGroupNames[" ++ toString j ++ "]")
            ("SecurityGroupNames[" ++ toString j ++ "]") "insecuritygroups" ""]
        else []) 0 xs = [] := by
      intro xs
      have : (fun (j : Nat) (sg : String) =>
          if "insubnets" = "insecuritygroups" ∧
              ¬ ∃ s ∈ elems params.SecurityGroups, s.Name = some sg then
            [Report.ReportError
              ("VmGroups[" ++ toString i ++ "].SecurityGroupNames[" ++ toString j ++ "]")
              ("SecurityGroupNames[" ++ toString j ++ "]") "insecuritygroups" ""]
          else []) = fun _ _ => [] := by
        funext j sg
        simp
      rw [this, gather_nil]
    rw [hsg, List.append_nil]
    congr 1
    funext j sn
    by_cases h : ∃ s ∈ params.declaredSubnets, s.Name = some sn <;> simp [h]
  · intro i j
    rw [hmem]
    constructor
    · rintro ⟨g, sn, hg, hsn, hbad⟩
      exact ⟨g, sn, hg, hsn, fun s hs he => hbad ⟨s, hs, he⟩⟩
    · rintro ⟨g, sn, hg, hsn, hbad⟩
      exact ⟨g, sn, hg, hsn, fun ⟨s, hs, he⟩ => hbad s hs he⟩
  · exact nodup_bad_pairs _ _ _
  · intro hnone i j g sn hg hsn
    rw [hmem]
    refine ⟨g, sn, hg, hsn, ?_⟩
    simp [Params.declaredSubnets, hnone]

end awsbi

namespace awsbi

open validator

/-- C14: the `ReportError` calls of `AwsBIParamsValidation` with tag "insecuritygroups" are,
in order and each once, those for the pairs (i, j) such that the security group name `j` of
VM group `i` is the name of no element of `SecurityGroups`, with field name
`VmGroups[i].SecurityGroupNames[j]`. -/
theorem C14_aws_insecuritygroups_all_reported (structOf : Subnet → StructResult)
    (params : Params) :
    ∃ bad : List (Nat × Nat),
      (AwsBIParamsValidation structOf params).filter (Report.hasTag "insecuritygroups") =
        bad.map (fun ij =>
          .ReportError
            ("VmGroups[" ++ toString ij.1 ++ "].SecurityGroupNames[" ++ toString ij.2 ++ "]")
            ("SecurityGroupNames[" ++ toString ij.2 ++ "]") "insecuritygroups" "") ∧
      (∀ i j, (i, j) ∈ bad ↔
        ∃ vmGroup sg, (elems params.VmGroups)[i]? = some vmGroup ∧
          (elems vmGroup.SecurityGroupNames)[j]? = some sg ∧
          ∀ s ∈ elems params.SecurityGroups, s.Name ≠ some sg) ∧
      bad.Nodup := by
  have hmem := mem_bad_pairs (fun g : VmGroup => elems g.SecurityGroupNames)
    (fun sg => ∃ s ∈ elems params.SecurityGroups, s.Name = some sg) (elems params.VmGroups)
  refine ⟨gather (fun i (g : VmGroup) => gather (fun j sg =>
    if ∃ s ∈ elems params.SecurityGroups, s.Name = some sg then [] else [(i, j)]) 0
      (elems g.SecurityGroupNames)) 0 (elems params.VmGroups), ?_, ?_, ?_⟩
  · rw [AwsBIParamsValidation_eq, List.filter_append,
      filter_tail structOf params "insecuritygroups" (by decide), filter_gather, map_gather]
    have htail : (match params.Subnets with
        | none => ([] : List Report)
        | some subnets =>
          if "insecuritygroups" = "private_or_public" ∧
              (elems subnets.Private).length = 0 ∧ (elems subnets.Public).length = 0 then
            [Report.ReportError "Subnets" "Subnets" "private_or_public" ""]
          else []) = [] := by
      cases params.Subnets <;> simp
    rw [htail, List.append_nil]
    congr 1
    funext i g
    simp only [List.filter_append, filter_gather,
      subnetName_filter params _ _ _ "insecuritygroups" (by decide),
      securityGroupName_filter params _ _ _ "insecuritygroups" (by decide), map_gather]
    have hsn : ∀ xs : List String, gather (fun (j : Nat) (sn : String) =>
        if "insecuritygroups" = "insubnets" ∧
            ¬ ∃ s ∈ params.declaredSubnets, s.Name = some sn then
          [Report.ReportError
            ("VmGroups[" ++ toString i ++ "].SubnetNames[" ++ toString j ++ "]")
            ("SubnetNames[" ++ toString j ++ "]") "insubnets" ""]
        else []) 0 xs = [] := by
      intro xs
      have : (fun (j : Nat) (sn : String) =>
          if "insecuritygroups" = "insubnets" ∧
              ¬ ∃ s ∈ params.declaredSubnets, s.Name = some sn then
            [Report.ReportError
              ("VmGroups[" ++ toString i ++ "].SubnetNames[" ++ toString j ++ "]")
              ("SubnetNames[" ++ toString j ++ "]") "insubnets" ""]
          else []) = fun _ _ => [] := by
        funext j sn
        simp
      rw [this, gather_nil]
    rw [hsn, List.nil_append]
    congr 1
    funext j sg
    by_cases h : ∃ s ∈ elems params.SecurityGroups, s.Name = some sg <;> simp [h]
  · intro i j
    rw [hmem]
    constructor
    · rintro ⟨g, sg, hg, hsg, hbad⟩
      exact ⟨g, sg, hg, hsg, fun s hs he => hbad ⟨s, hs, he⟩⟩
    · rintro ⟨g, sg, hg, hsg, hbad⟩
      exact ⟨g, sg, hg, hsg, fun ⟨s, hs, he⟩ => hbad s hs he⟩
  · exact nodup_bad_pairs _ _ _

/-- C15: the `ReportError` calls of `AwsBIParamsValidation` with tag "private_or_public" are:
exactly one, with field name "Subnets", when `Subnets` is present and `Private` and `Public`
are both empty; none when one of them has an element (and none when `Subnets` is nil).  With
both lists empty nothing is passed on by `ReportValidationErrors`. -/
theorem C15_aws_private_or_public (structOf : Subnet → StructResult) (params : Params) :
    (AwsBIParamsValidation structOf params).filter (Report.hasTag "private_or_public") =
      (match params.Subnets with
       | none => []
       | some subnets =>
         if elems subnets.Private = [] ∧ elems subnets.Public = [] then
           [.ReportError "Subnets" "Subnets" "private_or_public" ""]
         else []) ∧
    (∀ subnets, params.Subnets = some subnets → elems subnets.Private = [] →
      elems subnets.Public = [] →
      ∀ ns ns' errs, Report.ReportValidationErrors ns ns' errs ∉
        AwsBIParamsValidation structOf params) := by
  constructor
  · rw [AwsBIParamsValidation_eq, List.filter_append,
      filter_tail structOf params "private_or_public" (by decide), filter_gather]
    have hgroups : (fun (i : Nat) (vmGroup : VmGroup) =>
        List.filter (Report.hasTag "private_or_public")
          (gather (fun j sn => AwsBIParamsValidation.subnetName params i j sn []) 0
              (elems vmGroup.SubnetNames) ++
            gather (fun j sg => AwsBIParamsValidation.securityGroupName params i j sg []) 0
              (elems vmGroup.SecurityGroupNames))) = fun _ _ => [] := by
      funext i g
      simp only [List.filter_append, filter_gather,
        subnetName_filter params _ _ _ "private_or_public" (by decide),
        securityGroupName_filter params _ _ _ "private_or_public" (by decide)]
      have h1 : (fun (j : Nat) (sn : String) =>
          if "private_or_public" = "insubnets" ∧
              ¬ ∃ s ∈ params.declaredSubnets, s.Name = some sn then
            [Report.ReportError
              ("VmGroups[" ++ toString i ++ "].SubnetNames[" ++ toString j ++ "]")
              ("SubnetNames[" ++ toString j ++ "]") "insubnets" ""]
          else []) = fun _ _ => [] := by
        funext j sn
        simp
      have h2 : (fun (j : Nat) (sg : String) =>
          if "private_or_public" = "insecuritygroups" ∧
              ¬ ∃ s ∈ elems params.SecurityGroups, s.Name = some sg then
            [Report.ReportError
              ("VmGroups[" ++ toString i ++ "].SecurityGroupNames[" ++ toString j ++ "]")
              ("SecurityGroupNames[" ++ toString j ++ "]") "insecuritygroups" ""]
          else []) = fun _ _ => [] := by
        funext j sg
        simp
      rw [h1, h2, gather_nil, gather_nil]
      rfl
    rw [hgroups, gather_nil, List.nil_append]
    cases params.Subnets with
    | none => rfl
    | some subnets => simp [List.length_eq_zero]
  · intro subnets hsub hpriv hpub ns ns' errs hmem
    rw [AwsBIParamsValidation_eq, hsub] at hmem
    simp only [hpriv, hpub, gather, List.append_nil, List.mem_append, mem_gather] at hmem
    rcases hmem with ⟨k, g, -, ⟨l, sn, -, h⟩ | ⟨l, sg, -, h⟩⟩ | h
    · rw [subnetName_eq] at h
      by_cases h1 : sn = "" <;>
        by_cases h2 : ∃ s ∈ params.declaredSubnets, s.Name = some sn <;> simp [h1, h2] at h
    · rw [securityGroupName_eq] at h
      by_cases h1 : sg = "" <;>
        by_cases h2 : ∃ s ∈ elems params.SecurityGroups, s.Name = some sg <;>
        simp [h1, h2] at h
    · simp at h

end awsbi

namespace awsbi

open validator

/-- The calls of `AwsBIParamsValidation` on the two example documents: the single bad
reference of the test "missing requested subnets list", and every bad reference of
`manyMissing`, followed by the report on the empty `Subnets`. -/
theorem AwsBIParamsValidation_examples :
    AwsBIParamsValidation (fun _ => .valid) examples.missingSubnet =
      [.ReportError "VmGroups[0].SubnetNames[0]" "SubnetNames[0]" "insubnets" ""] ∧
    AwsBIParamsValidation (fun _ => .valid) examples.manyMissing =
      [.ReportError "VmGroups[0].SubnetNames[0]" "SubnetNames[0]" "insubnets" "",
       .ReportError "VmGroups[0].SubnetNames[1]" "SubnetNames[1]" "required" "",
       .ReportError "VmGroups[0].SubnetNames[1]" "SubnetNames[1]" "insubnets" "",
       .ReportError "VmGroups[0].SecurityGroupNames[1]" "SecurityGroupNames[1]"
         "insecuritygroups" "",
       .ReportError "VmGroups[1].SubnetNames[0]" "SubnetNames[0]" "insubnets" "",
       .ReportError "Subnets" "Subnets" "private_or_public" ""] := by
  constructor <;> decide

end awsbi

/-! ## `AzBISubnetsValidation` -/

namespace azbi

open validator shared

theorem AzBI_found (params : Params) (sn : String) :
    rangeFold (fun _ (s : Subnet) found =>
      if s.Name ≠ none ∧ some sn = s.Name then true else found) 0 (elems params.Subnets) false =
      decide (∃ s ∈ elems params.Subnets, s.Name = some sn) := by
  rw [rangeFold_found (fun s : Subnet => s.Name ≠ none ∧ some sn = s.Name)]
  rw [Bool.eq_iff_iff]
  simp only [Bool.false_or, List.any_eq_true, decide_eq_true_eq]
  constructor
  · rintro ⟨s, hs, -, h⟩
    exact ⟨s, hs, h.symm⟩
  · rintro ⟨s, hs, h⟩
    exact ⟨s, hs, by simp [h], h.symm⟩

theorem AzBI_subnetName_good (params : Params) (i j : Nat) (sn : String) (sl : StructLevel)
    (hne : sn ≠ "") (hdecl : ∃ s ∈ elems params.Subnets, s.Name = some sn) :
    AzBISubnetsValidation.subnetName params i j sn sl = .next sl := by
  unfold AzBISubnetsValidation.subnetName
  simp only [AzBI_found, hne, if_false]
  simp [hdecl]

theorem AzBI_subnetName_missing (params : Params) (i j : Nat) (sn : String) (sl : StructLevel)
    (hne : sn ≠ "") (hbad : ∀ s ∈ elems params.Subnets, s.Name ≠ some sn) :
    AzBISubnetsValidation.subnetName params i j sn sl =
      .ret (sl ++ [.ReportError
        ("VmGroups[" ++ toString i ++ "].SubnetNames[" ++ toString j ++ "]")
        ("SubnetNames[" ++ toString j ++ "]") "insubnets" ""]) := by
  unfold AzBISubnetsValidation.subnetName
  simp only [AzBI_found, hne, if_false]
  have : ¬ ∃ s ∈ elems params.Subnets, s.Name = some sn := fun ⟨s, hs, h⟩ => hbad s hs h
  simp [this]

/-- A loop whose passes all fall through leaves the state to the pass at index `k`. -/
theorem rangeLoop_skip {α σ : Type} (body : Nat → α → σ → LoopFlow σ) (xs : List α) (k : Nat)
    (x : α) (s : σ) (i : Nat) (hx : xs[k]? = some x)
    (hgood : ∀ k' y, k' < k → xs[k']? = some y → body (i + k') y s = .next s)
    (r : σ) (hret : body (i + k) x s = .ret r) :
    rangeLoop body i xs s = .ret r := by
  induction xs generalizing i k with
  | nil => simp at hx
  | cons y ys ih =>
    cases k with
    | zero =>
      simp only [List.getElem?_cons_zero, Option.some.injEq] at hx
      subst hx
      simp only [Nat.add_zero] at hret
      simp [rangeLoop, hret]
    | succ k =>
      have h0 := hgood 0 y (Nat.succ_pos k) (by simp)
      simp only [Nat.add_zero] at h0
      simp only [rangeLoop, h0]
      refine ih k (i + 1) (by simpa using hx) ?_ ?_
      · intro k' z hk' hz
        have := hgood (k' + 1) z (by omega) (by simpa using hz)
        simpa [Nat.add_assoc, Nat.add_comm 1 k'] using this
      · simpa [Nat.add_assoc, Nat.add_comm 1 k] using hret

/-- A loop whose passes all fall through without changing the state falls through. -/
theorem rangeLoop_all_next {α σ : Type} (body : Nat → α → σ → LoopFlow σ) (xs : List α)
    (s : σ) (i : Nat) (hgood : ∀ k y, xs[k]? = some y → body (i + k) y s = .next s) :
    rangeLoop body i xs s = .next s := by
  induction xs generalizing i with
  | nil => simp [rangeLoop]
  | cons y ys ih =>
    have h0 := hgood 0 y (by simp)
    simp only [Nat.add_zero] at h0
    simp only [rangeLoop, h0]
    refine ih (i + 1) ?_
    intro k z hz
    have := hgood (k + 1) z (by simpa using hz)
    simpa [Nat.add_assoc, Nat.add_comm 1 k] using this

/-- The one call of `AzBISubnetsValidation` when the first reference that is empty or
resolves nowhere is a non-empty name. -/
theorem AzBI_first_missing (params : Params) (i j : Nat) (vmGroup : VmGroup) (sn : String)
    (hg : (elems params.VmGroups)[i]? = some vmGroup)
    (hn : (elems vmGroup.SubnetNames)[j]? = some sn)
    (hne : sn ≠ "") (hbad : ∀ s ∈ elems params.Subnets, s.Name ≠ some sn)
    (hfirst : ∀ i' j' g' sn', (elems params.VmGroups)[i']? = some g' →
      (elems g'.SubnetNames)[j']? = some sn' → i' < i ∨ (i' = i ∧ j' < j) →
      sn' ≠ "" ∧ ∃ s ∈ elems params.Subnets, s.Name = some sn') :
    AzBISubnetsValidation params =
      [.ReportError ("VmGroups[" ++ toString i ++ "].SubnetNames[" ++ toString j ++ "]")
        ("SubnetNames[" ++ toString j ++ "]") "insubnets" ""] := by
  have hlen : (elems params.VmGroups).length > 0 := by
    cases hxs : elems params.VmGroups with
    | nil => simp [hxs] at hg
    | cons x xs => simp
  have hloop : rangeLoop (fun i (vmGroup : VmGroup) sl =>
      rangeLoop (AzBISubnetsValidation.subnetName params i) 0 (elems vmGroup.SubnetNames) sl)
      0 (elems params.VmGroups) ([] : StructLevel) =
      .ret ([] ++ [.ReportError
        ("VmGroups[" ++ toString i ++ "].SubnetNames[" ++ toString j ++ "]")
        ("SubnetNames[" ++ toString j ++ "]") "insubnets" ""]) := by
    refine rangeLoop_skip _ _ i vmGroup [] 0 hg ?_ _ ?_
    · intro i' g' hi' hg'
      simp only [Nat.zero_add]
      refine rangeLoop_all_next _ _ _ 0 ?_
      intro j' sn' hsn'
      obtain ⟨h1, h2⟩ := hfirst i' j' g' sn' hg' hsn' (Or.inl hi')
      exact AzBI_subnetName_good params _ _ sn' [] h1 h2
    · simp only [Nat.zero_add]
      refine rangeLoop_skip _ _ j sn [] 0 hn ?_ _ ?_
      · intro j' sn' hj' hsn'
        obtain ⟨h1, h2⟩ := hfirst i j' vmGroup sn' hg hsn' (Or.inr ⟨rfl, hj'⟩)
        exact AzBI_subnetName_good params _ _ sn' [] h1 h2
      · simp only [Nat.zero_add]
        exact AzBI_subnetName_missing params i j sn [] hne hbad
  unfold AzBISubnetsValidation
  simp only [hlen, if_true, hloop, List.nil_append]

theorem Config_Validate_of_mem (structErrors : StructErrors Config) (c : Config)
    (e : FieldError) (h : e ∈ structErrors c) :
    ∃ errs, Config.Validate structErrors (some c) = some (.ValidationErrors errs) ∧
      e ∈ errs := by
  cases hs : structErrors c with
  | nil => simp [hs] at h
  | cons x xs =>
    refine ⟨x :: xs, ?_, hs ▸ h⟩
    simp [Config.Validate, hs]

end azbi

namespace azbi

open validator shared

/-- C13, counterexample: in `twoMissingSubnets` the VM group refers to "missing1" and
"missing2" and the only subnet is "main"; no tag rule is violated there, and `Config.Validate`
reports "insubnets" for `SubnetNames[0]` only, nothing for `SubnetNames[1]`. -/
theorem C13_second_missing_subnet_not_reported :
    (elems examples.twoMissingParams.VmGroups).map (fun g => elems g.SubnetNames) =
      [["missing1", "missing2"]] ∧
    (elems examples.twoMissingParams.Subnets).map (fun s => s.Name) = [some "main"] ∧
    Config.Validate (Config.Struct (fun _ => [])) (some examples.twoMissingSubnets) =
      some (.ValidationErrors
        [⟨"Config.Params.VmGroups[0].SubnetNames[0]", "VmGroups[0].SubnetNames[0]",
          "insubnets"⟩]) ∧
    (⟨"Config.Params.VmGroups[0].SubnetNames[1]", "VmGroups[0].SubnetNames[1]",
        "insubnets"⟩ : FieldError) ∉
      [(⟨"Config.Params.VmGroups[0].SubnetNames[0]", "VmGroups[0].SubnetNames[0]",
        "insubnets"⟩ : FieldError)] := by
  decide

/-- C13, amended: when subnet name `j` of VM group `i` is not empty and is the name of no
declared subnet, and every reference before it (in an earlier group, or earlier in the same
group) is not empty and is the name of a declared subnet, `Config.Validate` returns
validation errors among which is one tagged "insubnets" with namespace
`Config.Params.VmGroups[i].SubnetNames[j]`, whatever the tag rules report. -/
theorem C13_first_missing_subnet_reported (tagErrors : StructErrors Config) (c : Config)
    (params : Params) (i j : Nat) (vmGroup : VmGroup) (sn : String)
    (hp : c.Params = some params)
    (hg : (elems params.VmGroups)[i]? = some vmGroup)
    (hn : (elems vmGroup.SubnetNames)[j]? = some sn)
    (hne : sn ≠ "") (hbad : ∀ s ∈ elems params.Subnets, s.Name ≠ some sn)
    (hfirst : ∀ i' j' g' sn', (elems params.VmGroups)[i']? = some g' →
      (elems g'.SubnetNames)[j']? = some sn' → i' < i ∨ (i' = i ∧ j' < j) →
      sn' ≠ "" ∧ ∃ s ∈ elems params.Subnets, s.Name = some sn') :
    ∃ errs, Config.Validate (Config.Struct tagErrors) (some c) = some (.ValidationErrors errs) ∧
      (⟨"Config.Params.VmGroups[" ++ toString i ++ "].SubnetNames[" ++ toString j ++ "]",
        "VmGroups[" ++ toString i ++ "].SubnetNames[" ++ toString j ++ "]",
        "insubnets"⟩ : FieldError) ∈ errs := by
  apply Config_Validate_of_mem
  unfold Config.Struct
  rw [hp]
  simp only [AzBI_first_missing params i j vmGroup sn hg hn hne hbad hfirst, List.mem_append]
  right
  have hlit : "Config.Params." ++ "VmGroups[" = "Config.Params.VmGroups[" := by decide
  simp [Report.fieldErrors, ← String.append_assoc, hlit]

/-- C13, witness: in the default config with the subnet names "main" and "missing" the
second reference is the first that resolves nowhere, and it is reported. -/
theorem C13_first_missing_subnet_reported_witness :
    ∃ errs, Config.Validate (Config.Struct (fun _ => []))
        (some { Config.Init {} "v1.1.1" with Params := some examples.secondMissingParams }) =
          some (.ValidationErrors errs) ∧
      (⟨"Config.Params.VmGroups[" ++ toString 0 ++ "].SubnetNames[" ++ toString 1 ++ "]",
        "VmGroups[" ++ toString 0 ++ "].SubnetNames[" ++ toString 1 ++ "]",
        "insubnets"⟩ : FieldError) ∈ errs :=
  C13_first_missing_subnet_reported (fun _ => [])
    { Config.Init {} "v1.1.1" with Params := some examples.secondMissingParams }
    examples.secondMissingParams 0 1 { SubnetNames := some ["main", "missing"] } "missing"
    rfl rfl rfl (by decide) (by decide)
    (by
      intro i' j' g' sn' hg' hn' h
      have hi : i' = 0 := by omega
      have hj : j' = 0 := by omega
      subst hi hj
      simp only [examples.secondMissingParams, elems, List.getElem?_cons_zero,
        Option.some.injEq] at hg'
      subst hg'
      simp only [elems, List.getElem?_cons_zero, Option.some.injEq] at hn'
      subst hn'
      exact ⟨by decide, by decide⟩)

end azbi

/-! ## `ExtractEmptySubnets` -/

namespace azbi

theorem fill_spec (xs : List Subnet) (m : SubnetMap) (hnames : ∀ s ∈ xs, s.Name ≠ none) :
    ∃ m', ExtractEmptySubnets.fill xs m = .ok m' ∧
      (∀ k, (∀ s ∈ xs, s.Name ≠ some k) → m' k = m k) ∧
      (∀ s ∈ xs, (∀ t ∈ xs, t.Name = s.Name → t = s) → ∀ k, s.Name = some k →
        m' k = some s) := by
  induction xs generalizing m with
  | nil => exact ⟨m, rfl, fun _ _ => rfl, fun s hs => by simp at hs⟩
  | cons x rest ih =>
    have hx : x.Name ≠ none := hnames x (by simp)
    obtain ⟨name, hname⟩ := Option.ne_none_iff_exists'.1 hx
    obtain ⟨m', hrun, hkeep, hset⟩ :=
      ih (m.set name x) (fun s hs => hnames s (List.mem_cons_of_mem _ hs))
    refine ⟨m', by simp [ExtractEmptySubnets.fill, hname, hrun], ?_, ?_⟩
    · intro k hk
      rw [hkeep k (fun s hs => hk s (List.mem_cons_of_mem _ hs))]
      have : k ≠ name := by
        intro h
        exact hk x (by simp) (by rw [hname, h])
      simp [SubnetMap.set, this]
    · intro s hs huniq k hk
      by_cases hin : s ∈ rest
      · exact hset s hin (fun t ht h => huniq t (List.mem_cons_of_mem _ ht) h) k hk
      · have hsx : s = x := by
          rcases List.mem_cons.1 hs with h | h
          · exact h
          · exact absurd h hin
        subst hsx
        have hkn : k = name := by
          rw [hname] at hk
          exact (Option.some.inj hk).symm
        subst hkn
        have hnone : ∀ t ∈ rest, t.Name ≠ some k := by
          intro t ht h
          have := huniq t (List.mem_cons_of_mem _ ht) (by rw [h, hname])
          exact hin (this ▸ ht)
        rw [hkeep k hnone]
        simp [SubnetMap.set]

theorem names_spec (subnet : Subnet) (name : String) (hname : subnet.Name = some name)
    (nms : List String) (m : SubnetMap) :
    ∃ m', ExtractEmptySubnets.names subnet nms m = .ok m' ∧
      ∀ k, m' k = if k = name ∧ name ∈ nms then none else m k := by
  induction nms with
  | nil => exact ⟨m, rfl, fun k => by simp⟩
  | cons n rest ih =>
    obtain ⟨m', hrun, hm'⟩ := ih
    by_cases hn : name = n
    · subst hn
      cases hsome : m name with
      | some v =>
        refine ⟨m.delete name, by simp [ExtractEmptySubnets.names, hname, hsome], ?_⟩
        intro k
        by_cases hk : k = name <;> simp [SubnetMap.delete, hk]
      | none =>
        refine ⟨m', by simp [ExtractEmptySubnets.names, hname, hsome, hrun], ?_⟩
        intro k
        rw [hm' k]
        by_cases hk : k = name
        · subst hk
          by_cases hr : k ∈ rest <;> simp [hr, hsome]
        · simp [hk]
    · refine ⟨m', by simp [ExtractEmptySubnets.names, hname, hn, hrun], ?_⟩
      intro k
      rw [hm' k]
      simp [hn]

theorem subnets_spec (vmGroup : VmGroup) (xs : List Subnet) (m : SubnetMap)
    (hnames : ∀ s ∈ xs, s.Name ≠ none) :
    ∃ m', ExtractEmptySubnets.subnets vmGroup xs m = .ok m' ∧
      ∀ k, m' k =
        if (∃ s ∈ xs, s.Name = some k) ∧ k ∈ elems vmGroup.SubnetNames then none else m k := by
  induction xs generalizing m with
  | nil => exact ⟨m, rfl, fun k => by simp⟩
  | cons x rest ih =>
    have hx : x.Name ≠ none := hnames x (by simp)
    obtain ⟨name, hname⟩ := Option.ne_none_iff_exists'.1 hx
    obtain ⟨m1, hrun1, hm1⟩ := names_spec x name hname (elems vmGroup.SubnetNames) m
    obtain ⟨m', hrun, hm'⟩ := ih m1 (fun s hs => hnames s (List.mem_cons_of_mem _ hs))
    refine ⟨m', by simp [ExtractEmptySubnets.subnets, hrun1, hrun], ?_⟩
    intro k
    rw [hm' k, hm1 k]
    have hex : (∃ s ∈ x :: rest, s.Name = some k) ↔
        (k = name ∨ ∃ s ∈ rest, s.Name = some k) := by
      constructor
      · rintro ⟨s, hs, h⟩
        rcases List.mem_cons.1 hs with h' | h'
        · subst h'
          rw [hname] at h
          exact Or.inl (Option.some.inj h).symm
        · exact Or.inr ⟨s, h', h⟩
      · rintro (h | ⟨s, hs, h⟩)
        · exact ⟨x, by simp, by rw [hname, h]⟩
        · exact ⟨s, List.mem_cons_of_mem _ hs, h⟩
    by_cases hin : k ∈ elems vmGroup.SubnetNames
    · by_cases hr : ∃ s ∈ rest, s.Name = some k
      · rw [if_pos ⟨hr, hin⟩, if_pos ⟨hex.2 (Or.inr hr), hin⟩]
      · rw [if_neg (fun h => hr h.1)]
        by_cases hk : k = name
        · rw [if_pos ⟨hk, hk ▸ hin⟩, if_pos ⟨hex.2 (Or.inl hk), hin⟩]
        · rw [if_neg (fun h => hk h.1), if_neg (fun h => (hex.1 h.1).elim hk hr)]
    · have h1 : ¬ ((∃ s ∈ rest, s.Name = some k) ∧ k ∈ elems vmGroup.SubnetNames) :=
        fun h => hin h.2
      have h2 : ¬ (k = name ∧ name ∈ elems vmGroup.SubnetNames) := fun h => hin (h.1 ▸ h.2)
      have h3 : ¬ ((∃ s ∈ x :: rest, s.Name = some k) ∧ k ∈ elems vmGroup.SubnetNames) :=
        fun h => hin h.2
      rw [if_neg h1, if_neg h2, if_neg h3]

theorem groups_spec (xs : List Subnet) (gs : List VmGroup) (m : SubnetMap)
    (hnames : ∀ s ∈ xs, s.Name ≠ none) :
    ∃ m', ExtractEmptySubnets.groups xs gs m = .ok m' ∧
      ∀ k, m' k =
        if (∃ s ∈ xs, s.Name = some k) ∧ (∃ g ∈ gs, k ∈ elems g.SubnetNames) then none
        else m k := by
  induction gs generalizing m with
  | nil => exact ⟨m, rfl, fun k => by simp⟩
  | cons g rest ih =>
    obtain ⟨m1, hrun1, hm1⟩ := subnets_spec g xs m hnames
    obtain ⟨m', hrun, hm'⟩ := ih m1
    refine ⟨m', by simp [ExtractEmptySubnets.groups, hrun1, hrun], ?_⟩
    intro k
    rw [hm' k, hm1 k]
    have hex : (∃ g' ∈ g :: rest, k ∈ elems g'.SubnetNames) ↔
        (k ∈ elems g.SubnetNames ∨ ∃ g' ∈ rest, k ∈ elems g'.SubnetNames) := by
      constructor
      · rintro ⟨g', hg', h⟩
        rcases List.mem_cons.1 hg' with h' | h'
        · subst h'
          exact Or.inl h
        · exact Or.inr ⟨g', h', h⟩
      · rintro (h | ⟨g', hg', h⟩)
        · exact ⟨g, by simp, h⟩
        · exact ⟨g', List.mem_cons_of_mem _ hg', h⟩
    by_cases hs : ∃ s ∈ xs, s.Name = some k
    · by_cases hr : ∃ g' ∈ rest, k ∈ elems g'.SubnetNames
      · rw [if_pos ⟨hs, hr⟩, if_pos ⟨hs, hex.2 (Or.inr hr)⟩]
      · rw [if_neg (fun h => hr h.2)]
        by_cases hg : k ∈ elems g.SubnetNames
        · rw [if_pos ⟨hs, hg⟩, if_pos ⟨hs, hex.2 (Or.inl hg)⟩]
        · rw [if_neg (fun h => hg h.2), if_neg (fun h => (hex.1 h.2).elim hg hr)]
    · have h1 : ¬ ((∃ s ∈ xs, s.Name = some k) ∧ ∃ g' ∈ rest, k ∈ elems g'.SubnetNames) :=
        fun h => hs h.1
      have h2 : ¬ ((∃ s ∈ xs, s.Name = some k) ∧ k ∈ elems g.SubnetNames) := fun h => hs h.1
      have h3 : ¬ ((∃ s ∈ xs, s.Name = some k) ∧
          ∃ g' ∈ g :: rest, k ∈ elems g'.SubnetNames) := fun h => hs h.1
      rw [if_neg h1, if_neg h2, if_neg h3]

theorem result_spec (m : SubnetMap) (xs acc : List Subnet) (hnames : ∀ s ∈ xs, s.Name ≠ none) :
    ExtractEmptySubnets.result m xs acc =
      .ok (acc ++ xs.filterMap (fun s => s.Name.bind m)) := by
  induction xs generalizing acc with
  | nil => simp [ExtractEmptySubnets.result]
  | cons x rest ih =>
    have hx : x.Name ≠ none := hnames x (by simp)
    obtain ⟨name, hname⟩ := Option.ne_none_iff_exists'.1 hx
    have ih' := fun acc => ih acc (fun s hs => hnames s (List.mem_cons_of_mem _ hs))
    cases hm : m name with
    | none => simp [ExtractEmptySubnets.result, hname, hm, ih', List.filterMap_cons]
    | some v => simp [ExtractEmptySubnets.result, hname, hm, ih', List.filterMap_cons]

theorem filterMap_eq_filter_of {α : Type} (f : α → Option α) (p : α → Bool) (xs : List α)
    (h : ∀ x ∈ xs, f x = if p x then some x else none) :
    xs.filterMap f = xs.filter p := by
  induction xs with
  | nil => rfl
  | cons x rest ih =>
    have hx := h x (by simp)
    have ih' := ih (fun y hy => h y (List.mem_cons_of_mem _ hy))
    by_cases hp : p x <;> simp [List.filterMap_cons, hx, hp, ih']

end azbi

namespace azbi

/-- The result of `ExtractEmptySubnets` past its three early returns, for subnets that all
have a name: the map values of the subnets whose name no VM group uses. -/
theorem ExtractEmptySubnets_main (p : Params) (hs : elems p.Subnets ≠ [])
    (hg : elems p.VmGroups ≠ []) (hnames : ∀ s ∈ elems p.Subnets, s.Name ≠ none) :
    ∃ m, ExtractEmptySubnets.fill (elems p.Subnets) (fun _ => none) = .ok m ∧
      Params.ExtractEmptySubnets (some p) =
        .ok (some ((elems p.Subnets).filterMap (fun s => s.Name.bind (fun k =>
          if (∃ s' ∈ elems p.Subnets, s'.Name = some k) ∧
              (∃ g ∈ elems p.VmGroups, k ∈ elems g.SubnetNames) then none else m k)))) := by
  obtain ⟨m1, hfill, -, -⟩ := fill_spec (elems p.Subnets) (fun _ => none) hnames
  obtain ⟨m2, hgroups, hm2⟩ := groups_spec (elems p.Subnets) (elems p.VmGroups) m1 hnames
  refine ⟨m1, hfill, ?_⟩
  have hsub : ¬ (p.Subnets = none ∨ (elems p.Subnets).length = 0) := by
    rintro (h | h)
    · exact hs (by simp [h, elems])
    · exact hs (List.length_eq_zero.1 h)
  have hgrp : ¬ (p.VmGroups = none ∨ (elems p.VmGroups).length = 0) := by
    rintro (h | h)
    · exact hg (by simp [h, elems])
    · exact hg (List.length_eq_zero.1 h)
  have hm2' : m2 = fun k =>
      if (∃ s' ∈ elems p.Subnets, s'.Name = some k) ∧
          (∃ g ∈ elems p.VmGroups, k ∈ elems g.SubnetNames) then none else m1 k :=
    funext hm2
  unfold Params.ExtractEmptySubnets
  simp only [hsub, hgrp, if_false, hfill, hgroups, result_spec m2 _ [] hnames, List.nil_append]
  rw [hm2']

theorem ExtractEmptySubnets_no_subnets (p : Params) (hs : elems p.Subnets = []) :
    Params.ExtractEmptySubnets (some p) = .ok none := by
  have h : p.Subnets = none ∨ (elems p.Subnets).length = 0 := Or.inr (by rw [hs]; rfl)
  simp only [Params.ExtractEmptySubnets]
  rw [if_pos h]

theorem ExtractEmptySubnets_no_groups (p : Params) (hs : elems p.Subnets ≠ [])
    (hg : elems p.VmGroups = []) : Params.ExtractEmptySubnets (some p) = .ok p.Subnets := by
  have hsub : ¬ (p.Subnets = none ∨ (elems p.Subnets).length = 0) := by
    rintro (h | h)
    · exact hs (by rw [h]; rfl)
    · exact hs (List.length_eq_zero.1 h)
  have h : p.VmGroups = none ∨ (elems p.VmGroups).length = 0 := Or.inr (by rw [hg]; rfl)
  simp only [Params.ExtractEmptySubnets]
  rw [if_neg hsub, if_pos h]

/-- C16, the code at the failing input: of two subnets that are both named "subnet1" and are
used by no VM group, `ExtractEmptySubnets` returns the second one twice and the first one not
at all, where the unassigned subnets as declared are the first and the second; on a subnet
whose `Name` is nil it does not return (nil dereference). -/
theorem C16_same_name_subnets_not_as_declared :
    Params.ExtractEmptySubnets (some examples.sameNameSubnets) =
      .ok (some [{ Name := some "subnet1", AddressPrefixes := some ["2.2.2.2/24"] },
                 { Name := some "subnet1", AddressPrefixes := some ["2.2.2.2/24"] }]) ∧
    (elems examples.sameNameSubnets.Subnets).filter (fun s =>
        ∀ g ∈ elems examples.sameNameSubnets.VmGroups, ∀ n ∈ elems g.SubnetNames,
          s.Name ≠ some n) =
      [{ Name := some "subnet1", AddressPrefixes := some ["1.1.1.1/24"] },
       { Name := some "subnet1", AddressPrefixes := some ["2.2.2.2/24"] }] ∧
    Params.ExtractEmptySubnets (some examples.namelessSubnet) = .error nilDereference :=
  ⟨rfl, by decide, rfl⟩

/-- C17: `ExtractEmptySubnets` returns nil for the nil receiver and when `Subnets` is nil or
empty; it returns `Subnets` when there is a subnet and `VmGroups` is nil or empty; and it
returns the empty slice that is not nil when there is a subnet and a VM group and the name
of every subnet is among the `SubnetNames` of some VM group. -/
theorem C17_ExtractEmptySubnets_edge_cases (p : Params) :
    Params.ExtractEmptySubnets none = .ok none ∧
    (elems p.Subnets = [] → Params.ExtractEmptySubnets (some p) = .ok none) ∧
    (elems p.Subnets ≠ [] → elems p.VmGroups = [] →
      Params.ExtractEmptySubnets (some p) = .ok p.Subnets) ∧
    (elems p.Subnets ≠ [] → elems p.VmGroups ≠ [] →
      (∀ s ∈ elems p.Subnets, ∃ g ∈ elems p.VmGroups, ∃ n ∈ elems g.SubnetNames,
        s.Name = some n) →
      Params.ExtractEmptySubnets (some p) = .ok (some [])) := by
  refine ⟨rfl, ExtractEmptySubnets_no_subnets p, ExtractEmptySubnets_no_groups p, ?_⟩
  intro hs hg hall
  have hnames : ∀ s ∈ elems p.Subnets, s.Name ≠ none := by
    intro s hmem h
    obtain ⟨g, -, n, -, hn⟩ := hall s hmem
    rw [h] at hn
    cases hn
  obtain ⟨m, -, hrun⟩ := ExtractEmptySubnets_main p hs hg hnames
  rw [hrun]
  congr 2
  rw [List.filterMap_eq_nil_iff]
  intro s hmem
  obtain ⟨g, hg', n, hn, hname⟩ := hall s hmem
  have hc : (∃ s' ∈ elems p.Subnets, s'.Name = some n) ∧
      (∃ g ∈ elems p.VmGroups, n ∈ elems g.SubnetNames) := ⟨⟨s, hmem, hname⟩, ⟨g, hg', hn⟩⟩
  rw [hname]
  simp only [Option.some_bind]
  rw [if_pos hc]

/-- C17, instance: the tests "empty subnets", "nil vm_groups" and "no empty subnets". -/
theorem C17_ExtractEmptySubnets_edge_cases_witness :
    Params.ExtractEmptySubnets (some { Subnets := some [] }) = .ok none ∧
    Params.ExtractEmptySubnets (some
        { Subnets := some [{ Name := some "subnet1", AddressPrefixes := some ["1.1.1.1/24"] }],
          VmGroups := none }) =
      .ok (some [{ Name := some "subnet1", AddressPrefixes := some ["1.1.1.1/24"] }]) ∧
    Params.ExtractEmptySubnets (some
        { Subnets := some [{ Name := some "subnet1", AddressPrefixes := some ["1.1.1.1/24"] }],
          VmGroups := some [{ SubnetNames := some ["subnet1"] }] }) = .ok (some []) :=
  ⟨(C17_ExtractEmptySubnets_edge_cases { Subnets := some [] }).2.1 rfl,
   (C17_ExtractEmptySubnets_edge_cases
      { Subnets := some [{ Name := some "subnet1", AddressPrefixes := some ["1.1.1.1/24"] }],
        VmGroups := none }).2.2.1 (by decide) rfl,
   (C17_ExtractEmptySubnets_edge_cases
      { Subnets := some [{ Name := some "subnet1", AddressPrefixes := some ["1.1.1.1/24"] }],
        VmGroups := some [{ SubnetNames := some ["subnet1"] }] }).2.2.2 (by decide)
      (by decide) (by decide)⟩

end azbi

/-! ## The module helper -/

namespace imh

theorem Initialize_load_routing (w : World) (moduleVersion : String) (d : Doc)
    (path format : String) (before : List Call) :
    ∃ calls out,
      Initialize.load w moduleVersion d path format before = (before ++ calls, out) ∧
      Routing w true moduleVersion d path format before calls out := by
  unfold Initialize.load perform
  cases hload : w before (.Load d path) with
  | none =>
    exact ⟨[.Load d path], none, by simp [os.IsNotExist, errors.AsNotCurrentVersionError],
      Routing.loaded hload⟩
  | some err =>
    by_cases hne : os.IsNotExist (some err) = true
    · exact ⟨[.Load d path, .Init d moduleVersion], none, by simp [hne],
        Routing.initialised err rfl hload hne⟩
    · by_cases hncv : ∃ v, err = .NotCurrentVersionError v
      · obtain ⟨v, rfl⟩ := hncv
        cases hup : w (before ++ [.Load d path]) (.Upgrade d path) with
        | none =>
          exact ⟨[.Load d path, .Upgrade d path], none,
            by simp [os.IsNotExist, errors.AsNotCurrentVersionError, hup],
            Routing.upgraded v hload hup⟩
        | some err2 =>
          exact ⟨[.Load d path, .Upgrade d path], some (.same err2),
            by simp [os.IsNotExist, errors.AsNotCurrentVersionError, hup],
            Routing.upgradeFailed v err2 hload hup⟩
      · have hfalse : os.IsNotExist (some err) = false := by simpa using hne
        refine ⟨[.Load d path], some (.Errorf format (some err)), ?_,
          Routing.loadFailed err hload (fun _ => hfalse) (fun v h => hncv ⟨v, h⟩)⟩
        cases err <;> simp [os.IsNotExist, errors.AsNotCurrentVersionError] at hne hncv ⊢

theorem Load_load_routing (w : World) (moduleVersion : String) (d : Doc)
    (path format : String) (before : List Call) :
    ∃ calls out,
      Load.load w d path format before = (before ++ calls, out) ∧
      Routing w false moduleVersion d path format before calls out := by
  unfold Load.load perform
  cases hload : w before (.Load d path) with
  | none =>
    exact ⟨[.Load d path], none, by simp [errors.AsNotCurrentVersionError],
      Routing.loaded hload⟩
  | some err =>
    by_cases hncv : ∃ v, err = .NotCurrentVersionError v
    · obtain ⟨v, rfl⟩ := hncv
      cases hup : w (before ++ [.Load d path]) (.Upgrade d path) with
      | none =>
        exact ⟨[.Load d path, .Upgrade d path], none,
          by simp [errors.AsNotCurrentVersionError, hup], Routing.upgraded v hload hup⟩
      | some err2 =>
        exact ⟨[.Load d path, .Upgrade d path], some (.same err2),
          by simp [errors.AsNotCurrentVersionError, hup],
          Routing.upgradeFailed v err2 hload hup⟩
    · refine ⟨[.Load d path], some (.Errorf format (some err)), ?_,
        Routing.loadFailed err hload (fun h => by cases h) (fun v h => hncv ⟨v, h⟩)⟩
      cases err <;> simp [errors.AsNotCurrentVersionError] at hncv ⊢

/-- The calls of a routing are a `Load`, then possibly an `Init` or an `Upgrade`, all on the
routed document; an `Init` only with the fallback. -/
theorem Routing_calls (w : World) (fallback : Bool) (moduleVersion : String) (d : Doc)
    (path format : String) (before calls : List Call) (out : Option Failure)
    (h : Routing w fallback moduleVersion d path format before calls out) :
    (calls = [.Load d path] ∨ (fallback = true ∧ calls = [.Load d path, .Init d moduleVersion]) ∨
      calls = [.Load d path, .Upgrade d path]) := by
  cases h with
  | loaded _ => exact Or.inl rfl
  | initialised err hf _ _ => exact Or.inr (Or.inl ⟨hf, rfl⟩)
  | upgraded v _ _ => exact Or.inr (Or.inr rfl)
  | upgradeFailed v err2 _ _ => exact Or.inr (Or.inr rfl)
  | loadFailed err _ _ _ => exact Or.inl rfl

/-- The calls of `backup` follow the calls made before it and are `MkdirAll` and `Backup`
calls. -/
theorem backup_calls (w : World) (join : String → String → String) (now dir : String)
    (before : List Call) :
    ∃ rest, (backup w join now dir before).1 = before ++ rest ∧
      ∀ c ∈ rest, (∃ p, c = .MkdirAll p) ∨ (∃ d p, c = .Backup d p) := by
  unfold backup perform
  simp only
  cases w before (.MkdirAll (join dir backupDirectoryName)) with
  | some err => exact ⟨[.MkdirAll (join dir backupDirectoryName)], rfl, by simp⟩
  | none =>
    simp only
    cases w (before ++ [.MkdirAll (join dir backupDirectoryName)])
        (.Backup .config (join (join dir backupDirectoryName) ("config-" ++ now ++ ".json"))) with
    | some err =>
      exact ⟨[.MkdirAll (join dir backupDirectoryName),
        .Backup .config (join (join dir backupDirectoryName) ("config-" ++ now ++ ".json"))],
        by simp, by simp⟩
    | none =>
      simp only
      cases w (before ++ [.MkdirAll (join dir backupDirectoryName)] ++
          [.Backup .config (join (join dir backupDirectoryName) ("config-" ++ now ++ ".json"))])
          (.Backup .state (join (join dir backupDirectoryName) ("state-" ++ now ++ ".json"))) with
      | some err =>
        exact ⟨[.MkdirAll (join dir backupDirectoryName),
          .Backup .config (join (join dir backupDirectoryName) ("config-" ++ now ++ ".json")),
          .Backup .state (join (join dir backupDirectoryName) ("state-" ++ now ++ ".json"))],
          by simp, by simp⟩
      | none =>
        exact ⟨[.MkdirAll (join dir backupDirectoryName),
          .Backup .config (join (join dir backupDirectoryName) ("config-" ++ now ++ ".json")),
          .Backup .state (join (join dir backupDirectoryName) ("state-" ++ now ++ ".json"))],
          by simp, by simp⟩

end imh

namespace imh

/-- `Initialize` past its checks and the first `MkdirAll`: both documents are routed in
turn, the state first, and `backup` runs after both. -/
theorem Initialize_stages (h : InfrastructureModuleHelper) (w : World)
    (join : String → String → String) (now : String)
    (hdir : h.ModuleDirectoryPath ≠ "") (hver : h.ModuleVersion ≠ "")
    (hmk : w [] (.MkdirAll h.ModuleDirectoryPath) = none) :
    ∃ sCalls sOut,
      Routing w true h.ModuleVersion .state (join h.ModuleDirectoryPath stateFileName)
        "load state failed: %v" [.MkdirAll h.ModuleDirectoryPath] sCalls sOut ∧
      match sOut with
      | some err =>
        h.Initialize w join now =
          ([.MkdirAll h.ModuleDirectoryPath] ++ sCalls, ⟨none, none, some err⟩)
      | none =>
        ∃ cCalls cOut,
          Routing w true h.ModuleVersion .config (join h.ModuleDirectoryPath configFileName)
            "load config failed: %v" ([.MkdirAll h.ModuleDirectoryPath] ++ sCalls) cCalls cOut ∧
          match cOut with
          | some err =>
            h.Initialize w join now =
              ([.MkdirAll h.ModuleDirectoryPath] ++ sCalls ++ cCalls, ⟨none, none, some err⟩)
          | none =>
            h.Initialize w join now =
              ((backup w join now h.ModuleDirectoryPath
                  ([.MkdirAll h.ModuleDirectoryPath] ++ sCalls ++ cCalls)).1,
                match (backup w join now h.ModuleDirectoryPath
                  ([.MkdirAll h.ModuleDirectoryPath] ++ sCalls ++ cCalls)).2 with
                | some err => ⟨none, none, some err⟩
                | none => ⟨some .config, some .state, none⟩) := by
  obtain ⟨sCalls, sOut, hs, hsR⟩ := Initialize_load_routing w h.ModuleVersion .state
    (join h.ModuleDirectoryPath stateFileName) "load state failed: %v"
    [.MkdirAll h.ModuleDirectoryPath]
  refine ⟨sCalls, sOut, hsR, ?_⟩
  unfold InfrastructureModuleHelper.Initialize
  simp only [if_neg hdir, if_neg hver, perform, hmk, List.nil_append, hs]
  cases sOut with
  | some err => rfl
  | none =>
    simp only
    obtain ⟨cCalls, cOut, hc, hcR⟩ := Initialize_load_routing w h.ModuleVersion .config
      (join h.ModuleDirectoryPath configFileName) "load config failed: %v"
      ([.MkdirAll h.ModuleDirectoryPath] ++ sCalls)
    refine ⟨cCalls, cOut, hcR, ?_⟩
    simp only [hc]
    cases cOut with
    | some err => rfl
    | none =>
      simp only
      cases hb : backup w join now h.ModuleDirectoryPath
          ([.MkdirAll h.ModuleDirectoryPath] ++ sCalls ++ cCalls) with
      | mk calls out =>
        cases out <;> rfl

end imh

namespace imh

theorem Routing_no_Backup (w : World) (fallback : Bool) (moduleVersion : String) (d : Doc)
    (path format : String) (before calls : List Call) (out : Option Failure)
    (h : Routing w fallback moduleVersion d path format before calls out) (d' : Doc)
    (p : String) : Call.Backup d' p ∉ calls := by
  rcases Routing_calls w fallback moduleVersion d path format before calls out h with
    h | ⟨-, h⟩ | h <;> simp [h]

theorem Initialize_result_shape (h : InfrastructureModuleHelper) (w : World)
    (join : String → String → String) (now : String) :
    (h.Initialize w join now).2 = ⟨some .config, some .state, none⟩ ∨
      ∃ err, (h.Initialize w join now).2 = ⟨none, none, some err⟩ := by
  by_cases hdir : h.ModuleDirectoryPath = ""
  · exact Or.inr ⟨.Errorf "setup module directory path first" none,
      by simp [InfrastructureModuleHelper.Initialize, hdir]⟩
  by_cases hver : h.ModuleVersion = ""
  · exact Or.inr ⟨.Errorf "setup module version first" none,
      by simp [InfrastructureModuleHelper.Initialize, hdir, hver]⟩
  cases hmk : w [] (.MkdirAll h.ModuleDirectoryPath) with
  | some err =>
    exact Or.inr ⟨.same err,
      by simp [InfrastructureModuleHelper.Initialize, hdir, hver, perform, hmk]⟩
  | none =>
    obtain ⟨sCalls, sOut, -, hrest⟩ := Initialize_stages h w join now hdir hver hmk
    cases sOut with
    | some err =>
      simp only at hrest
      exact Or.inr ⟨err, by rw [hrest]⟩
    | none =>
      simp only at hrest
      obtain ⟨cCalls, cOut, -, hrest⟩ := hrest
      cases cOut with
      | some err =>
        simp only at hrest
        exact Or.inr ⟨err, by rw [hrest]⟩
      | none =>
        simp only at hrest
        rw [hrest]
        cases (backup w join now h.ModuleDirectoryPath
          ([.MkdirAll h.ModuleDirectoryPath] ++ sCalls ++ cCalls)).2 with
        | some err => exact Or.inr ⟨err, rfl⟩
        | none => exact Or.inl rfl

/-- C18: past its checks and the first `MkdirAll`, `Initialize` obtains the state and then the
config, each by the routing of the specification (`Load`; `Init` after a not-exist error;
`Upgrade` after a `NotCurrentVersionError`, whose error is returned; "load state failed" or
"load config failed" for another error), returns at the first failure, and runs `backup`
after both; every `Backup` call comes after both documents were obtained; a returned error
comes with nil documents, and no error with both documents. -/
theorem C18_Initialize_routes_on_Load (h : InfrastructureModuleHelper) (w : World)
    (join : String → String → String) (now : String) :
    (h.ModuleDirectoryPath ≠ "" → h.ModuleVersion ≠ "" →
      w [] (.MkdirAll h.ModuleDirectoryPath) = none →
      ∃ sCalls sOut,
        Routing w true h.ModuleVersion .state (join h.ModuleDirectoryPath stateFileName)
          "load state failed: %v" [.MkdirAll h.ModuleDirectoryPath] sCalls sOut ∧
        match sOut with
        | some err =>
          h.Initialize w join now =
            ([.MkdirAll h.ModuleDirectoryPath] ++ sCalls, ⟨none, none, some err⟩)
        | none =>
          ∃ cCalls cOut,
            Routing w true h.ModuleVersion .config (join h.ModuleDirectoryPath configFileName)
              "load config failed: %v" ([.MkdirAll h.ModuleDirectoryPath] ++ sCalls)
              cCalls cOut ∧
            match cOut with
            | some err =>
              h.Initialize w join now =
                ([.MkdirAll h.ModuleDirectoryPath] ++ sCalls ++ cCalls,
                  ⟨none, none, some err⟩)
            | none =>
              h.Initialize w join now =
                ((backup w join now h.ModuleDirectoryPath
                    ([.MkdirAll h.ModuleDirectoryPath] ++ sCalls ++ cCalls)).1,
                  match (backup w join now h.ModuleDirectoryPath
                    ([.MkdirAll h.ModuleDirectoryPath] ++ sCalls ++ cCalls)).2 with
                  | some err => ⟨none, none, some err⟩
                  | none => ⟨some .config, some .state, none⟩)) ∧
    (∀ d p, Call.Backup d p ∈ (h.Initialize w join now).1 →
      ∃ sCalls cCalls rest,
        Routing w true h.ModuleVersion .state (join h.ModuleDirectoryPath stateFileName)
          "load state failed: %v" [.MkdirAll h.ModuleDirectoryPath] sCalls none ∧
        Routing w true h.ModuleVersion .config (join h.ModuleDirectoryPath configFileName)
          "load config failed: %v" ([.MkdirAll h.ModuleDirectoryPath] ++ sCalls) cCalls none ∧
        (h.Initialize w join now).1 =
          [.MkdirAll h.ModuleDirectoryPath] ++ sCalls ++ cCalls ++ rest ∧
        Call.Backup d p ∈ rest) ∧
    ((h.Initialize w join now).2.err ≠ none →
      (h.Initialize w join now).2.config = none ∧ (h.Initialize w join now).2.state = none) ∧
    ((h.Initialize w join now).2.err = none →
      (h.Initialize w join now).2.config = some .config ∧
      (h.Initialize w join now).2.state = some .state) := by
  refine ⟨Initialize_stages h w join now, ?_, ?_, ?_⟩
  · intro d p hmem
    by_cases hdir : h.ModuleDirectoryPath = ""
    · simp [InfrastructureModuleHelper.Initialize, hdir] at hmem
    by_cases hver : h.ModuleVersion = ""
    · simp [InfrastructureModuleHelper.Initialize, hdir, hver] at hmem
    cases hmk : w [] (.MkdirAll h.ModuleDirectoryPath) with
    | some err => simp [InfrastructureModuleHelper.Initialize, hdir, hver, perform, hmk] at hmem
    | none =>
      obtain ⟨sCalls, sOut, hsR, hrest⟩ := Initialize_stages h w join now hdir hver hmk
      cases sOut with
      | some err =>
        simp only at hrest
        rw [hrest] at hmem
        have := Routing_no_Backup _ _ _ _ _ _ _ _ _ hsR d p
        simp [this] at hmem
      | none =>
        simp only at hrest
        obtain ⟨cCalls, cOut, hcR, hrest⟩ := hrest
        cases cOut with
        | some err =>
          simp only at hrest
          rw [hrest] at hmem
          have h1 := Routing_no_Backup _ _ _ _ _ _ _ _ _ hsR d p
          have h2 := Routing_no_Backup _ _ _ _ _ _ _ _ _ hcR d p
          simp [h1, h2] at hmem
        | none =>
          simp only at hrest
          obtain ⟨rest, hb, -⟩ := backup_calls w join now h.ModuleDirectoryPath
            ([.MkdirAll h.ModuleDirectoryPath] ++ sCalls ++ cCalls)
          have hcalls : (h.Initialize w join now).1 =
              [.MkdirAll h.ModuleDirectoryPath] ++ sCalls ++ cCalls ++ rest := by
            rw [hrest]
            exact hb
          refine ⟨sCalls, cCalls, rest, hsR, hcR, hcalls, ?_⟩
          rw [hcalls] at hmem
          have h1 := Routing_no_Backup _ _ _ _ _ _ _ _ _ hsR d p
          have h2 := Routing_no_Backup _ _ _ _ _ _ _ _ _ hcR d p
          simpa [h1, h2] using hmem
  · intro herr
    rcases Initialize_result_shape h w join now with hr | ⟨err, hr⟩
    · rw [hr] at herr
      exact absurd rfl herr
    · rw [hr]
      exact ⟨rfl, rfl⟩
  · intro herr
    rcases Initialize_result_shape h w join now with hr | ⟨err, hr⟩
    · rw [hr]
      exact ⟨rfl, rfl⟩
    · rw [hr] at herr
      cases herr

/-- C18, instance: with the state file missing and the config file at an old version the
calls are `Load` and `Init` of the state, `Load` and `Upgrade` of the config, and then the
backups; both documents are returned. -/
theorem C18_Initialize_routes_on_Load_witness :
    examples.helper.Initialize examples.freshStateOldConfig examples.join "20260102-030405.5" =
      ([.MkdirAll "/module", .Load .state "/module/state.json", .Init .state "v1.0.0",
        .Load .config "/module/config.json", .Upgrade .config "/module/config.json",
        .MkdirAll "/module/backup",
        .Backup .config "/module/backup/config-20260102-030405.5.json",
        .Backup .state "/module/backup/state-20260102-030405.5.json"],
       ⟨some .config, some .state, none⟩) ∧
    (examples.helper.Initialize examples.freshStateOldConfig examples.join
        "20260102-030405.5").2.config = some .config :=
  ⟨by decide,
   ((C18_Initialize_routes_on_Load examples.helper examples.freshStateOldConfig examples.join
      "20260102-030405.5").2.2.2 (by decide)).1⟩

end imh

namespace imh

/-- `Load` past its checks and the first `MkdirAll`: both documents are routed in turn, the
state first, without the fallback to `Init`, and `backup` runs after both. -/
theorem Load_stages (h : InfrastructureModuleHelper) (w : World)
    (join : String → String → String) (now : String)
    (hdir : h.ModuleDirectoryPath ≠ "") (hver : h.ModuleVersion ≠ "")
    (hmk : w [] (.MkdirAll h.ModuleDirectoryPath) = none) :
    ∃ sCalls sOut,
      Routing w false h.ModuleVersion .state (join h.ModuleDirectoryPath stateFileName)
        "load state failed: %v" [.MkdirAll h.ModuleDirectoryPath] sCalls sOut ∧
      match sOut with
      | some err =>
        h.Load w join now =
          ([.MkdirAll h.ModuleDirectoryPath] ++ sCalls, ⟨none, none, some err⟩)
      | none =>
        ∃ cCalls cOut,
          Routing w false h.ModuleVersion .config (join h.ModuleDirectoryPath configFileName)
            "load config failed: %v" ([.MkdirAll h.ModuleDirectoryPath] ++ sCalls) cCalls cOut ∧
          match cOut with
          | some err =>
            h.Load w join now =
              ([.MkdirAll h.ModuleDirectoryPath] ++ sCalls ++ cCalls, ⟨none, none, some err⟩)
          | none =>
            h.Load w join now =
              ((backup w join now h.ModuleDirectoryPath
                  ([.MkdirAll h.ModuleDirectoryPath] ++ sCalls ++ cCalls)).1,
                match (backup w join now h.ModuleDirectoryPath
                  ([.MkdirAll h.ModuleDirectoryPath] ++ sCalls ++ cCalls)).2 with
                | some err => ⟨none, none, some err⟩
                | none => ⟨some .config, some .state, none⟩) := by
  obtain ⟨sCalls, sOut, hs, hsR⟩ := Load_load_routing w h.ModuleVersion .state
    (join h.ModuleDirectoryPath stateFileName) "load state failed: %v"
    [.MkdirAll h.ModuleDirectoryPath]
  refine ⟨sCalls, sOut, hsR, ?_⟩
  unfold InfrastructureModuleHelper.Load
  simp only [if_neg hdir, if_neg hver, perform, hmk, List.nil_append, hs]
  cases sOut with
  | some err => rfl
  | none =>
    simp only
    obtain ⟨cCalls, cOut, hc, hcR⟩ := Load_load_routing w h.ModuleVersion .config
      (join h.ModuleDirectoryPath configFileName) "load config failed: %v"
      ([.MkdirAll h.ModuleDirectoryPath] ++ sCalls)
    refine ⟨cCalls, cOut, hcR, ?_⟩
    simp only [hc]
    cases cOut with
    | some err => rfl
    | none =>
      simp only
      cases hb : backup w join now h.ModuleDirectoryPath
          ([.MkdirAll h.ModuleDirectoryPath] ++ sCalls ++ cCalls) with
      | mk calls out =>
        cases out <;> rfl

theorem Routing_no_Init (w : World) (moduleVersion : String) (d : Doc)
    (path format : String) (before calls : List Call) (out : Option Failure)
    (h : Routing w false moduleVersion d path format before calls out) (d' : Doc)
    (mv : String) : Call.Init d' mv ∉ calls := by
  rcases Routing_calls w false moduleVersion d path format before calls out h with
    h | ⟨hf, -⟩ | h
  · simp [h]
  · cases hf
  · simp [h]

theorem Load_load_not_exist (w : World) (d : Doc) (path format : String) (before : List Call)
    (err : shared.Error) (hload : w before (.Load d path) = some err)
    (hne : os.IsNotExist (some err) = true) :
    Load.load w d path format before =
      (before ++ [.Load d path], some (.Errorf format (some err))) := by
  unfold Load.load perform
  cases err <;> simp [os.IsNotExist] at hne
  simp [hload, errors.AsNotCurrentVersionError]

/-- C19: `Load` makes no `Init` call.  Past its checks and the first `MkdirAll` it obtains
the state and then the config by the routing without fallback; a not-exist error of `Load`
of a document makes it return "load state failed" or "load config failed" with that error;
after a `NotCurrentVersionError` it does what `Initialize` does. -/
theorem C19_Load_never_initialises (h : InfrastructureModuleHelper) (w : World)
    (join : String → String → String) (now : String) :
    (∀ d mv, Call.Init d mv ∉ (h.Load w join now).1) ∧
    (h.ModuleDirectoryPath ≠ "" → h.ModuleVersion ≠ "" →
      w [] (.MkdirAll h.ModuleDirectoryPath) = none →
      (∃ sCalls sOut,
        Routing w false h.ModuleVersion .state (join h.ModuleDirectoryPath stateFileName)
          "load state failed: %v" [.MkdirAll h.ModuleDirectoryPath] sCalls sOut ∧
        match sOut with
        | some err =>
          h.Load w join now =
            ([.MkdirAll h.ModuleDirectoryPath] ++ sCalls, ⟨none, none, some err⟩)
        | none =>
          ∃ cCalls cOut,
            Routing w false h.ModuleVersion .config (join h.ModuleDirectoryPath configFileName)
              "load config failed: %v" ([.MkdirAll h.ModuleDirectoryPath] ++ sCalls)
              cCalls cOut ∧
            match cOut with
            | some err =>
              h.Load w join now =
                ([.MkdirAll h.ModuleDirectoryPath] ++ sCalls ++ cCalls,
                  ⟨none, none, some err⟩)
            | none =>
              h.Load w join now =
                ((backup w join now h.ModuleDirectoryPath
                    ([.MkdirAll h.ModuleDirectoryPath] ++ sCalls ++ cCalls)).1,
                  match (backup w join now h.ModuleDirectoryPath
                    ([.MkdirAll h.ModuleDirectoryPath] ++ sCalls ++ cCalls)).2 with
                  | some err => ⟨none, none, some err⟩
                  | none => ⟨some .config, some .state, none⟩)) ∧
      (∀ err, w [.MkdirAll h.ModuleDirectoryPath]
          (.Load .state (join h.ModuleDirectoryPath stateFileName)) = some err →
        os.IsNotExist (some err) = true →
        h.Load w join now =
          ([.MkdirAll h.ModuleDirectoryPath,
            .Load .state (join h.ModuleDirectoryPath stateFileName)],
           ⟨none, none, some (.Errorf "load state failed: %v" (some err))⟩)) ∧
      (w [.MkdirAll h.ModuleDirectoryPath]
          (.Load .state (join h.ModuleDirectoryPath stateFileName)) = none →
        ∀ err, w [.MkdirAll h.ModuleDirectoryPath,
            .Load .state (join h.ModuleDirectoryPath stateFileName)]
          (.Load .config (join h.ModuleDirectoryPath configFileName)) = some err →
        os.IsNotExist (some err) = true →
        h.Load w join now =
          ([.MkdirAll h.ModuleDirectoryPath,
            .Load .state (join h.ModuleDirectoryPath stateFileName),
            .Load .config (join h.ModuleDirectoryPath configFileName)],
           ⟨none, none, some (.Errorf "load config failed: %v" (some err))⟩))) ∧
    (∀ before d path format v moduleVersion,
      w before (.Load d path) = some (.NotCurrentVersionError v) →
      Load.load w d path format before =
        Initialize.load w moduleVersion d path format before) := by
  refine ⟨?_, ?_, ?_⟩
  · intro d mv hmem
    by_cases hdir : h.ModuleDirectoryPath = ""
    · simp [InfrastructureModuleHelper.Load, hdir] at hmem
    by_cases hver : h.ModuleVersion = ""
    · simp [InfrastructureModuleHelper.Load, hdir, hver] at hmem
    cases hmk : w [] (.MkdirAll h.ModuleDirectoryPath) with
    | some err => simp [InfrastructureModuleHelper.Load, hdir, hver, perform, hmk] at hmem
    | none =>
      obtain ⟨sCalls, sOut, hsR, hrest⟩ := Load_stages h w join now hdir hver hmk
      have h1 := Routing_no_Init _ _ _ _ _ _ _ _ hsR d mv
      cases sOut with
      | some err =>
        simp only at hrest
        rw [hrest] at hmem
        simp [h1] at hmem
      | none =>
        simp only at hrest
        obtain ⟨cCalls, cOut, hcR, hrest⟩ := hrest
        have h2 := Routing_no_Init _ _ _ _ _ _ _ _ hcR d mv
        cases cOut with
        | some err =>
          simp only at hrest
          rw [hrest] at hmem
          simp [h1, h2] at hmem
        | none =>
          simp only at hrest
          obtain ⟨rest, hb, hkind⟩ := backup_calls w join now h.ModuleDirectoryPath
            ([.MkdirAll h.ModuleDirectoryPath] ++ sCalls ++ cCalls)
          rw [hrest] at hmem
          simp only at hmem
          rw [hb] at hmem
          simp only [List.mem_append, List.mem_singleton, h1, h2, or_false, false_or] at hmem
          rcases hmem with hmem | hmem
          · cases hmem
          · rcases hkind _ hmem with ⟨p, hp⟩ | ⟨d', p, hp⟩ <;> cases hp
  · intro hdir hver hmk
    refine ⟨Load_stages h w join now hdir hver hmk, ?_, ?_⟩
    · intro err hload hne
      unfold InfrastructureModuleHelper.Load
      simp only [if_neg hdir, if_neg hver, perform, hmk, List.nil_append,
        Load_load_not_exist w .state _ _ _ err hload hne]
      rfl
    · intro hstate err hload hne
      have hs : Load.load w .state (join h.ModuleDirectoryPath stateFileName)
          "load state failed: %v" [.MkdirAll h.ModuleDirectoryPath] =
          ([.MkdirAll h.ModuleDirectoryPath,
            .Load .state (join h.ModuleDirectoryPath stateFileName)], none) := by
        simp [Load.load, perform, hstate, errors.AsNotCurrentVersionError]
      unfold InfrastructureModuleHelper.Load
      simp only [if_neg hdir, if_neg hver, perform, hmk, List.nil_append, hs,
        Load_load_not_exist w .config _ _ _ err hload hne]
      rfl
  · intro before d path format v moduleVersion hload
    simp [Load.load, Initialize.load, perform, hload, os.IsNotExist,
      errors.AsNotCurrentVersionError]

/-- C19, instance: with the config file missing `Load` returns "load config failed" with the
not-exist error after the two `Load` calls, where `Initialize` goes on with `Init`. -/
theorem C19_Load_never_initialises_witness :
    examples.helper.Load examples.missingConfig examples.join "20260102-030405.5" =
      ([.MkdirAll "/module", .Load .state "/module/state.json",
        .Load .config "/module/config.json"],
       ⟨none, none, some (.Errorf "load config failed: %v" (some .ErrNotExist))⟩) ∧
    (examples.helper.Initialize examples.missingConfig examples.join "20260102-030405.5").1 =
      [.MkdirAll "/module", .Load .state "/module/state.json",
        .Load .config "/module/config.json", .Init .config "v1.0.0",
        .MkdirAll "/module/backup",
        .Backup .config "/module/backup/config-20260102-030405.5.json",
        .Backup .state "/module/backup/state-20260102-030405.5.json"] :=
  ⟨((C19_Load_never_initialises examples.helper examples.missingConfig examples.join
      "20260102-030405.5").2.1 (by decide) (by decide) rfl).2.2 rfl .ErrNotExist rfl rfl,
   by decide⟩

end imh

namespace imh

/-- C20: past its checks and `MkdirAll`, `Save` saves the state first.  When that fails the
error is returned as it is and the config is not saved; when it succeeds the config is saved
next and an error of that call is returned as it is.  In every run a `Save` of the config
comes right after a `Save` of the state that gave no error. -/
theorem C20_Save_state_then_config (h : InfrastructureModuleHelper) (w : World)
    (join : String → String → String) :
    (h.ModuleDirectoryPath ≠ "" → h.ModuleVersion ≠ "" →
      w [] (.MkdirAll h.ModuleDirectoryPath) = none →
      (∀ err, w [.MkdirAll h.ModuleDirectoryPath]
          (.Save .state (join h.ModuleDirectoryPath stateFileName)) = some err →
        h.Save w join =
          ([.MkdirAll h.ModuleDirectoryPath,
            .Save .state (join h.ModuleDirectoryPath stateFileName)], some (.same err))) ∧
      (w [.MkdirAll h.ModuleDirectoryPath]
          (.Save .state (join h.ModuleDirectoryPath stateFileName)) = none →
        h.Save w join =
          ([.MkdirAll h.ModuleDirectoryPath,
            .Save .state (join h.ModuleDirectoryPath stateFileName),
            .Save .config (join h.ModuleDirectoryPath configFileName)],
           (w [.MkdirAll h.ModuleDirectoryPath,
               .Save .state (join h.ModuleDirectoryPath stateFileName)]
              (.Save .config (join h.ModuleDirectoryPath configFileName))).map .same))) ∧
    (∀ p, Call.Save .config p ∈ (h.Save w join).1 →
      p = join h.ModuleDirectoryPath configFileName ∧
      (h.Save w join).1 =
        [.MkdirAll h.ModuleDirectoryPath,
          .Save .state (join h.ModuleDirectoryPath stateFileName), .Save .config p] ∧
      w [.MkdirAll h.ModuleDirectoryPath]
        (.Save .state (join h.ModuleDirectoryPath stateFileName)) = none) := by
  refine ⟨?_, ?_⟩
  · intro hdir hver hmk
    refine ⟨?_, ?_⟩
    · intro err hs
      simp [InfrastructureModuleHelper.Save, hdir, hver, perform, hmk, hs]
    · intro hs
      cases hc : w [.MkdirAll h.ModuleDirectoryPath,
          .Save .state (join h.ModuleDirectoryPath stateFileName)]
          (.Save .config (join h.ModuleDirectoryPath configFileName)) <;>
        simp [InfrastructureModuleHelper.Save, hdir, hver, perform, hmk, hs, hc]
  · intro p hmem
    by_cases hdir : h.ModuleDirectoryPath = ""
    · simp [InfrastructureModuleHelper.Save, hdir] at hmem
    by_cases hver : h.ModuleVersion = ""
    · simp [InfrastructureModuleHelper.Save, hdir, hver] at hmem
    cases hmk : w [] (.MkdirAll h.ModuleDirectoryPath) with
    | some err => simp [InfrastructureModuleHelper.Save, hdir, hver, perform, hmk] at hmem
    | none =>
      cases hs : w [.MkdirAll h.ModuleDirectoryPath]
          (.Save .state (join h.ModuleDirectoryPath stateFileName)) with
      | some err =>
        simp [InfrastructureModuleHelper.Save, hdir, hver, perform, hmk, hs] at hmem
      | none =>
        cases hc : w [.MkdirAll h.ModuleDirectoryPath,
            .Save .state (join h.ModuleDirectoryPath stateFileName)]
            (.Save .config (join h.ModuleDirectoryPath configFileName)) <;>
          simp [InfrastructureModuleHelper.Save, hdir, hver, perform, hmk, hs, hc] at hmem ⊢ <;>
          exact ⟨hmem, hmem.symm⟩

/-- C20, instance: when saving the state fails, `Save` returns that error and makes no
call for the config. -/
theorem C20_Save_state_then_config_witness :
    examples.helper.Save examples.stateSaveFails examples.join =
      ([.MkdirAll "/module", .Save .state "/module/state.json"],
       some (.same (.fileSystem "disk full"))) :=
  ((C20_Save_state_then_config examples.helper examples.stateSaveFails examples.join).1
    (by decide) (by decide) rfl).1 (.fileSystem "disk full") rfl

end imh

/-! ## Chains of tags -/

namespace validator

theorem chain_cons_true (ns field tag : String) (rest : List (String × Bool)) :
    chain ns field ((tag, true) :: rest) = chain ns field rest := by
  simp [chain, List.find?]

theorem chain_cons_false (ns field tag : String) (rest : List (String × Bool)) :
    chain ns field ((tag, false) :: rest) = [⟨ns ++ field, field, tag⟩] := by
  simp [chain, List.find?]

theorem chain_nil (ns field : String) : chain ns field [] = [] := rfl

/-- A chain reports at most one violation, on its own field, under one of its tags that
fails. -/
theorem chain_cases (ns field : String) (checks : List (String × Bool)) :
    chain ns field checks = [] ∨
      ∃ tag, (tag, false) ∈ checks ∧ chain ns field checks = [⟨ns ++ field, field, tag⟩] := by
  induction checks with
  | nil => exact Or.inl rfl
  | cons c rest ih =>
    obtain ⟨tag, b⟩ := c
    cases b with
    | true =>
      rw [chain_cons_true]
      rcases ih with h | ⟨t, ht, h⟩
      · exact Or.inl h
      · exact Or.inr ⟨t, List.mem_cons_of_mem _ ht, h⟩
    | false =>
      rw [chain_cons_false]
      exact Or.inr ⟨tag, List.mem_cons_self _ _, rfl⟩

theorem chain_field (ns field : String) (checks : List (String × Bool)) (e : FieldError)
    (h : e ∈ chain ns field checks) : e.Field = field := by
  rcases chain_cases ns field checks with h0 | ⟨tag, -, h1⟩
  · rw [h0] at h
    cases h
  · rw [h1, List.mem_singleton] at h
    rw [h]

/-- A chain whose tags all pass reports nothing. -/
theorem chain_pass (ns field : String) (checks : List (String × Bool))
    (h : ∀ c ∈ checks, c.2 = true) : chain ns field checks = [] := by
  rcases chain_cases ns field checks with h0 | ⟨tag, hmem, -⟩
  · exact h0
  · have := h _ hmem
    cases this

theorem filter_chain_other (ns field : String) (checks : List (String × Bool))
    (p : FieldError → Bool) (h : ∀ e : FieldError, e.Field = field → p e = false) :
    (chain ns field checks).filter p = [] := by
  rw [List.filter_eq_nil_iff]
  intro e he
  rw [h e (chain_field ns field checks e he)]
  simp

end validator

/-! ## The node pool of `azks` -/

namespace azks

open validator

/-- The violations on `Size`, `Min` and `Max` of a node pool in which the three are present
and not negative: on `Size` the first of `gtefield` and `ltefield` that fails, on `Max`
`gtefield`, in the order of the fields. -/
theorem DefaultNodePool_sizes (ns : String) (p : DefaultNodePool) (size min max : Int)
    (hs : p.Size = some size) (hmin : p.Min = some min) (hmax : p.Max = some max)
    (h0 : 0 ≤ size) (h1 : 0 ≤ min) (h2 : 0 ≤ max) :
    (DefaultNodePool.Struct ns p).filter
        (fun e => decide (e.Field = "Size" ∨ e.Field = "Min" ∨ e.Field = "Max")) =
      (if size < min then [⟨ns ++ "Size", "Size", "gtefield"⟩]
       else if max < size then [⟨ns ++ "Size", "Size", "ltefield"⟩] else []) ++
      (if max < min then [⟨ns ++ "Max", "Max", "gtefield"⟩] else []) := by
  have hother : ∀ (field : String) (checks : List (String × Bool)),
      field ≠ "Size" → field ≠ "Min" → field ≠ "Max" →
      (chain ns field checks).filter
        (fun e => decide (e.Field = "Size" ∨ e.Field = "Min" ∨ e.Field = "Max")) = [] := by
    intro field checks ha hb hc
    refine filter_chain_other ns field checks _ ?_
    intro e he
    simp [he, ha, hb, hc]
  simp only [DefaultNodePool.Struct, List.filter_append, hother "VmSize" _ (by decide)
    (by decide) (by decide), hother "DiskGbSize" _ (by decide) (by decide) (by decide),
    hother "AutoScaling" _ (by decide) (by decide) (by decide),
    hother "Type" _ (by decide) (by decide) (by decide), List.append_nil]
  simp only [hs, hmin, hmax, Option.isSome, minInt, gteField, lteField, holds, h0, h1, h2,
    decide_True, chain_cons_true, chain_nil, List.filter_nil, List.append_nil]
  by_cases ha : min ≤ size <;> by_cases hb : size ≤ max <;> by_cases hc : min ≤ max <;>
    simp [ha, hb, hc, chain_cons_true, chain_cons_false, chain_nil, not_lt.2, not_le.1]

/-- C21, counterexample: in a node pool with size 3, min 5 and max 2 the size lies above the
max, and the only violation on `Size` is tagged "gtefield"; none is tagged "ltefield". -/
theorem C21_ltefield_hidden_by_gtefield :
    examples.crossedPool.Size = some 3 ∧ examples.crossedPool.Min = some 5 ∧
    examples.crossedPool.Max = some 2 ∧
    DefaultNodePool.Struct "Config.Params.DefaultNodePool." examples.crossedPool =
      [⟨"Config.Params.DefaultNodePool.Size", "Size", "gtefield"⟩,
       ⟨"Config.Params.DefaultNodePool.Max", "Max", "gtefield"⟩] ∧
    (⟨"Config.Params.DefaultNodePool.Size", "Size", "ltefield"⟩ : FieldError) ∉
      DefaultNodePool.Struct "Config.Params.DefaultNodePool." examples.crossedPool := by
  decide

/-- C21, amended: in a node pool whose `Size`, `Min` and `Max` are present and not negative,
the violation on `Size` is tagged "gtefield" exactly when `Size < Min` and "ltefield" exactly
when `Min ≤ Size` and `Size > Max`; the violation on `Max` is tagged "gtefield" exactly when
`Max < Min`; there is none on `Min`; and there is none on the three fields exactly when
`Min ≤ Size ≤ Max`. -/
theorem C21_node_pool_ordering (ns : String) (p : DefaultNodePool) (size min max : Int)
    (hs : p.Size = some size) (hmin : p.Min = some min) (hmax : p.Max = some max)
    (h0 : 0 ≤ size) (h1 : 0 ≤ min) (h2 : 0 ≤ max) :
    ((DefaultNodePool.Struct ns p).filter
        (fun e => decide (e.Field = "Size" ∨ e.Field = "Min" ∨ e.Field = "Max")) =
      (if size < min then [⟨ns ++ "Size", "Size", "gtefield"⟩]
       else if max < size then [⟨ns ++ "Size", "Size", "ltefield"⟩] else []) ++
      (if max < min then [⟨ns ++ "Max", "Max", "gtefield"⟩] else [])) ∧
    ((∃ e ∈ DefaultNodePool.Struct ns p, e.Field = "Size" ∧ e.Tag = "gtefield") ↔
      size < min) ∧
    ((∃ e ∈ DefaultNodePool.Struct ns p, e.Field = "Size" ∧ e.Tag = "ltefield") ↔
      min ≤ size ∧ max < size) ∧
    ((∃ e ∈ DefaultNodePool.Struct ns p, e.Field = "Max" ∧ e.Tag = "gtefield") ↔
      max < min) ∧
    (∀ e ∈ DefaultNodePool.Struct ns p, e.Field ≠ "Min") ∧
    ((∀ e ∈ DefaultNodePool.Struct ns p,
        e.Field ≠ "Size" ∧ e.Field ≠ "Min" ∧ e.Field ≠ "Max") ↔ min ≤ size ∧ size ≤ max) := by
  have hf := DefaultNodePool_sizes ns p size min max hs hmin hmax h0 h1 h2
  have hmem : ∀ e : FieldError, (e ∈ DefaultNodePool.Struct ns p ∧
      (e.Field = "Size" ∨ e.Field = "Min" ∨ e.Field = "Max")) ↔
      ((size < min ∧ e = ⟨ns ++ "Size", "Size", "gtefield"⟩) ∨
       (min ≤ size ∧ max < size ∧ e = ⟨ns ++ "Size", "Size", "ltefield"⟩) ∨
       (max < min ∧ e = ⟨ns ++ "Max", "Max", "gtefield"⟩)) := by
    intro e
    have hm : (e ∈ DefaultNodePool.Struct ns p ∧
        (e.Field = "Size" ∨ e.Field = "Min" ∨ e.Field = "Max")) ↔
        e ∈ (DefaultNodePool.Struct ns p).filter
          (fun e => decide (e.Field = "Size" ∨ e.Field = "Min" ∨ e.Field = "Max")) := by
      rw [List.mem_filter, decide_eq_true_eq]
    rw [hm, hf]
    by_cases h3 : size < min <;> by_cases h4 : max < size <;> by_cases h5 : max < min <;>
      simp [h3, h4, h5, not_le.2, not_lt.1]
  refine ⟨hf, ⟨?_, ?_⟩, ⟨?_, ?_⟩, ⟨?_, ?_⟩, ?_, ⟨?_, ?_⟩⟩
  · rintro ⟨e, he, hfield, htag⟩
    rcases (hmem e).1 ⟨he, Or.inl hfield⟩ with ⟨h, -⟩ | ⟨-, -, h⟩ | ⟨-, h⟩
    · exact h
    · simp [h] at htag
    · simp [h] at hfield
  · intro hlt
    exact ⟨⟨ns ++ "Size", "Size", "gtefield"⟩, ((hmem _).2 (Or.inl ⟨hlt, rfl⟩)).1, rfl, rfl⟩
  · rintro ⟨e, he, hfield, htag⟩
    rcases (hmem e).1 ⟨he, Or.inl hfield⟩ with ⟨-, h⟩ | ⟨h3, h4, -⟩ | ⟨-, h⟩
    · simp [h] at htag
    · exact ⟨h3, h4⟩
    · simp [h] at hfield
  · rintro ⟨h3, h4⟩
    exact ⟨⟨ns ++ "Size", "Size", "ltefield"⟩,
      ((hmem _).2 (Or.inr (Or.inl ⟨h3, h4, rfl⟩))).1, rfl, rfl⟩
  · rintro ⟨e, he, hfield, htag⟩
    rcases (hmem e).1 ⟨he, Or.inr (Or.inr hfield)⟩ with ⟨-, h⟩ | ⟨-, -, h⟩ | ⟨h, -⟩
    · simp [h] at hfield
    · simp [h] at hfield
    · exact h
  · intro hlt
    exact ⟨⟨ns ++ "Max", "Max", "gtefield"⟩,
      ((hmem _).2 (Or.inr (Or.inr ⟨hlt, rfl⟩))).1, rfl, rfl⟩
  · intro e he hfield
    rcases (hmem e).1 ⟨he, Or.inr (Or.inl hfield)⟩ with ⟨-, h⟩ | ⟨-, -, h⟩ | ⟨-, h⟩ <;>
      · simp [h] at hfield
  · intro hall
    by_contra hne
    have hex : ∃ e : FieldError, e ∈ DefaultNodePool.Struct ns p ∧
        (e.Field = "Size" ∨ e.Field = "Min" ∨ e.Field = "Max") := by
      by_cases h3 : size < min
      · exact ⟨_, (hmem _).2 (Or.inl ⟨h3, rfl⟩)⟩
      · by_cases h4 : max < size
        · exact ⟨_, (hmem _).2 (Or.inr (Or.inl ⟨not_lt.1 h3, h4, rfl⟩))⟩
        · exact absurd ⟨not_lt.1 h3, not_lt.1 h4⟩ hne
    obtain ⟨e, he1, he2⟩ := hex
    obtain ⟨ha, hb, hc⟩ := hall e he1
    rcases he2 with h | h | h
    · exact ha h
    · exact hb h
    · exact hc h
  · rintro ⟨h3, h4⟩ e he
    by_contra hne
    have hfield : e.Field = "Size" ∨ e.Field = "Min" ∨ e.Field = "Max" := by
      by_contra hno
      exact hne ⟨fun h => hno (Or.inl h), fun h => hno (Or.inr (Or.inl h)),
        fun h => hno (Or.inr (Or.inr h))⟩
    rcases (hmem e).1 ⟨he, hfield⟩ with ⟨h, -⟩ | ⟨-, h, -⟩ | ⟨h, -⟩ <;> omega

/-- C21, witness: the node pool of the test "default_node_pool size > max" (size 4, min 2,
max 3) has the one violation "ltefield" on `Size`. -/
theorem C21_node_pool_ordering_witness :
    (DefaultNodePool.Struct "Config.Params.DefaultNodePool." examples.largePool).filter
        (fun e => decide (e.Field = "Size" ∨ e.Field = "Min" ∨ e.Field = "Max")) =
      [⟨"Config.Params.DefaultNodePool.Size", "Size", "ltefield"⟩] :=
  (C21_node_pool_ordering "Config.Params.DefaultNodePool." examples.largePool 4 2 3 rfl rfl rfl
    (by decide) (by decide) (by decide)).1

end azks

/-! ## `Unmarshal` of the empty object -/

namespace awsbi

open validator

/-- C22: `Unmarshal` of a text that holds the empty JSON object, called on a fresh `Config`
as `utils/load` and the tests call it, returns one `ValidationErrors` value with exactly
three violations, "required" on `Kind`, on `Version` and on `Params`, for `awsbi` and for
`azks`; the decoder is taken to leave a receiver as it is when the tree has no key. -/
theorem C22_empty_object_three_required (codec : json.Codec) (k : Checks)
    (adec : maps.Decoder awsbi.Config) (paramsTags : awsbi.Params → List FieldError)
    (structOf : Subnet → StructResult) (kdec : maps.Decoder azks.Config) (b : Bytes)
    (hparse : codec.decodeText b = .ok (.obj []))
    (ha : (adec {} []).err = none ∧ (adec {} []).target = {})
    (hk : (kdec {} []).err = none ∧ (kdec {} []).target = {}) :
    (awsbi.Config.Unmarshal codec adec (awsbi.Config.Struct k paramsTags structOf) {} b).2 =
      some (.ValidationErrors
        [⟨"Config.Kind", "Kind", "required"⟩, ⟨"Config.Version", "Version", "required"⟩,
         ⟨"Config.Params", "Params", "required"⟩]) ∧
    (azks.Config.Unmarshal codec kdec (azks.Config.Struct k) {} b).2 =
      some (.ValidationErrors
        [⟨"Config.Kind", "Kind", "required"⟩, ⟨"Config.Version", "Version", "required"⟩,
         ⟨"Config.Params", "Params", "required"⟩]) := by
  constructor
  · simp only [awsbi.Config.Unmarshal, json.Unmarshal, hparse, ha.1, ha.2]
    rfl
  · simp only [azks.Config.Unmarshal, json.Unmarshal, hparse, hk.1, hk.2]
    rfl

/-- C22, witness: the library instances of the examples. -/
theorem C22_empty_object_three_required_witness :
    (awsbi.Config.Unmarshal validator.examples.codecEmptyObject
        (validator.examples.idleDecoder awsbi.Config)
        (awsbi.Config.Struct validator.examples.checks (fun _ => []) (fun _ => .valid))
        {} [123, 125]).2 =
      some (.ValidationErrors
        [⟨"Config.Kind", "Kind", "required"⟩, ⟨"Config.Version", "Version", "required"⟩,
         ⟨"Config.Params", "Params", "required"⟩]) ∧
    (azks.Config.Unmarshal validator.examples.codecEmptyObject
        (validator.examples.idleDecoder azks.Config)
        (azks.Config.Struct validator.examples.checks) {} [123, 125]).2 =
      some (.ValidationErrors
        [⟨"Config.Kind", "Kind", "required"⟩, ⟨"Config.Version", "Version", "required"⟩,
         ⟨"Config.Params", "Params", "required"⟩]) :=
  C22_empty_object_three_required validator.examples.codecEmptyObject
    validator.examples.checks (validator.examples.idleDecoder awsbi.Config) (fun _ => [])
    (fun _ => .valid) (validator.examples.idleDecoder azks.Config) [123, 125] rfl
    ⟨rfl, rfl⟩ ⟨rfl, rfl⟩

end awsbi

/-! ## Validation of a state and of the config it embeds -/

namespace azbi

open validator shared

/-- C23, the code at the failing input: `danglingState` passes `State.Validate`, and the
config it embeds does not pass `Config.Validate`, which reports the subnet reference that
resolves nowhere. -/
theorem C23_State_Validate_skips_subnet_rule :
    State.Validate (State.Struct validator.examples.checks) (some examples.danglingState) =
      none ∧
    examples.danglingState.Config = some examples.danglingConfig ∧
    Config.Validate (Config.Struct (Config.tagErrors validator.examples.checks))
        (some examples.danglingConfig) =
      some (.ValidationErrors
        [⟨"Config.Params.VmGroups[0].SubnetNames[0]", "VmGroups[0].SubnetNames[0]",
          "insubnets"⟩]) := by
  decide

end azbi

/-! ## What is written of a document -/

namespace azbi

open validator shared

/-- Neither the value tree nor the validation of a config reads `Unused`. -/
theorem Config_Unused_unread (k : Checks) (c : Config) (u : Option (List String)) :
    Config.toJSON { c with Unused := u } = Config.toJSON c ∧
    Config.Struct (Config.tagErrors k) { c with Unused := u } =
      Config.Struct (Config.tagErrors k) c :=
  ⟨rfl, rfl⟩

/-- Neither the value tree nor the validation of a state reads `Unused`, its own or that of
the config it embeds. -/
theorem State_Unused_unread (k : Checks) (s : State) (u : Option (List String)) :
    State.toJSON { s with Unused := u } = State.toJSON s ∧
    State.Struct k { s with Unused := u } = State.Struct k s ∧
    (∀ c : Config, State.toJSON { s with Config := some { c with Unused := u } } =
      State.toJSON { s with Config := some c }) ∧
    (∀ c : Config, State.Struct k { s with Config := some { c with Unused := u } } =
      State.Struct k { s with Config := some c }) :=
  ⟨rfl, rfl, fun _ => rfl, fun _ => rfl⟩

/-- C24: two documents that differ in `Unused` only are printed, saved and backed up as the
same bytes, with the same error and the same file system afterwards, for `Config` and for
`State` (also when the difference is in the `Unused` of the config a state embeds); the value
tree that is written has the keys `meta` and `params`, respectively `meta`, `status`, `config`
and `output`, and no other key. -/
theorem C24_Unused_never_persisted (codec : json.Codec) (k : Checks) (fs : os.FS)
    (path : String) (c : Config) (s : State) (u u' : Option (List String)) :
    Config.Print codec (Config.Struct (Config.tagErrors k)) { c with Unused := u } =
      Config.Print codec (Config.Struct (Config.tagErrors k)) { c with Unused := u' } ∧
    Config.Save codec (Config.Struct (Config.tagErrors k)) fs { c with Unused := u } path =
      Config.Save codec (Config.Struct (Config.tagErrors k)) fs { c with Unused := u' } path ∧
    Config.Backup codec fs { c with Unused := u } path =
      Config.Backup codec fs { c with Unused := u' } path ∧
    State.Print codec (State.Struct k) { s with Unused := u } =
      State.Print codec (State.Struct k) { s with Unused := u' } ∧
    State.Save codec (State.Struct k) fs { s with Unused := u } path =
      State.Save codec (State.Struct k) fs { s with Unused := u' } path ∧
    State.Backup codec fs { s with Unused := u } path =
      State.Backup codec fs { s with Unused := u' } path ∧
    State.Print codec (State.Struct k) { s with Config := some { c with Unused := u } } =
      State.Print codec (State.Struct k) { s with Config := some { c with Unused := u' } } ∧
    (∃ m p, Config.toJSON c = .obj [("meta", m), ("params", p)]) ∧
    (∃ m st cf o, State.toJSON s =
      .obj [("meta", m), ("status", st), ("config", cf), ("output", o)]) :=
  ⟨rfl, rfl, rfl, rfl, rfl, rfl, rfl, ⟨_, _, rfl⟩, ⟨_, _, _, _, rfl⟩⟩

/-- C27: `State.Validate` gives the same result whatever the `Output` of the state is, nil
and the empty `Output` included: the violations it reports are those of the state with its
`Output` set to nil. -/
theorem C27_Output_not_validated (k : Checks) (s : State) (o o' : Option Output) :
    State.Struct k { s with Output := o } = State.Struct k { s with Output := o' } ∧
    State.Validate (State.Struct k) (some { s with Output := o }) =
      State.Validate (State.Struct k) (some { s with Output := o' }) ∧
    State.Validate (State.Struct k) (some { s with Output := o }) =
      State.Validate (State.Struct k) (some { s with Output := none }) ∧
    State.Validate (State.Struct k) (some { s with Output := some {} }) =
      State.Validate (State.Struct k) (some { s with Output := none }) := by
  have h : ∀ x : Option Output,
      State.Struct k { s with Output := x } = State.Struct k { s with Output := none } := by
    intro x
    cases x <;> simp [State.Struct, omitemptyStruct, Output.Struct]
  refine ⟨(h o).trans (h o').symm, ?_, ?_, ?_⟩ <;>
    simp only [State.Validate, h o, h o', h (some {})]

end azbi

/-! ## The default documents -/

namespace azbi

open validator shared

/-- The tags find nothing in the default config, given that the check of `version` accepts
the current version and the check of `cidr` the two address blocks of the default. -/
theorem Config_Init_tagErrors (k : Checks) (c : Config) (moduleVersion : String)
    (hv : k.version "~0" configVersion = true)
    (hc1 : k.cidr "10.0.0.0/16" = true) (hc2 : k.cidr "10.0.1.0/24" = true) :
    Config.tagErrors k (Config.Init c moduleVersion) = [] := by
  have l0 : decide (1 ≤ "unknown".length) = true := by decide
  have l1 : decide (1 ≤ "northeurope".length) = true := by decide
  have l2 : decide (1 ≤ "10.0.0.0/16".length) = true := by decide
  have l3 : decide (1 ≤ "main".length) = true := by decide
  have l4 : decide (1 ≤ "vm-group-0".length) = true := by decide
  have l5 : decide (1 ≤ "Standard_DS2_v2".length) = true := by decide
  have l6 : decide (1 ≤ "Canonical".length) = true := by decide
  have l7 : decide (1 ≤ "UbuntuServer".length) = true := by decide
  have l8 : decide (1 ≤ "18.04-LTS".length) = true := by decide
  have l9 : decide (1 ≤ "18.04.202006101".length) = true := by decide
  have l10 : decide (1 ≤ "operations".length) = true := by decide
  have l11 : decide (1 ≤ "/shared/vms_rsa.pub".length) = true := by decide
  simp [Config.tagErrors, Config.fields, Config.Init, requiredStruct, Meta.Struct,
    Params.Struct, Subnet.Struct, VmGroup.Struct, VmImage.Struct, DataDisk.Struct, dive,
    gather, elems, holds, minLen, minInt, chain_cons_true, chain_nil, hv, hc1, hc2,
    configKind, l0, l1, l2, l3, l4, l5, l6, l7, l8, l9, l10, l11]

/-- The tags find nothing in the default state, given that the check of `version` accepts
the current version. -/
theorem State_Init_Struct (k : Checks) (s : State) (moduleVersion : String)
    (hv : k.version "~0" stateVersion = true) :
    State.Struct k (State.Init s moduleVersion) = [] := by
  simp [State.Struct, State.Init, requiredStruct, omitemptyStruct, Meta.Struct, holds,
    chain_cons_true, chain_nil, hv, stateKind]

/-- `Save` of a document that validates, on a path where a file can be written. -/
theorem Save_of_valid {α : Type} (codec : json.Codec) (toJSON : α → JSON)
    (validate : α → Option Error) (fs : os.FS) (v : α) (path : String)
    (hvalid : validate v = none) (hfs : ∀ msg, fs path ≠ .faulty msg) :
    shared.Save (shared.Print validate (json.MarshalIndent codec toJSON)) fs v path =
      (fun p => if p = path then .file (codec.encodeIndent "" "\t" (toJSON v)) else fs p,
        none) := by
  cases h : fs path with
  | missing => simp [shared.Save, shared.Print, hvalid, json.MarshalIndent, ioutil.WriteFile, h]
  | file content =>
    simp [shared.Save, shared.Print, hvalid, json.MarshalIndent, ioutil.WriteFile, h]
  | faulty msg => exact absurd h (hfs msg)

/-- C29: for every module version the config of `Config.Init` and the state of `State.Init`
pass their `Validate` without a violation, given that the check behind `version` accepts the
two current versions and the check behind `cidr` the two address blocks of the default; the
subnet rule reports nothing on the default params; and `Save` of either document writes it
where a file can be written. -/
theorem C29_default_documents_valid (k : Checks) (codec : json.Codec) (fs : os.FS)
    (path : String) (c : Config) (s : State) (moduleVersion : String)
    (hv : k.version "~0" configVersion = true) (hs : k.version "~0" stateVersion = true)
    (hc1 : k.cidr "10.0.0.0/16" = true) (hc2 : k.cidr "10.0.1.0/24" = true) :
    Config.Struct (Config.tagErrors k) (Config.Init c moduleVersion) = [] ∧
    Config.Validate (Config.Struct (Config.tagErrors k)) (some (Config.Init c moduleVersion)) =
      none ∧
    (∃ params, (Config.Init c moduleVersion).Params = some params ∧
      AzBISubnetsValidation params = []) ∧
    State.Struct k (State.Init s moduleVersion) = [] ∧
    State.Validate (State.Struct k) (some (State.Init s moduleVersion)) = none ∧
    ((∀ msg, fs path ≠ .faulty msg) →
      Config.Save codec (Config.Struct (Config.tagErrors k)) fs (Config.Init c moduleVersion)
          path =
        (fun p => if p = path then
            .file (codec.encodeIndent "" "\t" (Config.toJSON (Config.Init c moduleVersion)))
          else fs p, none) ∧
      State.Save codec (State.Struct k) fs (State.Init s moduleVersion) path =
        (fun p => if p = path then
            .file (codec.encodeIndent "" "\t" (State.toJSON (State.Init s moduleVersion)))
          else fs p, none)) := by
  have h1 : Config.Struct (Config.tagErrors k) (Config.Init c moduleVersion) = [] := by
    simp only [Config.Struct, Config_Init_tagErrors k c moduleVersion hv hc1 hc2,
      List.nil_append]
    rfl
  have h2 : Config.Validate (Config.Struct (Config.tagErrors k))
      (some (Config.Init c moduleVersion)) = none := by
    simp only [Config.Validate, h1]
  have h3 := State_Init_Struct k s moduleVersion hs
  have h4 : State.Validate (State.Struct k) (some (State.Init s moduleVersion)) = none := by
    simp only [State.Validate, h3]
  refine ⟨h1, h2, ⟨_, rfl, by decide⟩, h3, h4, ?_⟩
  intro hfs
  exact ⟨Save_of_valid codec Config.toJSON _ fs _ path h2 hfs,
    Save_of_valid codec State.toJSON _ fs _ path h4 hfs⟩

/-- C29, witness: the defaults for the module version "v1.1.1" under the checks of the
examples. -/
theorem C29_default_documents_valid_witness :
    Config.Validate (Config.Struct (Config.tagErrors validator.examples.checks))
      (some (Config.Init {} "v1.1.1")) = none ∧
    State.Validate (State.Struct validator.examples.checks) (some (State.Init {} "v1.1.1")) =
      none :=
  ⟨(C29_default_documents_valid validator.examples.checks examples.codecOldConfig
      examples.fsOneFile "config.json" {} {} "v1.1.1" rfl rfl rfl rfl).2.1,
   (C29_default_documents_valid validator.examples.checks examples.codecOldConfig
      examples.fsOneFile "config.json" {} {} "v1.1.1" rfl rfl rfl rfl).2.2.2.2.1⟩

end azbi

/-! ## The first bad reference -/

/-- In a list with an element that fails `P` there is a first such element. -/
theorem exists_first_failing {α : Type} (P : α → Prop) (xs : List α)
    (h : ∃ x ∈ xs, ¬ P x) :
    ∃ (k : Nat) (x : α), xs[k]? = some x ∧ ¬ P x ∧
      ∀ (k' : Nat) (y : α), k' < k → xs[k']? = some y → P y := by
  induction xs with
  | nil =>
    obtain ⟨x, hx, -⟩ := h
    cases hx
  | cons a rest ih =>
    by_cases ha : P a
    · obtain ⟨x, hx, hnx⟩ := h
      have hrest : ∃ x ∈ rest, ¬ P x := by
        rcases List.mem_cons.1 hx with rfl | hmem
        · exact absurd ha hnx
        · exact ⟨x, hmem, hnx⟩
      obtain ⟨k, y, hk, hny, hfirst⟩ := ih hrest
      refine ⟨k + 1, y, by simpa using hk, hny, ?_⟩
      intro k' z hk' hz
      cases k' with
      | zero =>
        simp only [List.getElem?_cons_zero, Option.some.injEq] at hz
        rw [← hz]
        exact ha
      | succ k'' => exact hfirst k'' z (by omega) (by simpa using hz)
    · exact ⟨0, a, by simp, ha, fun k' y hk' _ => absurd hk' (Nat.not_lt_zero k')⟩

namespace azbi

open validator shared

theorem AzBI_subnetName_empty (params : Params) (i j : Nat) (sl : StructLevel) :
    AzBISubnetsValidation.subnetName params i j "" sl =
      .ret (sl ++ [.ReportError
        ("VmGroups[" ++ toString i ++ "].SubnetNames[" ++ toString j ++ "]")
        ("SubnetNames[" ++ toString j ++ "]") "required" ""]) := by
  simp [AzBISubnetsValidation.subnetName]

/-- The one call of `AzBISubnetsValidation` when reference `j` of VM group `i` is the first
that is empty or resolves nowhere: "required" for the empty name, "insubnets" otherwise. -/
theorem AzBI_first_bad (params : Params) (i j : Nat) (vmGroup : VmGroup) (sn : String)
    (hg : (elems params.VmGroups)[i]? = some vmGroup)
    (hn : (elems vmGroup.SubnetNames)[j]? = some sn)
    (hbad : ¬ (sn ≠ "" ∧ ∃ s ∈ elems params.Subnets, s.Name = some sn))
    (hfirst : ∀ i' j' g' sn', (elems params.VmGroups)[i']? = some g' →
      (elems g'.SubnetNames)[j']? = some sn' → i' < i ∨ (i' = i ∧ j' < j) →
      sn' ≠ "" ∧ ∃ s ∈ elems params.Subnets, s.Name = some sn') :
    AzBISubnetsValidation params =
      [.ReportError ("VmGroups[" ++ toString i ++ "].SubnetNames[" ++ toString j ++ "]")
        ("SubnetNames[" ++ toString j ++ "]") (if sn = "" then "required" else "insubnets")
        ""] := by
  by_cases hne : sn = ""
  · subst hne
    have hlen : (elems params.VmGroups).length > 0 := by
      cases hxs : elems params.VmGroups with
      | nil => simp [hxs] at hg
      | cons x xs => simp
    have hloop : rangeLoop (fun i (vmGroup : VmGroup) sl =>
        rangeLoop (AzBISubnetsValidation.subnetName params i) 0 (elems vmGroup.SubnetNames) sl)
        0 (elems params.VmGroups) ([] : StructLevel) =
        .ret ([] ++ [.ReportError
          ("VmGroups[" ++ toString i ++ "].SubnetNames[" ++ toString j ++ "]")
          ("SubnetNames[" ++ toString j ++ "]") "required" ""]) := by
      refine rangeLoop_skip _ _ i vmGroup [] 0 hg ?_ _ ?_
      · intro i' g' hi' hg'
        simp only [Nat.zero_add]
        refine rangeLoop_all_next _ _ _ 0 ?_
        intro j' sn' hsn'
        obtain ⟨h1, h2⟩ := hfirst i' j' g' sn' hg' hsn' (Or.inl hi')
        exact AzBI_subnetName_good params _ _ sn' [] h1 h2
      · simp only [Nat.zero_add]
        refine rangeLoop_skip _ _ j "" [] 0 hn ?_ _ ?_
        · intro j' sn' hj' hsn'
          obtain ⟨h1, h2⟩ := hfirst i j' vmGroup sn' hg hsn' (Or.inr ⟨rfl, hj'⟩)
          exact AzBI_subnetName_good params _ _ sn' [] h1 h2
        · simp only [Nat.zero_add]
          exact AzBI_subnetName_empty params i j []
    unfold AzBISubnetsValidation
    simp only [hlen, if_true, hloop, List.nil_append]
  · have hmiss : ∀ s ∈ elems params.Subnets, s.Name ≠ some sn :=
      fun s hs h => hbad ⟨hne, s, hs, h⟩
    rw [AzBI_first_missing params i j vmGroup sn hg hn hne hmiss hfirst, if_neg hne]

/-- `AzBISubnetsValidation` makes no call when every reference is a non-empty name of a
declared subnet. -/
theorem AzBI_all_good (params : Params)
    (hall : ∀ g ∈ elems params.VmGroups, ∀ sn ∈ elems g.SubnetNames,
      sn ≠ "" ∧ ∃ s ∈ elems params.Subnets, s.Name = some sn) :
    AzBISubnetsValidation params = [] := by
  have hloop : rangeLoop (fun i (vmGroup : VmGroup) sl =>
      rangeLoop (AzBISubnetsValidation.subnetName params i) 0 (elems vmGroup.SubnetNames) sl)
      0 (elems params.VmGroups) ([] : StructLevel) = .next [] := by
    refine rangeLoop_all_next _ _ _ 0 ?_
    intro i g hg
    simp only [Nat.zero_add]
    refine rangeLoop_all_next _ _ _ 0 ?_
    intro j sn hsn
    obtain ⟨h1, h2⟩ := hall g (List.getElem?_mem hg) sn (List.getElem?_mem hsn)
    exact AzBI_subnetName_good params _ _ sn [] h1 h2
  unfold AzBISubnetsValidation
  simp only [hloop]
  split <;> rfl

/-- When some reference is empty or resolves nowhere there is a first such reference, in the
order of the VM groups and, within a group, of its names. -/
theorem AzBI_exists_first_bad (params : Params)
    (hsome : ¬ ∀ g ∈ elems params.VmGroups, ∀ sn ∈ elems g.SubnetNames,
      sn ≠ "" ∧ ∃ s ∈ elems params.Subnets, s.Name = some sn) :
    ∃ (i j : Nat) (vmGroup : VmGroup) (sn : String),
      (elems params.VmGroups)[i]? = some vmGroup ∧
      (elems vmGroup.SubnetNames)[j]? = some sn ∧
      ¬ (sn ≠ "" ∧ ∃ s ∈ elems params.Subnets, s.Name = some sn) ∧
      ∀ (i' j' : Nat) (g' : VmGroup) (sn' : String), (elems params.VmGroups)[i']? = some g' →
        (elems g'.SubnetNames)[j']? = some sn' → i' < i ∨ (i' = i ∧ j' < j) →
        sn' ≠ "" ∧ ∃ s ∈ elems params.Subnets, s.Name = some sn' := by
  have hg : ∃ g ∈ elems params.VmGroups, ¬ ∀ sn ∈ elems g.SubnetNames,
      sn ≠ "" ∧ ∃ s ∈ elems params.Subnets, s.Name = some sn := by
    by_contra hno
    exact hsome (fun g hg => by
      by_contra hbad
      exact hno ⟨g, hg, hbad⟩)
  obtain ⟨i, vmGroup, hi, hgbad, hgfirst⟩ := exists_first_failing _ _ hg
  have hn : ∃ sn ∈ elems vmGroup.SubnetNames,
      ¬ (sn ≠ "" ∧ ∃ s ∈ elems params.Subnets, s.Name = some sn) := by
    by_contra hno
    exact hgbad (fun sn hsn => by
      by_contra hbad
      exact hno ⟨sn, hsn, hbad⟩)
  obtain ⟨j, sn, hj, hnbad, hnfirst⟩ := exists_first_failing _ _ hn
  refine ⟨i, j, vmGroup, sn, hi, hj, hnbad, ?_⟩
  intro i' j' g' sn' hg' hsn' hlt
  rcases hlt with hlt | ⟨rfl, hlt⟩
  · exact hgfirst i' g' hlt hg' sn' (List.getElem?_mem hsn')
  · rw [hi] at hg'
    cases hg'
    exact hnfirst j' sn' hlt hsn'

end azbi

namespace azbi

open validator shared

/-- The calls of `AzBISubnetsValidation` on example params: the empty name at index 1 is
reported and "missing" after it is not; the first of two names that resolve nowhere is
reported; the default params give no call. -/
theorem AzBISubnetsValidation_examples :
    AzBISubnetsValidation examples.emptyThenMissingParams =
      [.ReportError "VmGroups[0].SubnetNames[1]" "SubnetNames[1]" "required" ""] ∧
    AzBISubnetsValidation examples.twoMissingParams =
      [.ReportError "VmGroups[0].SubnetNames[0]" "SubnetNames[0]" "insubnets" ""] ∧
    AzBISubnetsValidation examples.someFreeSubnets = [] := by
  decide

/-- C28: `AzBISubnetsValidation` makes at most one report.  When reference `j` of VM group
`i` is the first, in the order of the groups and of the names within a group, that is empty
or is the name of no declared subnet, the one report is at `VmGroups[i].SubnetNames[j]`,
tagged "required" for the empty name and "insubnets" otherwise, whatever the references
after it are.  There is no report exactly when every reference is a non-empty name of a
declared subnet. -/
theorem C28_AzBI_stops_at_first_bad (params : Params) :
    (AzBISubnetsValidation params).length ≤ 1 ∧
    (∀ (i j : Nat) (vmGroup : VmGroup) (sn : String),
      (elems params.VmGroups)[i]? = some vmGroup →
      (elems vmGroup.SubnetNames)[j]? = some sn →
      ¬ (sn ≠ "" ∧ ∃ s ∈ elems params.Subnets, s.Name = some sn) →
      (∀ (i' j' : Nat) (g' : VmGroup) (sn' : String),
        (elems params.VmGroups)[i']? = some g' →
        (elems g'.SubnetNames)[j']? = some sn' → i' < i ∨ (i' = i ∧ j' < j) →
        sn' ≠ "" ∧ ∃ s ∈ elems params.Subnets, s.Name = some sn') →
      AzBISubnetsValidation params =
        [.ReportError ("VmGroups[" ++ toString i ++ "].SubnetNames[" ++ toString j ++ "]")
          ("SubnetNames[" ++ toString j ++ "]") (if sn = "" then "required" else "insubnets")
          ""]) ∧
    (AzBISubnetsValidation params = [] ↔
      ∀ g ∈ elems params.VmGroups, ∀ sn ∈ elems g.SubnetNames,
        sn ≠ "" ∧ ∃ s ∈ elems params.Subnets, s.Name = some sn) := by
  refine ⟨?_, ?_, ?_, ?_⟩
  · by_cases hall : ∀ g ∈ elems params.VmGroups, ∀ sn ∈ elems g.SubnetNames,
        sn ≠ "" ∧ ∃ s ∈ elems params.Subnets, s.Name = some sn
    · rw [AzBI_all_good params hall]
      simp
    · obtain ⟨i, j, vmGroup, sn, hg, hn, hbad, hfirst⟩ := AzBI_exists_first_bad params hall
      rw [AzBI_first_bad params i j vmGroup sn hg hn hbad hfirst]
      simp
  · intro i j vmGroup sn hg hn hbad hfirst
    exact AzBI_first_bad params i j vmGroup sn hg hn hbad hfirst
  · intro hnil
    by_contra hall
    obtain ⟨i, j, vmGroup, sn, hg, hn, hbad, hfirst⟩ := AzBI_exists_first_bad params hall
    rw [AzBI_first_bad params i j vmGroup sn hg hn hbad hfirst] at hnil
    cases hnil
  · exact AzBI_all_good params

end azbi

/-! ## A failing upgrade step -/

namespace azbi

open shared

/-- C30: on a state tree at "v0.0.1" whose `config` is absent, null or no object,
`State.UpgradeFunc` returns "incorrect casting" after one pass and leaves the tree with
`meta.version` at "v0.0.2"; on a config tree at "v0.2.0" whose `params` is no object,
`Config.UpgradeFunc` returns "incorrect casting" and leaves `meta.version` at "v0.2.1".  In
both the tree is the one of the call with the version marker replaced. -/
theorem C30_failed_step_keeps_bumped_version (fuel : Nat) (state config : Obj)
    (hs : GetVersion state = .ok "v0.0.1") (hsc : asMap (mapGet state "config") = none)
    (hc : GetVersion config = .ok "v0.2.0") (hcp : asMap (mapGet config "params") = none) :
    (∃ o meta, State.UpgradeFunc (fuel + 1) state = some o ∧
      o.err = some (.text "incorrect casting") ∧ o.iterations = 1 ∧
      GetVersion o.input = .ok "v0.0.2" ∧ mapGet state "meta" = some (.obj meta) ∧
      o.input = mapSet state "meta" (.obj (mapSet meta "version" (.str "v0.0.2")))) ∧
    (∃ o meta, Config.UpgradeFunc (fuel + 1) config = some o ∧
      o.err = some (.text "incorrect casting") ∧ o.iterations = 1 ∧
      GetVersion o.input = .ok "v0.2.1" ∧ mapGet config "meta" = some (.obj meta) ∧
      o.input = mapSet config "meta" (.obj (mapSet meta "version" (.str "v0.2.1")))) := by
  constructor
  · obtain ⟨meta, hm, hmv⟩ := (GetVersion_eq_ok _ _).1 hs
    exact ⟨_, meta, State_run_of_old_bad fuel state meta hm hmv hsc, rfl, rfl,
      GetVersion_bumped_meta _ _ _, hm, rfl⟩
  · obtain ⟨meta, hm, hmv⟩ := (GetVersion_eq_ok _ _).1 hc
    exact ⟨_, meta, Config_run_of_old_bad fuel config meta hm hmv hcp, rfl, rfl,
      GetVersion_bumped_meta _ _ _, hm, rfl⟩

/-- C30, witness: a state tree at "v0.0.1" with a null `config` and a config tree at
"v0.2.0" without `params`. -/
theorem C30_failed_step_keeps_bumped_version_witness :
    mapGet examples.oldStateNullConfig "config" = some .null ∧
    mapGet examples.oldConfigNoParams "params" = none ∧
    (∃ o meta, State.UpgradeFunc 1 examples.oldStateNullConfig = some o ∧
      o.err = some (.text "incorrect casting") ∧ o.iterations = 1 ∧
      GetVersion o.input = .ok "v0.0.2" ∧
      mapGet examples.oldStateNullConfig "meta" = some (.obj meta) ∧
      o.input = mapSet examples.oldStateNullConfig "meta"
        (.obj (mapSet meta "version" (.str "v0.0.2")))) ∧
    (∃ o meta, Config.UpgradeFunc 1 examples.oldConfigNoParams = some o ∧
      o.err = some (.text "incorrect casting") ∧ o.iterations = 1 ∧
      GetVersion o.input = .ok "v0.2.1" ∧
      mapGet examples.oldConfigNoParams "meta" = some (.obj meta) ∧
      o.input = mapSet examples.oldConfigNoParams "meta"
        (.obj (mapSet meta "version" (.str "v0.2.1")))) :=
  ⟨rfl, rfl,
    C30_failed_step_keeps_bumped_version 0 examples.oldStateNullConfig
      examples.oldConfigNoParams rfl rfl rfl rfl⟩

end azbi

/-! ## Upgrade and the file -/

namespace shared

theorem Upgrade_of_file {α : Type} (codec : json.Codec) (decoder : maps.Decoder α)
    (setUnused : α → List String → α) (upgradeFunc : Obj → Option Outcome) (fs : os.FS)
    (u : α) (path : String) (content : Bytes) (input : Obj) (o : Outcome)
    (hfile : fs path = .file content) (hparse : codec.decodeText content = .ok (.obj input))
    (hrun : upgradeFunc input = some o) :
    Upgrade codec decoder (some setUnused) upgradeFunc fs u path =
      some (match o.err with
        | some err => ⟨u, none, some err⟩
        | none =>
          match (decoder u o.input).err with
          | some msg => ⟨(decoder u o.input).target, none, some (.decode msg)⟩
          | none =>
            ⟨setUnused (decoder u o.input).target (decoder u o.input).unused,
              some (setUnused (decoder u o.input).target (decoder u o.input).unused),
              none⟩) := by
  simp only [Upgrade, os.Stat, os.IsNotExist, ioutil.ReadFile, json.Unmarshal, hfile, hparse,
    hrun]
  cases o.err with
  | some err => simp
  | none =>
    cases (decoder u o.input).err with
    | some msg => simp
    | none => simp

end shared

namespace azbi

open shared

/-- `Config.Upgrade` on a file that holds a tree: it returns, with the file system it was
given, and a nil error means that `Config.UpgradeFunc` returned nil, that the receiver is what
the decoder made of the upgraded tree, with `Unused` set, and that it passes `Validate`. -/
theorem Config_Upgrade_of_file (fuel : Nat) (codec : json.Codec)
    (decoder : maps.Decoder Config) (structErrors : validator.StructErrors Config)
    (fs : os.FS) (c : Config) (path : String) (content : Bytes) (input : Obj)
    (hfile : fs path = .file content) (hparse : codec.decodeText content = .ok (.obj input)) :
    ∃ o r, Config.UpgradeFunc (fuel + 2) input = some o ∧
      Config.Upgrade (fuel + 2) codec decoder structErrors fs c path = some (fs, r) ∧
      (r.2 = none → o.err = none ∧ GetVersion o.input = .ok configVersion ∧
        r.1 = Config.SetUnused (decoder c o.input).target (decoder c o.input).unused ∧
        Config.Validate structErrors (some r.1) = none) := by
  obtain ⟨o, hrun, -, -, hcur⟩ := Config_run_total fuel input
  refine ⟨o, ?_⟩
  simp only [Config.Upgrade,
    Upgrade_of_file codec decoder _ _ fs c path content input o hfile hparse hrun, hrun]
  cases he : o.err with
  | some err => exact ⟨_, trivial, rfl, fun h => by simp at h⟩
  | none =>
    simp only
    cases hd : (decoder c o.input).err with
    | some msg => exact ⟨_, trivial, rfl, fun h => by simp at h⟩
    | none =>
      simp only
      cases hval : Config.Validate structErrors
          (some (Config.SetUnused (decoder c o.input).target (decoder c o.input).unused)) with
      | some err => exact ⟨_, trivial, rfl, fun h => by simp at h⟩
      | none => exact ⟨_, trivial, rfl, fun _ => ⟨trivial, hcur he, rfl, hval⟩⟩

/-- `State.Upgrade` on a file that holds a tree, as `Config_Upgrade_of_file`. -/
theorem State_Upgrade_of_file (fuel : Nat) (codec : json.Codec)
    (decoder : maps.Decoder State) (structErrors : validator.StructErrors State)
    (fs : os.FS) (s : State) (path : String) (content : Bytes) (input : Obj)
    (hfile : fs path = .file content) (hparse : codec.decodeText content = .ok (.obj input)) :
    ∃ o r, State.UpgradeFunc (fuel + 2) input = some o ∧
      State.Upgrade (fuel + 2) codec decoder structErrors fs s path = some (fs, r) ∧
      (r.2 = none → o.err = none ∧ GetVersion o.input = .ok stateVersion ∧
        r.1 = State.SetUnused (decoder s o.input).target (decoder s o.input).unused ∧
        State.Validate structErrors (some r.1) = none) := by
  obtain ⟨o, hrun, -, -, hcur⟩ := State_run_total fuel input
  refine ⟨o, ?_⟩
  simp only [State.Upgrade,
    Upgrade_of_file codec decoder _ _ fs s path content input o hfile hparse hrun, hrun]
  cases he : o.err with
  | some err => exact ⟨_, trivial, rfl, fun h => by simp at h⟩
  | none =>
    simp only
    cases hd : (decoder s o.input).err with
    | some msg => exact ⟨_, trivial, rfl, fun h => by simp at h⟩
    | none =>
      simp only
      cases hval : State.Validate structErrors
          (some (State.SetUnused (decoder s o.input).target (decoder s o.input).unused)) with
      | some err => exact ⟨_, trivial, rfl, fun h => by simp at h⟩
      | none => exact ⟨_, trivial, rfl, fun _ => ⟨trivial, hcur he, rfl, hval⟩⟩

end azbi

namespace azbi

open shared

/-- C26, counterexample: `Config.Upgrade` succeeds on a file that holds a config tree at
"v0.2.0", and the file system after the call is the one before it: the file still holds the
tree at "v0.2.0", and `Config.Load` of it returns `NotCurrentVersionError`. -/
theorem C26_Upgrade_does_not_write :
    GetVersion examples.oldConfig = .ok "v0.2.0" ∧
    Config.Upgrade 2 examples.codecOldConfig examples.defaultDecoder
        (Config.Struct (Config.tagErrors validator.examples.checks)) examples.fsOneFile {}
        "config.json" =
      some (examples.fsOneFile, Config.SetUnused (Config.Init {} "v0.0.1") [], none) ∧
    Config.Load examples.codecOldConfig examples.defaultDecoder
        (Config.Struct (Config.tagErrors validator.examples.checks)) examples.fsOneFile {}
        "config.json" =
      ({}, some (.NotCurrentVersionError "v0.2.0")) :=
  ⟨rfl, rfl, rfl⟩

/-- C26, amended: on a file that holds a tree, `Config.Upgrade` and `State.Upgrade` return,
and a nil error means that `UpgradeFunc` brought the tree to the current version and that the
receiver holds what the decoder made of that tree, validated.  The file is not written: the
file system after the call is the one before it, the file holds what it held, and when its
version was not the current one `Load` of it still returns `NotCurrentVersionError`. -/
theorem C26_Upgrade_returns_document_keeps_file (fuel : Nat) (codec : json.Codec)
    (cdec : maps.Decoder Config) (sdec : maps.Decoder State)
    (cerrs : validator.StructErrors Config) (serrs : validator.StructErrors State)
    (fs : os.FS) (path : String) (content : Bytes) (input : Obj) (v : String)
    (c c' : Config) (st st' : State)
    (hfile : fs path = .file content) (hparse : codec.decodeText content = .ok (.obj input))
    (hv : GetVersion input = .ok v) :
    (∃ o r, Config.UpgradeFunc (fuel + 2) input = some o ∧
      Config.Upgrade (fuel + 2) codec cdec cerrs fs c path = some (fs, r) ∧
      (r.2 = none → o.err = none ∧ GetVersion o.input = .ok configVersion ∧
        r.1 = Config.SetUnused (cdec c o.input).target (cdec c o.input).unused ∧
        Config.Validate cerrs (some r.1) = none)) ∧
    (∀ fs' r, Config.Upgrade (fuel + 2) codec cdec cerrs fs c path = some (fs', r) →
      fs' = fs ∧ fs' path = .file content ∧
      (v ≠ configVersion →
        Config.Load codec cdec cerrs fs' c' path = (c', some (.NotCurrentVersionError v)))) ∧
    (∃ o r, State.UpgradeFunc (fuel + 2) input = some o ∧
      State.Upgrade (fuel + 2) codec sdec serrs fs st path = some (fs, r) ∧
      (r.2 = none → o.err = none ∧ GetVersion o.input = .ok stateVersion ∧
        r.1 = State.SetUnused (sdec st o.input).target (sdec st o.input).unused ∧
        State.Validate serrs (some r.1) = none)) ∧
    (∀ fs' r, State.Upgrade (fuel + 2) codec sdec serrs fs st path = some (fs', r) →
      fs' = fs ∧ fs' path = .file content ∧
      (v ≠ stateVersion →
        State.Load codec sdec serrs fs' st' path =
          (st', some (.NotCurrentVersionError v)))) := by
  have hcu := Config_Upgrade_of_file fuel codec cdec cerrs fs c path content input hfile hparse
  have hsu := State_Upgrade_of_file fuel codec sdec serrs fs st path content input hfile hparse
  refine ⟨hcu, ?_, hsu, ?_⟩
  · intro fs' r hup
    obtain ⟨o, r0, -, hup0, -⟩ := hcu
    rw [hup0] at hup
    have hfs : fs' = fs := by
      have := congrArg (fun x => x.map Prod.fst) hup
      simpa using this.symm
    subst hfs
    exact ⟨rfl, hfile, fun hne =>
      Config_Load_stale codec cdec cerrs fs' c' path content input v hfile hparse hv hne⟩
  · intro fs' r hup
    obtain ⟨o, r0, -, hup0, -⟩ := hsu
    rw [hup0] at hup
    have hfs : fs' = fs := by
      have := congrArg (fun x => x.map Prod.fst) hup
      simpa using this.symm
    subst hfs
    exact ⟨rfl, hfile, fun hne =>
      State_Load_stale codec sdec serrs fs' st' path content input v hfile hparse hv hne⟩

/-- C26, witness: the file `config.json` of the examples, whose tree is at "v0.2.0". -/
theorem C26_Upgrade_returns_document_keeps_file_witness :
    ∃ o r, Config.UpgradeFunc 2 examples.oldConfig = some o ∧
      Config.Upgrade 2 examples.codecOldConfig examples.defaultDecoder
        examples.requiredOfConfig examples.fsOneFile {} "config.json" =
          some (examples.fsOneFile, r) ∧
      (r.2 = none → o.err = none ∧ GetVersion o.input = .ok configVersion ∧
        r.1 = Config.SetUnused (examples.defaultDecoder {} o.input).target
          (examples.defaultDecoder {} o.input).unused ∧
        Config.Validate examples.requiredOfConfig (some r.1) = none) :=
  (C26_Upgrade_returns_document_keeps_file 0 examples.codecOldConfig examples.defaultDecoder
    (examples.failingDecoder State) examples.requiredOfConfig examples.requiredOfState
    examples.fsOneFile "config.json" [123, 125] examples.oldConfig "v0.2.0" {} {} {} {}
    rfl rfl rfl).1

end azbi

/-! ## Save, then Load -/

namespace azbi

open validator shared

/-- The value tree of a config is an object whose version marker is the `Version` of its
`Meta`. -/
theorem Config_toJSON_version (d : Config) (m : Meta) (v : String) (hm : d.Meta = some m)
    (hv : m.Version = some v) :
    ∃ input, Config.toJSON d = .obj input ∧ GetVersion input = .ok v := by
  refine ⟨_, rfl, ?_⟩
  simp [GetVersion, mapGet, asMap, asString, hm, hv, json.ofPtr, json.ofStrPtr, Meta.toJSON]

end azbi

/-! ## Decoding the value tree of a config -/

namespace maps

theorem truncate_intCast (n : ℤ) : truncate (n : ℚ) = n := by
  unfold truncate
  split <;> simp

theorem decode_ofStrPtr (name : String) (x : Option String) :
    decode (decodePtr "" decodeString) name (json.ofStrPtr x) none = ⟨x, [], []⟩ := by
  cases x <;> rfl

theorem decode_ofBoolPtr (name : String) (x : Option Bool) :
    decode (decodePtr false decodeBool) name (json.ofBoolPtr x) none = ⟨x, [], []⟩ := by
  cases x <;> rfl

theorem decode_ofIntPtr (name : String) (x : Option Int) :
    decode (decodePtr 0 decodeInt) name (json.ofIntPtr x) none = ⟨x, [], []⟩ := by
  cases x with
  | none => rfl
  | some n => simp [json.ofIntPtr, decode, decodePtr, decodeInt, truncate_intCast]

/-- A pointer to a struct is rebuilt from the value tree of what it points to, when the
struct is. -/
theorem decode_ofPtr {α : Type} (zero : α) (kind : String → JSON → α → Step α)
    (f : α → JSON) (h : ∀ name y, decode kind name (f y) zero = ⟨y, [], []⟩)
    (hf : ∀ y, f y ≠ .null) (name : String) (x : Option α) :
    decode (decodePtr zero kind) name (json.ofPtr f x) none = ⟨x, [], []⟩ := by
  cases x with
  | none => rfl
  | some y =>
    have hd : decode (decodePtr zero kind) name (f y) none =
        decodePtr zero kind name (f y) none := by
      unfold decode
      split
      · rename_i heq
        exact absurd heq (hf y)
      · rfl
    simp only [json.ofPtr, hd, decodePtr, Option.getD, h]
    rfl

/-- The loop over an array rebuilds a list from the value trees of its elements. -/
theorem decodeSlice_loop_map {α : Type} (zero : α) (kind : String → JSON → α → Step α)
    (f : α → JSON) (h : ∀ name y, decode kind name (f y) zero = ⟨y, [], []⟩)
    (name : String) (i : Nat) (xs : List α) :
    decodeSlice.loop zero kind name i (xs.map f) [] = ⟨xs, [], []⟩ := by
  induction xs generalizing i with
  | nil => rfl
  | cons x rest ih =>
    simp only [List.map_cons, decodeSlice.loop, List.headD_nil, List.tail_nil, h, ih]
    rfl

/-- A slice is rebuilt from its value tree. -/
theorem decode_ofSlice {α : Type} (zero : α) (kind : String → JSON → α → Step α)
    (f : α → JSON) (h : ∀ name y, decode kind name (f y) zero = ⟨y, [], []⟩)
    (name : String) (xs : Option (List α)) :
    decode (decodeSlice zero kind) name (json.ofSlice f xs) none = ⟨xs, [], []⟩ := by
  cases xs with
  | none => rfl
  | some ys =>
    simp only [json.ofSlice, decode, decodeSlice, elems, decodeSlice_loop_map zero kind f h]

theorem decode_str (name : String) (s : String) :
    decode decodeString name (JSON.str s) "" = ⟨s, [], []⟩ := rfl

end maps

namespace azbi

open maps

theorem Meta_decode_toJSON (name : String) (m : Meta) :
    decode (decodeStruct Meta.jsonFields) name (Meta.toJSON m) {} = ⟨m, [], []⟩ := by
  have h : decode (decodeStruct Meta.jsonFields) name (Meta.toJSON m) {} =
      decodeStruct Meta.jsonFields name (Meta.toJSON m) {} := rfl
  rw [h]
  simp [decodeStruct, Meta.jsonFields, Meta.toJSON, lookup, mapGet, field,
    decode_ofStrPtr, List.eraseDups, List.eraseDups.loop]

theorem Subnet_decode_toJSON (name : String) (x : Subnet) :
    decode (decodeStruct Subnet.jsonFields) name (Subnet.toJSON x) {} = ⟨x, [], []⟩ := by
  have h : decode (decodeStruct Subnet.jsonFields) name (Subnet.toJSON x) {} =
      decodeStruct Subnet.jsonFields name (Subnet.toJSON x) {} := rfl
  rw [h]
  simp [decodeStruct, Subnet.jsonFields, Subnet.toJSON, lookup, mapGet, field,
    decode_ofStrPtr, decode_ofSlice "" decodeString JSON.str decode_str, List.eraseDups,
    List.eraseDups.loop]

theorem VmImage_decode_toJSON (name : String) (x : VmImage) :
    decode (decodeStruct VmImage.jsonFields) name (VmImage.toJSON x) {} = ⟨x, [], []⟩ := by
  have h : decode (decodeStruct VmImage.jsonFields) name (VmImage.toJSON x) {} =
      decodeStruct VmImage.jsonFields name (VmImage.toJSON x) {} := rfl
  rw [h]
  simp [decodeStruct, VmImage.jsonFields, VmImage.toJSON, lookup, mapGet, field,
    decode_ofStrPtr, List.eraseDups, List.eraseDups.loop]

theorem DataDisk_decode_toJSON (name : String) (x : DataDisk) :
    decode (decodeStruct DataDisk.jsonFields) name (DataDisk.toJSON x) {} = ⟨x, [], []⟩ := by
  have h : decode (decodeStruct DataDisk.jsonFields) name (DataDisk.toJSON x) {} =
      decodeStruct DataDisk.jsonFields name (DataDisk.toJSON x) {} := rfl
  rw [h]
  simp [decodeStruct, DataDisk.jsonFields, DataDisk.toJSON, lookup, mapGet, field,
    decode_ofStrPtr, decode_ofIntPtr, List.eraseDups, List.eraseDups.loop]

theorem VmGroup_decode_toJSON (name : String) (x : VmGroup) :
    decode (decodeStruct VmGroup.jsonFields) name (VmGroup.toJSON x) {} = ⟨x, [], []⟩ := by
  have h : decode (decodeStruct VmGroup.jsonFields) name (VmGroup.toJSON x) {} =
      decodeStruct VmGroup.jsonFields name (VmGroup.toJSON x) {} := rfl
  rw [h]
  have himage := decode_ofPtr ({} : VmImage) (decodeStruct VmImage.jsonFields) VmImage.toJSON
    VmImage_decode_toJSON (fun y => by simp [VmImage.toJSON])
  have hdisks := decode_ofSlice ({} : DataDisk) (decodeStruct DataDisk.jsonFields)
    DataDisk.toJSON DataDisk_decode_toJSON
  have hnames := decode_ofSlice "" decodeString JSON.str decode_str
  simp [decodeStruct, VmGroup.jsonFields, VmGroup.toJSON, lookup, mapGet, field,
    decode_ofStrPtr, decode_ofIntPtr, decode_ofBoolPtr, hnames, himage, hdisks,
    List.eraseDups, List.eraseDups.loop]

theorem Params_decode_toJSON (name : String) (x : Params) :
    decode (decodeStruct Params.jsonFields) name (Params.toJSON x) {} = ⟨x, [], []⟩ := by
  have h : decode (decodeStruct Params.jsonFields) name (Params.toJSON x) {} =
      decodeStruct Params.jsonFields name (Params.toJSON x) {} := rfl
  rw [h]
  have hsubnets := decode_ofSlice ({} : Subnet) (decodeStruct Subnet.jsonFields)
    Subnet.toJSON Subnet_decode_toJSON
  have hgroups := decode_ofSlice ({} : VmGroup) (decodeStruct VmGroup.jsonFields)
    VmGroup.toJSON VmGroup_decode_toJSON
  have hnames := decode_ofSlice "" decodeString JSON.str decode_str
  simp [decodeStruct, Params.jsonFields, Params.toJSON, lookup, mapGet, field,
    decode_ofStrPtr, hnames, hsubnets, hgroups, List.eraseDups, List.eraseDups.loop]

/-- Decoding the value tree of a config into a fresh `Config` rebuilds its `Meta` and
`Params`, finds no unused key and no error; `Unused` stays nil. -/
theorem Config_Decode_toJSON (d : Config) (input : Obj) (h : Config.toJSON d = .obj input) :
    Config.Decode {} input = ⟨{ d with Unused := none }, [], none⟩ := by
  have hinput : input = [("meta", json.ofPtr Meta.toJSON d.Meta),
      ("params", json.ofPtr Params.toJSON d.Params)] := by
    simp only [Config.toJSON, JSON.obj.injEq] at h
    exact h.symm
  subst hinput
  have hmeta := decode_ofPtr ({} : Meta) (decodeStruct Meta.jsonFields) Meta.toJSON
    Meta_decode_toJSON (fun y => by simp [Meta.toJSON])
  have hparams := decode_ofPtr ({} : Params) (decodeStruct Params.jsonFields) Params.toJSON
    Params_decode_toJSON (fun y => by simp [Params.toJSON])
  simp [Config.Decode, decodeStruct, Config.jsonFields, lookup, mapGet, field,
    hmeta, hparams, equalFold, foldChar, List.eraseDups, List.eraseDups.loop]

end azbi

/-! ## Numbers that a `float64` holds -/

namespace float64

theorem roundEven_intCast (k : ℤ) : roundEven (k : ℚ) = k := by
  simp [roundEven]

/-- An integer of magnitude below 2 ^ 53 is a `float64`. -/
theorem round_intCast (n : ℤ) (h : |n| < 2 ^ 53) : round (n : ℚ) = n := by
  by_cases h0 : n = 0
  · simp [round, h0]
  have hq : (n : ℚ) ≠ 0 := by exact_mod_cast h0
  have habs : |(n : ℚ)| = ((n.natAbs : ℕ) : ℚ) := by
    rw [Nat.cast_natAbs, Int.cast_abs]
  have hnat : n.natAbs < 2 ^ 53 := by
    have : ((n.natAbs : ℕ) : ℤ) < 2 ^ 53 := by rw [← Int.abs_eq_natAbs]; exact h
    exact_mod_cast this
  have hpos : n.natAbs ≠ 0 := by simpa using h0
  have hL : Nat.log 2 n.natAbs < 53 := Nat.log_lt_of_lt_pow hpos hnat
  obtain ⟨k, hk⟩ : ∃ k : ℕ, Nat.log 2 n.natAbs + k = 52 := ⟨52 - Nat.log 2 n.natAbs, by omega⟩
  have he : Int.log 2 |(n : ℚ)| - 52 = -(k : ℤ) := by
    rw [habs, Int.log_natCast]
    omega
  have hdiv : |(n : ℚ)| / 2 ^ (-(k : ℤ)) = (((n.natAbs * 2 ^ k : ℕ) : ℤ) : ℚ) := by
    rw [zpow_neg, div_inv_eq_mul, zpow_natCast]
    push_cast
    rfl
  simp only [round, hq, if_false, he, hdiv, roundEven_intCast]
  rw [zpow_neg, zpow_natCast]
  push_cast
  have h2 : (2 : ℚ) ^ k ≠ 0 := by positivity
  rcases lt_or_gt_of_ne h0 with hneg | hpos'
  · have : (n : ℚ) < 0 := by exact_mod_cast hneg
    simp only [this, if_true]
    rw [abs_of_neg this]
    field_simp
  · have : ¬ (n : ℚ) < 0 := by
      have : (0 : ℚ) < n := by exact_mod_cast hpos'
      exact not_lt.2 this.le
    simp only [this, if_false]
    rw [abs_of_pos (by exact_mod_cast hpos')]
    field_simp

/-- The integer 2 ^ 53 + 1 is no `float64`: the nearest one is 2 ^ 53. -/
theorem round_big : round 9007199254740993 = 9007199254740992 := by
  have hlog : Int.log 2 |(9007199254740993 : ℚ)| = 53 := by
    have : |(9007199254740993 : ℚ)| = ((9007199254740993 : ℕ) : ℚ) := by norm_num
    rw [this, Int.log_natCast]
    have : Nat.log 2 9007199254740993 = 53 := by
      rw [Nat.log_eq_iff (by norm_num)]
      norm_num
    rw [this]
    rfl
  have hr : roundEven (|(9007199254740993 : ℚ)| / 2 ^ ((53 : ℤ) - 52)) = 4503599627370496 := by
    have hfloor : ⌊|(9007199254740993 : ℚ)| / 2 ^ ((53 : ℤ) - 52)⌋ = 4503599627370496 := by
      rw [Int.floor_eq_iff]
      norm_num
    simp only [roundEven, hfloor]
    norm_num
  simp only [round, hlog, hr]
  norm_num

end float64

namespace json

theorem float64List_map {α : Type} (f : α → JSON) (xs : List α)
    (h : ∀ x ∈ xs, JSON.float64 (f x) = f x) : JSON.float64List (xs.map f) = xs.map f := by
  induction xs with
  | nil => simp [JSON.float64List]
  | cons x rest ih =>
    simp only [List.map_cons, JSON.float64List]
    rw [h x (List.mem_cons_self _ _), ih (fun y hy => h y (List.mem_cons_of_mem _ hy))]

theorem float64_ofStrPtr (x : Option String) :
    JSON.float64 (ofStrPtr x) = ofStrPtr x := by
  cases x <;> simp [ofStrPtr, JSON.float64]

theorem float64_ofBoolPtr (x : Option Bool) :
    JSON.float64 (ofBoolPtr x) = ofBoolPtr x := by
  cases x <;> simp [ofBoolPtr, JSON.float64]

theorem float64_ofIntPtr (x : Option Int) (h : ∀ n, x = some n → float64.round n = n) :
    JSON.float64 (ofIntPtr x) = ofIntPtr x := by
  cases x with
  | none => simp [ofIntPtr, JSON.float64]
  | some n => simp [ofIntPtr, JSON.float64, h n rfl]

theorem float64_ofPtr {α : Type} (f : α → JSON) (x : Option α)
    (h : ∀ y, x = some y → JSON.float64 (f y) = f y) :
    JSON.float64 (ofPtr f x) = ofPtr f x := by
  cases x with
  | none => simp [ofPtr, JSON.float64]
  | some y => simpa [ofPtr] using h y rfl

theorem float64_ofSlice {α : Type} (f : α → JSON) (xs : Option (List α))
    (h : ∀ x ∈ elems xs, JSON.float64 (f x) = f x) :
    JSON.float64 (ofSlice f xs) = ofSlice f xs := by
  cases xs with
  | none => simp [ofSlice, JSON.float64]
  | some ys =>
    simp only [ofSlice, JSON.float64]
    rw [float64List_map f ys (fun x hx => h x (by simpa [elems] using hx))]

theorem float64_strings (xs : Option (List String)) :
    JSON.float64 (ofSlice JSON.str xs) = ofSlice JSON.str xs :=
  float64_ofSlice JSON.str xs (fun x _ => by simp [JSON.float64])

end json

namespace azbi

open maps json

theorem Meta_float64 (m : Meta) : JSON.float64 (Meta.toJSON m) = Meta.toJSON m := by
  simp [Meta.toJSON, JSON.float64, JSON.float64Obj, float64_ofStrPtr]

theorem Subnet_float64 (x : Subnet) : JSON.float64 (Subnet.toJSON x) = Subnet.toJSON x := by
  simp [Subnet.toJSON, JSON.float64, JSON.float64Obj, float64_ofStrPtr, float64_strings]

theorem VmImage_float64 (x : VmImage) : JSON.float64 (VmImage.toJSON x) = VmImage.toJSON x := by
  simp [VmImage.toJSON, JSON.float64, JSON.float64Obj, float64_ofStrPtr]

theorem DataDisk_float64 (x : DataDisk) (h : ∀ n, x.GbSize = some n → float64.round n = n) :
    JSON.float64 (DataDisk.toJSON x) = DataDisk.toJSON x := by
  simp [DataDisk.toJSON, JSON.float64, JSON.float64Obj, float64_ofStrPtr,
    float64_ofIntPtr x.GbSize h]

theorem VmGroup_float64 (g : VmGroup) (hc : ∀ n, g.VmCount = some n → float64.round n = n)
    (hd : ∀ x ∈ elems g.DataDisks, ∀ n, x.GbSize = some n → float64.round n = n) :
    JSON.float64 (VmGroup.toJSON g) = VmGroup.toJSON g := by
  simp [VmGroup.toJSON, JSON.float64, JSON.float64Obj, float64_ofStrPtr, float64_ofBoolPtr,
    float64_strings, float64_ofIntPtr g.VmCount hc,
    float64_ofPtr VmImage.toJSON g.VmImage (fun y _ => VmImage_float64 y),
    float64_ofSlice DataDisk.toJSON g.DataDisks (fun x hx => DataDisk_float64 x (hd x hx))]

theorem Params_float64 (p : Params)
    (h : ∀ g ∈ elems p.VmGroups, (∀ n, g.VmCount = some n → float64.round n = n) ∧
      ∀ x ∈ elems g.DataDisks, ∀ n, x.GbSize = some n → float64.round n = n) :
    JSON.float64 (Params.toJSON p) = Params.toJSON p := by
  simp [Params.toJSON, JSON.float64, JSON.float64Obj, float64_ofStrPtr, float64_strings,
    float64_ofSlice Subnet.toJSON p.Subnets (fun x _ => Subnet_float64 x),
    float64_ofSlice VmGroup.toJSON p.VmGroups
      (fun g hg => VmGroup_float64 g (h g hg).1 (h g hg).2)]

/-- The value tree of a config whose integers are `float64` numbers is made of `float64`
numbers. -/
theorem Config_float64 (d : Config)
    (h : ∀ p, d.Params = some p → ∀ g ∈ elems p.VmGroups,
      (∀ n, g.VmCount = some n → float64.round n = n) ∧
      ∀ x ∈ elems g.DataDisks, ∀ n, x.GbSize = some n → float64.round n = n) :
    JSON.float64 (Config.toJSON d) = Config.toJSON d := by
  simp [Config.toJSON, JSON.float64, JSON.float64Obj,
    float64_ofPtr Meta.toJSON d.Meta (fun y _ => Meta_float64 y),
    float64_ofPtr Params.toJSON d.Params (fun p hp => Params_float64 p (h p hp))]

/-- The integers of the default config with a count below 2 ^ 53 are `float64` numbers. -/
theorem countConfig_numbers (c : Int) (hc : |c| < 2 ^ 53) :
    ∀ p, (examples.countConfig c).Params = some p → ∀ g ∈ elems p.VmGroups,
      (∀ n, g.VmCount = some n → float64.round n = n) ∧
      ∀ x ∈ elems g.DataDisks, ∀ n, x.GbSize = some n → float64.round n = n := by
  intro p hp g hg
  simp only [examples.countConfig, Option.some.injEq] at hp
  subst hp
  simp only [elems, List.mem_singleton] at hg
  subst hg
  refine ⟨fun n hn => ?_, fun x hx n hn => ?_⟩
  · simp only [Option.some.injEq] at hn
    subst hn
    exact float64.round_intCast _ hc
  · simp only [elems, List.mem_singleton] at hx
    subst hx
    simp only [Option.some.injEq] at hn
    subst hn
    exact float64.round_intCast 10 (by norm_num)

/-- The test "unknown fields in multiple places" of `TestConfig_Load`: the decoder rebuilds
the config of the test from its tree and reports the two keys that no field takes, the inner
one first. -/
theorem Config_Decode_unknown_fields :
    Config.Decode {} examples.unknownFieldsTree =
      ⟨{ examples.unknownFieldsConfig with Unused := none },
        ["params.extra_inner_field", "extra_outer_field"], none⟩ ∧
    Config.Load examples.codecUnknownFields Config.Decode
        (Config.Struct (Config.tagErrors validator.examples.checks)) examples.fsOneFile {}
        "config.json" = (examples.unknownFieldsConfig, none) := by
  constructor <;> rfl

/-- The test "minimal correct json" of `TestConfig_Load`: keys that the tree lacks leave nil
fields, the empty array gives the empty slice that is not nil, and no key is unused. -/
theorem Config_Decode_minimal :
    Config.Decode {} examples.minimalTree =
      ⟨{ examples.minimalConfig with Unused := none }, [], none⟩ ∧
    Config.SetUnused (Config.Decode {} examples.minimalTree).target
      (Config.Decode {} examples.minimalTree).unused = examples.minimalConfig := by
  constructor <;> rfl

/-- What `Load` into a new `Config` returns when the JSON library reads the value tree of a
config `r` that is of the current version and passes `Validate`: `r`, with the empty
`Unused`. -/
theorem Config_Load_of_read (codec : json.Codec) (k : validator.Checks) (fs : os.FS)
    (r : Config) (path : String) (content : Bytes) (m : Meta)
    (hfile : fs path = .file content)
    (hread : codec.decodeText content = .ok (Config.toJSON r))
    (hm : r.Meta = some m) (hv : m.Version = some configVersion)
    (hvalid : Config.Validate (Config.Struct (Config.tagErrors k)) (some r) = none) :
    Config.Load codec Config.Decode (Config.Struct (Config.tagErrors k)) fs {} path =
      ({ r with Unused := some [] }, none) := by
  obtain ⟨input, htree, hversion⟩ := Config_toJSON_version r m configVersion hm hv
  have hparse : codec.decodeText content = .ok (.obj input) := by
    rw [hread, htree]
  have hval : Config.Validate (Config.Struct (Config.tagErrors k))
      (some { r with Unused := some [] }) = none := by
    simp only [Config.Validate, (Config_Unused_unread k r (some [])).2]
    simpa only [Config.Validate] using hvalid
  simp only [Config.Load, shared.Load_of_file codec Config.Decode _ fs {} path _ content input
    hfile hparse, shared.checkVersion_of_ok input configVersion _ hversion, ne_eq,
    not_true_eq_false, if_false, Config_Decode_toJSON r input htree, Config.SetUnused, hval]

/-- C25, counterexample: three configs that pass `Validate` and have the empty `Unused`, each
saved by `Save` (which returns nil) and loaded from the file.  The default config with the
version "v0.100.0": `Load` returns `NotCurrentVersionError`.  The default config with
2 ^ 53 + 1 virtual machines, where the JSON library reads back the tree it wrote, each number
as the nearest `float64`: `Load` into a new `Config` returns nil and yields 2 ^ 53 virtual
machines.  The default config without address space, subnets and subnet names, of the current
version, where the JSON library reads back the tree it wrote: `Load` into a receiver that
holds the default config returns nil and yields the default config, address space and subnets
included. -/
theorem C25_round_trip_can_fail :
    (Config.Validate (Config.Struct (Config.tagErrors validator.examples.checks))
        (some examples.minorVersionConfig) = none ∧
      examples.minorVersionConfig.Unused = some [] ∧
      (Config.Save examples.codecMinorVersion
        (Config.Struct (Config.tagErrors validator.examples.checks)) examples.fsEmpty
        examples.minorVersionConfig "config.json").2 = none ∧
      Config.Load examples.codecMinorVersion Config.Decode
          (Config.Struct (Config.tagErrors validator.examples.checks))
          (Config.Save examples.codecMinorVersion
            (Config.Struct (Config.tagErrors validator.examples.checks)) examples.fsEmpty
            examples.minorVersionConfig "config.json").1 {} "config.json" =
        ({}, some (.NotCurrentVersionError "v0.100.0"))) ∧
    (Config.Validate (Config.Struct (Config.tagErrors validator.examples.checks))
        (some (examples.countConfig 9007199254740993)) = none ∧
      (examples.countConfig 9007199254740993).Unused = some [] ∧
      (Config.Save examples.codecHugeCount
        (Config.Struct (Config.tagErrors validator.examples.checks)) examples.fsEmpty
        (examples.countConfig 9007199254740993) "config.json").2 = none ∧
      examples.codecHugeCount.decodeText (examples.codecHugeCount.encodeIndent "" "\t"
          (Config.toJSON (examples.countConfig 9007199254740993))) =
        .ok (JSON.float64 (Config.toJSON (examples.countConfig 9007199254740993))) ∧
      Config.Load examples.codecHugeCount Config.Decode
          (Config.Struct (Config.tagErrors validator.examples.checks))
          (Config.Save examples.codecHugeCount
            (Config.Struct (Config.tagErrors validator.examples.checks)) examples.fsEmpty
            (examples.countConfig 9007199254740993) "config.json").1 {} "config.json" =
        (examples.countConfig 9007199254740992, none) ∧
      examples.countConfig 9007199254740992 ≠ examples.countConfig 9007199254740993) ∧
    (Config.Validate (Config.Struct (Config.tagErrors validator.examples.checks))
        (some examples.bareConfig) = none ∧
      examples.bareConfig.Unused = some [] ∧
      (Config.Save examples.codecBare
        (Config.Struct (Config.tagErrors validator.examples.checks)) examples.fsEmpty
        examples.bareConfig "config.json").2 = none ∧
      examples.codecBare.decodeText (examples.codecBare.encodeIndent "" "\t"
          (Config.toJSON examples.bareConfig)) =
        .ok (JSON.float64 (Config.toJSON examples.bareConfig)) ∧
      Config.Load examples.codecBare Config.Decode
          (Config.Struct (Config.tagErrors validator.examples.checks))
          (Config.Save examples.codecBare
            (Config.Struct (Config.tagErrors validator.examples.checks)) examples.fsEmpty
            examples.bareConfig "config.json").1 (Config.Init {} "v0.0.1") "config.json" =
        (Config.Init {} "v0.0.1", none) ∧
      Config.Init {} "v0.0.1" ≠ examples.bareConfig) := by
  refine ⟨⟨rfl, rfl, rfl, rfl⟩, ⟨rfl, rfl, rfl, ?_, ?_, ?_⟩, ⟨rfl, rfl, rfl, ?_, ?_, ?_⟩⟩
  · have h10 : float64.round 10 = 10 := by
      simpa using float64.round_intCast 10 (by norm_num)
    simp [examples.codecHugeCount, examples.countConfig, Config.toJSON, Params.toJSON,
      VmGroup.toJSON, DataDisk.toJSON, VmImage.toJSON, Subnet.toJSON, Meta.toJSON, ofPtr,
      ofSlice, ofStrPtr, ofIntPtr, ofBoolPtr, JSON.float64, JSON.float64Obj, JSON.float64List,
      float64.round_big, h10]
  · exact Config_Load_of_read examples.codecHugeCount validator.examples.checks _
      (examples.countConfig 9007199254740992) "config.json" [1]
      { Kind := some "azbiConfig", Version := some "v0.2.1", ModuleVersion := some "v0.0.1" }
      rfl rfl rfl rfl rfl
  · decide
  · have hbare : JSON.float64 (Config.toJSON examples.bareConfig) =
        Config.toJSON examples.bareConfig := by
      apply Config_float64
      intro p hp g hg
      simp only [examples.bareConfig, Option.some.injEq] at hp
      subst hp
      simp only [elems, List.mem_singleton] at hg
      subst hg
      refine ⟨fun n hn => ?_, fun x hx n hn => ?_⟩
      · simp only [Option.some.injEq] at hn
        subst hn
        exact float64.round_intCast 1 (by norm_num)
      · simp only [elems, List.mem_singleton] at hx
        subst hx
        simp only [Option.some.injEq] at hn
        subst hn
        exact float64.round_intCast 10 (by norm_num)
    rw [hbare]
    rfl
  · rfl
  · decide

/-- C25, amended: for a config `d` that passes `Validate`, whose `meta.version` is the
current version and whose integers (`vm_count`, `disk_size_gb`) are `float64` numbers, saved
where a file can be written, `Load` of the file into a new `Config` returns nil and leaves the
receiver equal to `d` with `Unused` set to the empty list, so equal to `d` when `Unused` of
`d` is the empty list.  The decoder is `Config.Decode`; of the JSON library it is taken that
`json.Unmarshal` reads from the text `json.MarshalIndent` wrote for `d` the value tree of `d`,
each number as the nearest `float64`. -/
theorem C25_Save_then_Load (codec : json.Codec) (k : validator.Checks) (fs : os.FS)
    (d : Config) (path : String) (m : Meta)
    (hvalid : Config.Validate (Config.Struct (Config.tagErrors k)) (some d) = none)
    (hm : d.Meta = some m) (hv : m.Version = some configVersion)
    (hnum : ∀ p, d.Params = some p → ∀ g ∈ elems p.VmGroups,
      (∀ n, g.VmCount = some n → float64.round n = n) ∧
      ∀ x ∈ elems g.DataDisks, ∀ n, x.GbSize = some n → float64.round n = n)
    (hfs : ∀ msg, fs path ≠ .faulty msg)
    (hcodec : codec.decodeText (codec.encodeIndent "" "\t" (Config.toJSON d)) =
      .ok (JSON.float64 (Config.toJSON d))) :
    Config.Load codec Config.Decode (Config.Struct (Config.tagErrors k))
        (Config.Save codec (Config.Struct (Config.tagErrors k)) fs d path).1 {} path =
      ({ d with Unused := some [] }, none) ∧
    (d.Unused = some [] →
      Config.Load codec Config.Decode (Config.Struct (Config.tagErrors k))
          (Config.Save codec (Config.Struct (Config.tagErrors k)) fs d path).1 {} path =
        (d, none)) := by
  have hsave : Config.Save codec (Config.Struct (Config.tagErrors k)) fs d path =
      (fun p => if p = path then .file (codec.encodeIndent "" "\t" (Config.toJSON d))
        else fs p, none) :=
    Save_of_valid codec Config.toJSON _ fs d path hvalid hfs
  have hfile : (Config.Save codec (Config.Struct (Config.tagErrors k)) fs d path).1 path =
      .file (codec.encodeIndent "" "\t" (Config.toJSON d)) := by
    rw [hsave]
    simp
  have hread : codec.decodeText (codec.encodeIndent "" "\t" (Config.toJSON d)) =
      .ok (Config.toJSON d) := by
    rw [hcodec, Config_float64 d hnum]
  have hload := Config_Load_of_read codec k _ d path _ m hfile hread hm hv hvalid
  refine ⟨hload, fun hu => ?_⟩
  rw [hload]
  congr 1
  cases d
  simp only at hu
  rw [hu]

/-- C25, witness: the default config, saved to `config.json` and loaded into a new
`Config`. -/
theorem C25_Save_then_Load_witness :
    Config.Load examples.codecDefault Config.Decode
        (Config.Struct (Config.tagErrors validator.examples.checks))
        (Config.Save examples.codecDefault
          (Config.Struct (Config.tagErrors validator.examples.checks)) examples.fsEmpty
          (Config.Init {} "v0.0.1") "config.json").1 {} "config.json" =
      (Config.Init {} "v0.0.1", none) :=
  (C25_Save_then_Load examples.codecDefault validator.examples.checks examples.fsEmpty
    (Config.Init {} "v0.0.1") "config.json"
    { Kind := some configKind, Version := some configVersion, ModuleVersion := some "v0.0.1" }
    rfl rfl rfl (countConfig_numbers 1 (by norm_num))
    (fun msg h => by simp [examples.fsEmpty] at h)
    (by
      rw [Config_float64 (Config.Init {} "v0.0.1") (countConfig_numbers 1 (by norm_num))]
      rfl)).2 rfl

end azbi
